import Mathlib

/-!
# guacamole-server: the client core (`src/libguac/client.c`)

A shallow embedding of `guac_client` and the operations of `client.c`:
the layer and buffer index pools, the intrusive doubly-linked user list
(`__users`, `__prev`, `__next`), the broadcast socket and the
suspend / resume / stop / abort operations; and of the lag control of the RDP
and VNC back-ends (`protocols/rdp/user.c`, `protocols/vnc/user.c`).

Conventions of the embedding.

* Pointers are natural numbers (`UserPtr`, `SocketPtr`, `FnPtr`); `NULL` is
  `none`.  The user structures live in a heap `World.users`.
* Calls that leave `client.c` (mutex operations, handler invocations through
  function pointers, socket calls, `guac_user_stop`) are recorded, in order, in
  `World.trace`.  Handlers are external code: their return values come from
  the environment `Env`, and they are taken to honour the reentrancy rule of
  `client.h` (they do not touch the user list).
* `int` and `guac_timestamp` values are mathematical integers; the counters of
  `client.c` (`connected_users`, layer indices) stay far from the machine
  bounds, which are therefore not modelled there.  The one place where a
  64-bit value is narrowed, `int lag` in the frame handlers, goes through
  `to_int32`.
* The `while` loop of `guac_client_foreach_user` takes a fuel argument and
  returns `none` when the fuel runs out.
-/

set_option autoImplicit false

namespace Guac

/-! ## Pointers and enumerations -/

/-- Address of a `guac_user`. -/
abbrev UserPtr := Nat

/-- Address of a `guac_socket`. -/
abbrev SocketPtr := Nat

/-- Address of a handler function. -/
abbrev FnPtr := Nat

/-- The type `guac_client_state` of `client-types.h`. -/
inductive guac_client_state where
  | GUAC_CLIENT_RUNNING
  | GUAC_CLIENT_STOPPING
deriving DecidableEq, Repr

/-- The type `guac_user_state` of `user-types.h`. -/
inductive guac_user_state where
  | GUAC_USER_RUNNING
  | GUAC_USER_SUSPENDED
deriving DecidableEq, Repr

/-- The log levels used by `client.c` and the protocol back-ends. -/
inductive guac_client_log_level where
  | GUAC_LOG_ERROR
  | GUAC_LOG_INFO
  | GUAC_LOG_DEBUG
deriving DecidableEq, Repr

/-! ## The index pool -/

/-- Modelled from the spec: `guac_pool` (`pool.c` and `pool.h` are not part of
the sources at hand).  Section 4.1 describes a lowest-free allocator over the
non-negative integers; its state is the collection of integers currently
allocated, most recently drawn first. -/
structure guac_pool where
  allocated : List Nat
deriving DecidableEq, Repr

/-- Smallest natural number that is not in `s`.  Among `0 .. s.length` at
least one number is missing from `s`, so the search is bounded. -/
def lowest_free (s : List Nat) : Nat :=
  ((List.range (s.length + 1)).find? (fun n => decide (n ∉ s))).getD s.length

/-- Modelled from the spec: `guac_pool_alloc` (absent `pool.c`) returns a pool
with nothing allocated.  The size argument is only an allocation hint. -/
def guac_pool_alloc (_size : Int) : guac_pool :=
  { allocated := [] }

/-- Modelled from the spec: `guac_pool_next_int` (absent `pool.c`), the
`next()` of section 4.1: the smallest integer not currently allocated, which
becomes allocated. -/
def guac_pool_next_int (pool : guac_pool) : Int × guac_pool :=
  let n := lowest_free pool.allocated
  ((n : Int), { allocated := n :: pool.allocated })

/-- Modelled from the spec: `guac_pool_free_int` (absent `pool.c`), the
`free(i)` of section 4.1: `value` goes back to the pool.  Releasing an integer
that is not allocated is a contract violation there; here it leaves the pool
as it is. -/
def guac_pool_free_int (pool : guac_pool) (value : Int) : guac_pool :=
  if 0 ≤ value then { allocated := pool.allocated.erase value.toNat } else pool

/-! ## Structures -/

/-- The structure `guac_layer`: a signed index. -/
structure guac_layer where
  index : Int
deriving DecidableEq, Repr

/-- The constant `__GUAC_DEFAULT_LAYER` of `client.c`. -/
def __GUAC_DEFAULT_LAYER : guac_layer :=
  { index := 0 }

/-- Who owns the handler that is being invoked: the user or the client. -/
inductive HandlerOf where
  | user
  | client
deriving DecidableEq, Repr

/-- Calls that leave `client.c`, as they appear in the trace. -/
inductive Event where
  | mutex_lock
  | mutex_unlock
  | join_handler (fn : FnPtr) (user : UserPtr) (argc : Int) (argv : List String)
  | leave_handler (src : HandlerOf) (fn : FnPtr) (user : UserPtr)
  | suspend_handler (src : HandlerOf) (fn : FnPtr) (user : UserPtr)
  | resume_handler (src : HandlerOf) (fn : FnPtr) (user : UserPtr)
  | log_handler (fn : FnPtr) (level : guac_client_log_level) (format : String)
  | socket_write (socket : SocketPtr) (buf : List Nat) (count : Nat)
  | socket_flush (socket : SocketPtr)
  | instruction_begin (socket : SocketPtr)
  | instruction_end (socket : SocketPtr)
  | user_stop (user : UserPtr)
  | user_callback (fn : FnPtr) (user : UserPtr) (data : Nat)
  | free_handler (fn : FnPtr)
  | pool_free (pool : guac_pool)
  | dlclose (handle : Nat)
  | mutex_destroy
  | client_free
  | dlopen (library : String)
  | dlsym (handle : Nat) (symbol : String)
  | client_init (fn : FnPtr)
  | parse_args (user : UserPtr) (argc : Int) (argv : List String)
  | pthread_create (start_routine : FnPtr)
  | display_dup (socket : SocketPtr)
  | surface_dup (socket : SocketPtr)
  | cursor_dup (socket : SocketPtr)
deriving DecidableEq, Repr

/-- The fields of `struct guac_user` (`user.h`) that `client.c` and the
back-ends (`protocols/rdp/user.c`, `protocols/vnc/user.c`) read or write.  The
handlers that only the join handlers of the back-ends assign are unset unless
stated otherwise, as `guac_user_alloc` leaves them. -/
structure guac_user where
  socket : SocketPtr
  state : guac_user_state
  owner : Int
  active : Int
  __prev : Option UserPtr
  __next : Option UserPtr
  last_sent_timestamp : Int
  last_received_timestamp : Int
  leave_handler : Option FnPtr
  suspend_handler : Option FnPtr
  resume_handler : Option FnPtr
  mouse_handler : Option FnPtr := none
  key_handler : Option FnPtr := none
  clipboard_handler : Option FnPtr := none
  size_handler : Option FnPtr := none
  sync_handler : Option FnPtr := none
  frame_handler : Option FnPtr := none
deriving DecidableEq, Repr

/-- The structure `guac_client` of `client.h`. -/
structure guac_client where
  socket : SocketPtr
  state : guac_client_state
  last_sent_timestamp : Int
  free_handler : Option FnPtr
  log_handler : Option FnPtr
  __buffer_pool : guac_pool
  __layer_pool : guac_pool
  connection_id : String
  __users : Option UserPtr
  connected_users : Int
  join_handler : Option FnPtr
  leave_handler : Option FnPtr
  suspend_handler : Option FnPtr
  resume_handler : Option FnPtr
  args : List String
  __plugin_handle : Option Nat
deriving DecidableEq, Repr

/-- The memory the client operations work on: one client, the heap of user
structures, and the trace of external calls made so far. -/
structure World where
  client : guac_client
  users : UserPtr → guac_user
  trace : List Event

/-- What the surroundings of `client.c` answer: the value a join handler
returns, the value `guac_socket_write` returns on a user socket (non-zero on
failure), the wire encoding of the `error` and `sync` instructions, and the
value a `guac_protocol_send_...` call on the broadcast socket reports for an
encoded instruction (zero on success; zero unless stated otherwise).  The
answers may depend on the calls made so far. -/
structure Env where
  join_result : FnPtr → UserPtr → Int → List String → List Event → Int
  socket_write_result : SocketPtr → List Nat → Nat → List Event → Int
  encode_error : String → Int → List Nat
  encode_sync : Int → List Nat
  send_result : List Nat → List Event → Int := fun _ _ => 0

/-- Appends one external call to the trace. -/
def emit (w : World) (e : Event) : World :=
  { w with trace := w.trace ++ [e] }

/-- Stores `f (*user)` at address `user`. -/
def set_user (w : World) (user : UserPtr) (f : guac_user → guac_user) : World :=
  { w with users := Function.update w.users user (f (w.users user)) }

/-! ## Layers and buffers (`client.c`, lines 121-159) -/

/-- The function `guac_client_alloc_layer`: index = pool output + 1. -/
def guac_client_alloc_layer (client : guac_client) : guac_layer × guac_client :=
  let r := guac_pool_next_int client.__layer_pool
  ({ index := r.1 + 1 }, { client with __layer_pool := r.2 })

/-- The function `guac_client_alloc_buffer`: index = -(pool output) - 1. -/
def guac_client_alloc_buffer (client : guac_client) : guac_layer × guac_client :=
  let r := guac_pool_next_int client.__buffer_pool
  ({ index := -r.1 - 1 }, { client with __buffer_pool := r.2 })

/-- The function `guac_client_free_buffer`: releases `-layer->index - 1`. -/
def guac_client_free_buffer (client : guac_client) (layer : guac_layer) : guac_client :=
  { client with __buffer_pool := guac_pool_free_int client.__buffer_pool (-layer.index - 1) }

/-- The function `guac_client_free_layer`: releases `layer->index` itself. -/
def guac_client_free_layer (client : guac_client) (layer : guac_layer) : guac_client :=
  { client with __layer_pool := guac_pool_free_int client.__layer_pool layer.index }

/-- What `guac_client_alloc` needs from outside: the address `malloc` returns
(`none` for `NULL`), the identifier `guac_generate_id` yields, the current
time, the address of the socket `guac_socket_alloc` returns and the constant
`GUAC_BUFFER_POOL_INITIAL_SIZE` of the absent `client-constants.h`. -/
structure AllocEnv where
  malloc : Option Nat
  generated_id : Option String
  timestamp_current : Int
  socket : SocketPtr
  GUAC_BUFFER_POOL_INITIAL_SIZE : Int

/-- The handler functions a `guac_socket` can point at: the three static
handlers of the broadcast socket in `client.c`, or some other function. -/
inductive SocketHandler where
  | broadcast_read
  | broadcast_write
  | broadcast_select
  | other (fn : FnPtr)
deriving DecidableEq, Repr

/-- The fields of `struct guac_socket` that `guac_client_alloc` assigns; a
socket fresh from `guac_socket_alloc` has none of them set. -/
structure guac_socket where
  data : Option Nat
  read_handler : Option SocketHandler
  write_handler : Option SocketHandler
  select_handler : Option SocketHandler
deriving DecidableEq, Repr

/-- The function `guac_client_alloc`: `NULL` when `malloc` or the identifier
generation fails; otherwise a zeroed client in state running, with two empty
pools, together with the content of its broadcast socket, whose `data` is the
address of the client. -/
def guac_client_alloc (a : AllocEnv) : Option (guac_client × guac_socket) :=
  match a.malloc with
  | none => none
  | some address =>
    match a.generated_id with
    | none => none
    | some id =>
      let client : guac_client :=
        { socket := a.socket
          state := guac_client_state.GUAC_CLIENT_RUNNING
          last_sent_timestamp := a.timestamp_current
          free_handler := none
          log_handler := none
          __buffer_pool := guac_pool_alloc a.GUAC_BUFFER_POOL_INITIAL_SIZE
          __layer_pool := guac_pool_alloc a.GUAC_BUFFER_POOL_INITIAL_SIZE
          connection_id := id
          __users := none
          connected_users := 0
          join_handler := none
          leave_handler := none
          suspend_handler := none
          resume_handler := none
          args := []
          __plugin_handle := none }
      -- Set up socket to broadcast to all users
      let socket : guac_socket :=
        { data := some address
          read_handler := some SocketHandler.broadcast_read
          write_handler := some SocketHandler.broadcast_write
          select_handler := some SocketHandler.broadcast_select }
      some (client, socket)

/-- One call of the layer interface. -/
inductive LayerOp where
  | alloc
  | free (layer : guac_layer)
deriving DecidableEq, Repr

/-- A client together with the layer handles that were returned by
`guac_client_alloc_layer` and not yet given to `guac_client_free_layer`. -/
structure LayerSys where
  client : guac_client
  live : List guac_layer
deriving DecidableEq, Repr

/-- Performs one call of the layer interface. -/
def layer_step (s : LayerSys) : LayerOp → LayerSys
  | LayerOp.alloc =>
    let r := guac_client_alloc_layer s.client
    { client := r.2, live := r.1 :: s.live }
  | LayerOp.free layer =>
    { client := guac_client_free_layer s.client layer, live := s.live.erase layer }

/-- Performs one call of the buffer interface. -/
def buffer_step (s : LayerSys) : LayerOp → LayerSys
  | LayerOp.alloc =>
    let r := guac_client_alloc_buffer s.client
    { client := r.2, live := r.1 :: s.live }
  | LayerOp.free layer =>
    { client := guac_client_free_buffer s.client layer, live := s.live.erase layer }

/-- Performs a sequence of layer calls, first call first. -/
def layer_run (s : LayerSys) (ops : List LayerOp) : LayerSys :=
  ops.foldl layer_step s

/-- Performs a sequence of buffer calls, first call first. -/
def buffer_run (s : LayerSys) (ops : List LayerOp) : LayerSys :=
  ops.foldl buffer_step s

/-- Every `free` of the sequence is applied to a handle that is live when the
call is made (`step` is `layer_step` or `buffer_step`). -/
def FreesLive (step : LayerSys → LayerOp → LayerSys) : LayerSys → List LayerOp → Prop
  | _, [] => True
  | s, LayerOp.alloc :: ops => FreesLive step (step s LayerOp.alloc) ops
  | s, LayerOp.free layer :: ops =>
    layer ∈ s.live ∧ FreesLive step (step s (LayerOp.free layer)) ops

/-- Whether every `free` of a sequence hits a live handle can be computed. -/
def FreesLive.decide (step : LayerSys → LayerOp → LayerSys) :
    (s : LayerSys) → (ops : List LayerOp) → Decidable (FreesLive step s ops)
  | _, [] => isTrue trivial
  | s, LayerOp.alloc :: ops => FreesLive.decide step (step s LayerOp.alloc) ops
  | s, LayerOp.free layer :: ops =>
    match (inferInstance : Decidable (layer ∈ s.live)),
        FreesLive.decide step (step s (LayerOp.free layer)) ops with
    | isTrue h1, isTrue h2 => isTrue ⟨h1, h2⟩
    | isFalse h1, _ => isFalse (fun h => h1 h.1)
    | _, isFalse h2 => isFalse (fun h => h2 h.2)

instance (step : LayerSys → LayerOp → LayerSys) (s : LayerSys) (ops : List LayerOp) :
    Decidable (FreesLive step s ops) :=
  FreesLive.decide step s ops

/-- A client as `guac_client_alloc` returns it, for the concrete scenarios. -/
def fresh_client : guac_client :=
  { socket := 0
    state := guac_client_state.GUAC_CLIENT_RUNNING
    last_sent_timestamp := 0
    free_handler := none
    log_handler := none
    __buffer_pool := guac_pool_alloc 1024
    __layer_pool := guac_pool_alloc 1024
    connection_id := "$0"
    __users := none
    connected_users := 0
    join_handler := none
    leave_handler := none
    suspend_handler := none
    resume_handler := none
    args := []
    __plugin_handle := none }

/-- A fresh client with no live layer or buffer handle. -/
def fresh_layers : LayerSys :=
  { client := fresh_client, live := [] }

/-! ## Logging, stopping, sockets -/

/-- The function `vguac_client_log`: calls the log handler if one is set. -/
def vguac_client_log (w : World) (level : guac_client_log_level) (format : String) : World :=
  match w.client.log_handler with
  | some fn => emit w (Event.log_handler fn level format)
  | none => w

/-- Modelled from the spec: `guac_user_log` (`user.c` is not part of the
sources at hand) delegates to the log handler of the user's client. -/
def guac_user_log (w : World) (_user : UserPtr) (level : guac_client_log_level)
    (format : String) : World :=
  vguac_client_log w level format

/-- Modelled from the spec: `guac_user_stop` (`user.c` is not part of the
sources at hand) clears the `active` flag of the user. -/
def guac_user_stop (w : World) (user : UserPtr) : World :=
  emit (set_user w user (fun u => { u with active := 0 })) (Event.user_stop user)

/-- The call `guac_socket_write(socket, buf, count)` on the private socket of a
user (`socket.c` is outside `client.c`): the call is recorded and the
environment says whether it failed (non-zero). -/
def guac_socket_write (env : Env) (w : World) (socket : SocketPtr) (buf : List Nat)
    (count : Nat) : Int × World :=
  (env.socket_write_result socket buf count w.trace, emit w (Event.socket_write socket buf count))

/-- The function `guac_client_stop`. -/
def guac_client_stop (w : World) : World :=
  { w with client := { w.client with state := guac_client_state.GUAC_CLIENT_STOPPING } }

/-! ## The user list (`client.c`, lines 293-402) -/

/-- The block of `guac_client_add_user` that runs when the join succeeded
(`client.c`, lines 306-313): `user` is spliced in at the head of the list and
`connected_users` is incremented. -/
def add_user_link (w : World) (user : UserPtr) : World :=
  let wa := set_user w user (fun u => { u with __prev := none })
  let wb := set_user wa user (fun u => { u with __next := wa.client.__users })
  let wc :=
    match wb.client.__users with
    | some head => set_user wb head (fun h => { h with __prev := some user })
    | none => wb
  { wc with client :=
      { wc.client with __users := some user, connected_users := wc.client.connected_users + 1 } }

/-- The function `guac_client_add_user`. -/
def guac_client_add_user (env : Env) (w : World) (user : UserPtr) (argc : Int)
    (argv : List String) : Int × World :=
  let w1 := emit w Event.mutex_lock
  -- Call handler, if defined
  let r : Int × World :=
    match w1.client.join_handler with
    | some fn =>
      (env.join_result fn user argc argv w1.trace, emit w1 (Event.join_handler fn user argc argv))
    | none => (0, w1)
  let retval := r.1
  -- Add to list if join was successful
  let w3 := if retval = 0 then add_user_link r.2 user else r.2
  (retval, emit w3 Event.mutex_unlock)

/-- The block of `guac_client_remove_user` that takes `user` out of the list
(`client.c`, lines 333-343): the predecessor, or the head of the list when
`user->__prev` is `NULL`, is pointed at `user->__next`; the successor, if any,
is pointed back at `user->__prev`; `connected_users` is decremented. -/
def remove_user_unlink (w : World) (user : UserPtr) : World :=
  -- Update prev / head
  let w3 :=
    match (w.users user).__prev with
    | some prev => set_user w prev (fun p => { p with __next := (w.users user).__next })
    | none => { w with client := { w.client with __users := (w.users user).__next } }
  -- Update next
  let w4 :=
    match (w3.users user).__next with
    | some next => set_user w3 next (fun n => { n with __prev := (w3.users user).__prev })
    | none => w3
  { w4 with client := { w4.client with connected_users := w4.client.connected_users - 1 } }

/-- The function `guac_client_remove_user`. -/
def guac_client_remove_user (w : World) (user : UserPtr) : World :=
  let w1 := emit w Event.mutex_lock
  -- Call handler, if defined
  let w2 :=
    match (w1.users user).leave_handler with
    | some fn => emit w1 (Event.leave_handler HandlerOf.user fn user)
    | none =>
      match w1.client.leave_handler with
      | some fn => emit w1 (Event.leave_handler HandlerOf.client fn user)
      | none => w1
  emit (remove_user_unlink w2 user) Event.mutex_unlock

/-- The function `guac_client_suspend_user`. -/
def guac_client_suspend_user (w : World) (user : UserPtr) : World :=
  let w1 := guac_user_log w user guac_client_log_level.GUAC_LOG_DEBUG "Suspending user"
  -- Ensure suspend occurs at an instruction boundary
  let w2 := emit w1 (Event.instruction_begin w1.client.socket)
  let w3 := set_user w2 user (fun u => { u with state := guac_user_state.GUAC_USER_SUSPENDED })
  let w4 := emit w3 (Event.instruction_end w3.client.socket)
  -- Call handler, if defined
  match (w4.users user).suspend_handler with
  | some fn => emit w4 (Event.suspend_handler HandlerOf.user fn user)
  | none =>
    match w4.client.suspend_handler with
    | some fn => emit w4 (Event.suspend_handler HandlerOf.client fn user)
    | none => w4

/-- The function `guac_client_resume_user`. -/
def guac_client_resume_user (w : World) (user : UserPtr) : World :=
  let w1 := guac_user_log w user guac_client_log_level.GUAC_LOG_DEBUG "Resuming user"
  -- Ensure resume occurs at an instruction boundary
  let w2 := emit w1 (Event.instruction_begin w1.client.socket)
  let w3 := set_user w2 user (fun u => { u with state := guac_user_state.GUAC_USER_RUNNING })
  let w4 := emit w3 (Event.instruction_end w3.client.socket)
  -- Call handler, if defined
  match (w4.users user).resume_handler with
  | some fn => emit w4 (Event.resume_handler HandlerOf.user fn user)
  | none =>
    match w4.client.resume_handler with
    | some fn => emit w4 (Event.resume_handler HandlerOf.client fn user)
    | none => w4

/-- The `while (current != NULL)` loop of `guac_client_foreach_user`; `none`
when the fuel is used up before `current` becomes `NULL`. -/
def foreach_loop {δ : Type} (callback : UserPtr → δ → World → World) (data : δ) :
    Nat → Option UserPtr → World → Option World
  | _, none, w => some w
  | 0, some _, _ => none
  | fuel + 1, some current, w =>
    -- Only call callback if user is running
    let w1 :=
      if (w.users current).state = guac_user_state.GUAC_USER_RUNNING then callback current data w
      else w
    foreach_loop callback data fuel (w1.users current).__next w1

/-- The function `guac_client_foreach_user`. -/
def guac_client_foreach_user {δ : Type} (fuel : Nat) (w : World)
    (callback : UserPtr → δ → World → World) (data : δ) : Option World :=
  let w1 := emit w Event.mutex_lock
  (foreach_loop callback data fuel w1.client.__users w1).map (fun w2 => emit w2 Event.mutex_unlock)

/-! ## The broadcast socket (`client.c`, lines 49-119) -/

/-- The structure `__write_chunk`. -/
structure __write_chunk where
  buffer : List Nat
  length : Nat
deriving DecidableEq, Repr

/-- The function `__guac_socket_broadcast_read_handler`. -/
def __guac_socket_broadcast_read_handler (_buf : List Nat) (_count : Nat) : Int :=
  -1

/-- The function `__write_chunk_callback`. -/
def __write_chunk_callback (env : Env) (user : UserPtr) (chunk : __write_chunk) (w : World) :
    World :=
  -- Attempt write, disconnect on failure
  let r := guac_socket_write env w (w.users user).socket chunk.buffer chunk.length
  if r.1 ≠ 0 then guac_user_stop r.2 user else r.2

/-- The conversion of a `size_t` to the `ssize_t` a socket handler returns (64
bits, two's complement), as in `return count;`. -/
def to_ssize_t (count : Nat) : Int :=
  ((count : Int) + 9223372036854775808) % 18446744073709551616 - 9223372036854775808

/-- The function `__guac_socket_broadcast_write_handler`; the value returned
is the `size_t count` as an `ssize_t`. -/
def __guac_socket_broadcast_write_handler (env : Env) (fuel : Nat) (w : World) (buf : List Nat)
    (count : Nat) : Option (Int × World) :=
  -- Build chunk
  let chunk : __write_chunk := { buffer := buf, length := count }
  -- Broadcast chunk to all users
  (guac_client_foreach_user fuel w (__write_chunk_callback env) chunk).map
    (fun w1 => (to_ssize_t count, w1))

/-- The function `__guac_socket_broadcast_select_handler`. -/
def __guac_socket_broadcast_select_handler (_usec_timeout : Int) : Int :=
  -1

/-- Modelled from the spec: `guac_protocol_send_error` on the broadcast socket
(`protocol.c` and `socket.c` are not part of the sources at hand).  By
section 5 a complete instruction reaches the fan-out as one chunk: the encoded
`error` instruction is handed to the write handler of the broadcast socket,
and the value returned is the one the socket layer reports. -/
def guac_protocol_send_error (env : Env) (fuel : Nat) (w : World) (message : String)
    (status : Int) : Option (Int × World) :=
  let buf := env.encode_error message status
  (__guac_socket_broadcast_write_handler env fuel w buf buf.length).map
    (fun r => (env.send_result buf r.2.trace, r.2))

/-- Modelled from the spec: `guac_protocol_send_sync` on the broadcast socket
(`protocol.c` and `socket.c` are not part of the sources at hand): the encoded
`sync` instruction is handed to the write handler of the broadcast socket as
one chunk, and the value returned is the one the socket layer reports. -/
def guac_protocol_send_sync (env : Env) (fuel : Nat) (w : World) (timestamp : Int) :
    Option (Int × World) :=
  let buf := env.encode_sync timestamp
  (__guac_socket_broadcast_write_handler env fuel w buf buf.length).map
    (fun r => (env.send_result buf r.2.trace, r.2))

/-- Modelled from the spec: `guac_socket_flush` (`socket.c` is not part of the
sources at hand); instructions are handed over whole by the two functions
above, so the flush has nothing left to deliver and is only recorded. -/
def guac_socket_flush (w : World) (socket : SocketPtr) : World :=
  emit w (Event.socket_flush socket)

/-- The function `vguac_client_abort` (`guac_client_abort` forwards to it). -/
def vguac_client_abort (env : Env) (fuel : Nat) (w : World) (status : Int) (format : String) :
    Option World :=
  -- Only relevant if client is running
  if w.client.state = guac_client_state.GUAC_CLIENT_RUNNING then
    -- Log detail of error
    let w1 := vguac_client_log w guac_client_log_level.GUAC_LOG_ERROR format
    -- Send error immediately, limit information given
    match guac_protocol_send_error env fuel w1 "Aborted. See logs." status with
    | none => none
    | some r =>
      let w3 := guac_socket_flush r.2 r.2.client.socket
      -- Stop client
      some (guac_client_stop w3)
  else some w

/-- The function `guac_client_end_frame`; `now` is what
`guac_timestamp_current()` returns. -/
def guac_client_end_frame (env : Env) (fuel : Nat) (w : World) (now : Int) :
    Option (Int × World) :=
  -- Update and send timestamp
  let w1 := { w with client := { w.client with last_sent_timestamp := now } }
  guac_protocol_send_sync env fuel w1 w1.client.last_sent_timestamp

/-! ## Well-formed user lists and sequences of calls -/

/-- The doubly-linked list starting at `h` holds exactly the users `l`, in
order: following `__next` from `h` visits `l` and ends at `NULL`, and the
`__prev` of every visited user is the user visited before it (`p` for the
first one). -/
def DList (users : UserPtr → guac_user) : Option UserPtr → Option UserPtr → List UserPtr → Prop
  | _, h, [] => h = none
  | p, h, u :: l => h = some u ∧ (users u).__prev = p ∧ DList users (some u) (users u).__next l

/-- Following `__next` from `h` visits exactly the users `l`, in order, and
ends at `NULL`: the part of `DList` that a traversal of the list relies on. -/
def NextChain (users : UserPtr → guac_user) : Option UserPtr → List UserPtr → Prop
  | h, [] => h = none
  | h, u :: l => h = some u ∧ NextChain users (users u).__next l

/-- Whether a given list is the content of the linked list can be computed. -/
def DList.decide (users : UserPtr → guac_user) :
    (p h : Option UserPtr) → (l : List UserPtr) → Decidable (DList users p h l)
  | _, h, [] => inferInstanceAs (Decidable (h = none))
  | p, h, u :: l =>
    match (inferInstance : Decidable (h = some u)),
        (inferInstance : Decidable ((users u).__prev = p)),
        DList.decide users (some u) (users u).__next l with
    | isTrue h1, isTrue h2, isTrue h3 => isTrue ⟨h1, h2, h3⟩
    | isFalse h1, _, _ => isFalse (fun h => h1 h.1)
    | _, isFalse h2, _ => isFalse (fun h => h2 h.2.1)
    | _, _, isFalse h3 => isFalse (fun h => h3 h.2.2)

instance (users : UserPtr → guac_user) (p h : Option UserPtr) (l : List UserPtr) :
    Decidable (DList users p h l) :=
  DList.decide users p h l

/-- The user list of the client is well-formed and holds the users `l`, head
first. -/
def WellFormed (w : World) (l : List UserPtr) : Prop :=
  DList w.users none w.client.__users l

instance (w : World) (l : List UserPtr) : Decidable (WellFormed w l) :=
  DList.decide w.users none w.client.__users l

/-- The users met when following `__next` from `h`, at most `fuel` of them. -/
def reachable_users (users : UserPtr → guac_user) : Nat → Option UserPtr → List UserPtr
  | _, none => []
  | 0, some _ => []
  | fuel + 1, some u => u :: reachable_users users fuel (users u).__next

/-- The users of `l` whose state is `GUAC_USER_RUNNING`, in the order of `l`. -/
def running_users (w : World) (l : List UserPtr) : List UserPtr :=
  l.filter (fun u => decide ((w.users u).state = guac_user_state.GUAC_USER_RUNNING))

/-- A call that changes the membership of the user list. -/
inductive UserOp where
  | add (user : UserPtr) (argc : Int) (argv : List String)
  | remove (user : UserPtr)
deriving DecidableEq, Repr

/-- Performs one membership call. -/
def user_step (env : Env) (w : World) : UserOp → World
  | UserOp.add user argc argv => (guac_client_add_user env w user argc argv).2
  | UserOp.remove user => guac_client_remove_user w user

/-- Performs a sequence of membership calls, first call first. -/
def user_run (env : Env) (w : World) (ops : List UserOp) : World :=
  ops.foldl (user_step env) w

/-- Every `add` of the sequence names a user that is not in the list when the
call is made, and every `remove` names a user that is in it. -/
def UserOpsValid (env : Env) : World → List UserOp → Prop
  | _, [] => True
  | w, UserOp.add user argc argv :: ops =>
    (∀ l, WellFormed w l → user ∉ l) ∧
      UserOpsValid env (user_step env w (UserOp.add user argc argv)) ops
  | w, UserOp.remove user :: ops =>
    (∃ l, WellFormed w l ∧ user ∈ l) ∧ UserOpsValid env (user_step env w (UserOp.remove user)) ops

/-- A call on the client, as far as it can cause or prevent broadcast
writes. -/
inductive ClientOp where
  | broadcast_write (buf : List Nat) (count : Nat)
  | add_user (user : UserPtr) (argc : Int) (argv : List String)
  | remove_user (user : UserPtr)
  | end_frame (now : Int)
  | abort (status : Int) (format : String)
  | suspend_user (user : UserPtr)
  | resume_user (user : UserPtr)
  | stop
deriving DecidableEq, Repr

/-- Performs one call on the client; `none` when a loop runs out of fuel. -/
def client_step (env : Env) (fuel : Nat) (w : World) : ClientOp → Option World
  | ClientOp.broadcast_write buf count =>
    (__guac_socket_broadcast_write_handler env fuel w buf count).map (fun r => r.2)
  | ClientOp.add_user user argc argv => some (guac_client_add_user env w user argc argv).2
  | ClientOp.remove_user user => some (guac_client_remove_user w user)
  | ClientOp.end_frame now => (guac_client_end_frame env fuel w now).map (fun r => r.2)
  | ClientOp.abort status format => vguac_client_abort env fuel w status format
  | ClientOp.suspend_user user => some (guac_client_suspend_user w user)
  | ClientOp.resume_user user => some (guac_client_resume_user w user)
  | ClientOp.stop => some (guac_client_stop w)

/-- Performs a sequence of calls on the client, first call first. -/
def client_run (env : Env) (fuel : Nat) : World → List ClientOp → Option World
  | w, [] => some w
  | w, op :: ops =>
    match client_step env fuel w op with
    | none => none
    | some w1 => client_run env fuel w1 ops

/-- Whether an event is a `guac_socket_write` on a user socket. -/
def is_socket_write : Event → Bool
  | Event.socket_write _ _ _ => true
  | _ => false

/-- The `guac_socket_write` calls that were made after the first `n` events of
the trace. -/
def writes_since (n : Nat) (w : World) : List Event :=
  (w.trace.drop n).filter is_socket_write

/-- No event of `events` is a `guac_socket_write` on the socket `socket`. -/
def NoWriteTo (socket : SocketPtr) (events : List Event) : Prop :=
  ∀ e ∈ events, ∀ (buf : List Nat) (count : Nat), e ≠ Event.socket_write socket buf count

/-- The user `u` is suspended and no other user has `socket` as its socket. -/
def SuspendedApart (socket : SocketPtr) (u : UserPtr) (w : World) : Prop :=
  (w.users u).state = guac_user_state.GUAC_USER_SUSPENDED ∧
    ∀ v, v ≠ u → (w.users v).socket ≠ socket

/-- A callback that only records that it was called, with which user and which
data. -/
def recording_callback (fn : FnPtr) (user : UserPtr) (data : Nat) (w : World) : World :=
  emit w (Event.user_callback fn user data)

/-! ## Concrete scenarios -/

/-- A user as `guac_user_alloc` leaves it (running, active, no handlers), with
the given private socket. -/
def blank_user (socket : SocketPtr) : guac_user :=
  { socket := socket
    state := guac_user_state.GUAC_USER_RUNNING
    owner := 0
    active := 1
    __prev := none
    __next := none
    last_sent_timestamp := 0
    last_received_timestamp := 0
    leave_handler := none
    suspend_handler := none
    resume_handler := none }

/-- Surroundings in which every join handler returns 0 and every socket write
succeeds. -/
def calm_env : Env :=
  { join_result := fun _ _ _ _ _ => 0
    socket_write_result := fun _ _ _ _ => 0
    encode_error := fun _ status => [101, status.toNat]
    encode_sync := fun timestamp => [115, timestamp.toNat] }

/-- Surroundings in which the join handler refuses user 3 with value 7 and
accepts every other user. -/
def picky_env : Env :=
  { calm_env with join_result := fun _ user _ _ _ => if user = 3 then 7 else 0 }

/-- A freshly allocated client, no user in its list; the user at address `p`
owns the socket `100 + p`. -/
def fresh_world : World :=
  { client := fresh_client
    users := fun p => blank_user (100 + p)
    trace := [] }

/-- A fresh client on which a join handler (at address 50) is installed. -/
def joined_world : World :=
  { fresh_world with client := { fresh_client with join_handler := some 50 } }

/-- The bytes of the chunk `1.0;`. -/
def chunk_1 : List Nat := [49, 46, 48, 59]

/-- The bytes of the chunk `2.0;`. -/
def chunk_2 : List Nat := [50, 46, 48, 59]

/-- The membership calls of the concrete scenario: users 1 and 2 join, user 3
is refused by the join handler, user 1 leaves. -/
def scenario_ops : List UserOp :=
  [UserOp.add 1 0 [], UserOp.add 2 0 [], UserOp.add 3 0 [], UserOp.remove 1]

/-- Users 1, 2 and 3 have joined a fresh client (3 is the head) and user 2 has
been suspended. -/
def trio_world : World :=
  guac_client_suspend_user
    (user_run calm_env fresh_world [UserOp.add 1 0 [], UserOp.add 2 0 [], UserOp.add 3 0 []]) 2

/-- Users 1, 2 and 3 have joined a fresh client. -/
def three_users_world : World :=
  user_run calm_env fresh_world [UserOp.add 1 0 [], UserOp.add 2 0 [], UserOp.add 3 0 []]

/-- Calls made while user 2 is suspended: broadcast writes, a join, a leave, an
end of frame, the suspension and resumption of another user, and an abort. -/
def quiet_ops : List ClientOp :=
  [ClientOp.broadcast_write chunk_1 4, ClientOp.add_user 4 0 [], ClientOp.remove_user 1,
    ClientOp.end_frame 7, ClientOp.suspend_user 3, ClientOp.resume_user 3,
    ClientOp.abort 5 "failure", ClientOp.broadcast_write chunk_2 4]

/-! ## Lag control of the back-ends (`protocols/rdp/user.c`, `protocols/vnc/user.c`) -/

/-- The conversion of a 64-bit `guac_timestamp` difference to `int` (32 bits,
two's complement), as in `int lag = ...`. -/
def to_int32 (x : Int) : Int :=
  (x + 2147483648) % 4294967296 - 2147483648

/-- The constant `GUAC_RDP_LAG_THRESHOLD` of `protocols/rdp/user.h`. -/
def GUAC_RDP_LAG_THRESHOLD : Int := 500

/-- The function `guac_rdp_user_sync_handler`. -/
def guac_rdp_user_sync_handler (w : World) (user : UserPtr) (timestamp : Int) : Int × World :=
  -- Resume user if they are back in sync
  if (w.users user).state = guac_user_state.GUAC_USER_SUSPENDED
      ∧ (w.users user).last_sent_timestamp = timestamp then
    (0, guac_client_resume_user w user)
  else (0, w)

/-- The function `guac_rdp_user_frame_handler`. -/
def guac_rdp_user_frame_handler (w : World) (user : UserPtr) (_timestamp : Int) : Int × World :=
  -- Calculate time difference between client and server as of last frame
  let lag : Int :=
    to_int32 ((w.users user).last_sent_timestamp - (w.users user).last_received_timestamp)
  -- Suspend user if they have fallen out of sync
  if (w.users user).state = guac_user_state.GUAC_USER_RUNNING ∧ lag ≥ GUAC_RDP_LAG_THRESHOLD then
    (0, guac_client_suspend_user w user)
  else (0, w)

/-- The function `guac_vnc_user_sync_handler`. -/
def guac_vnc_user_sync_handler (w : World) (user : UserPtr) (timestamp : Int) : Int × World :=
  -- Resume user if they are back in sync
  if (w.users user).state = guac_user_state.GUAC_USER_SUSPENDED
      ∧ (w.users user).last_sent_timestamp = timestamp then
    (0, guac_client_resume_user w user)
  else (0, w)

/-- The function `guac_vnc_user_frame_handler`.  The constant
`GUAC_VNC_LAG_THRESHOLD` is declared in `protocols/vnc/user.h`, which is not
among the sources at hand, and is therefore an argument. -/
def guac_vnc_user_frame_handler (GUAC_VNC_LAG_THRESHOLD : Int) (w : World) (user : UserPtr)
    (_timestamp : Int) : Int × World :=
  -- Calculate time difference between client and server as of last frame
  let lag : Int :=
    to_int32 ((w.users user).last_sent_timestamp - (w.users user).last_received_timestamp)
  -- Suspend user if they have fallen out of sync
  if (w.users user).state = guac_user_state.GUAC_USER_RUNNING ∧ lag ≥ GUAC_VNC_LAG_THRESHOLD then
    (0, guac_client_suspend_user w user)
  else (0, w)

/-! ## Observing handler calls -/

/-- The call that `vguac_client_log` makes: one invocation of the log handler,
if one is set. -/
def log_events (w : World) (level : guac_client_log_level) (format : String) : List Event :=
  match w.client.log_handler with
  | some fn => [Event.log_handler fn level format]
  | none => []

/-- Whether an event is a call of `guac_user_stop`. -/
def is_user_stop : Event → Bool
  | Event.user_stop _ => true
  | _ => false

/-- Whether an event is the invocation of a leave, suspend or resume handler. -/
def is_user_handler : Event → Bool
  | Event.leave_handler _ _ _ => true
  | Event.suspend_handler _ _ _ => true
  | Event.resume_handler _ _ _ => true
  | _ => false

/-- The events of the trace of `w` after its first `n` events. -/
def events_since (n : Nat) (w : World) : List Event :=
  w.trace.drop n

/-- The handler invocations among the events made after the first `n`. -/
def handler_calls_since (n : Nat) (w : World) : List Event :=
  (w.trace.drop n).filter is_user_handler

/-- The fallback rule in the words of the specification (sections 4.2): the
viewer's handler if set, else the session's handler if set, else none. -/
def spec_fallback_handler (of_user of_client : Option FnPtr) : Option (HandlerOf × FnPtr) :=
  match of_user with
  | some fn => some (HandlerOf.user, fn)
  | none =>
    match of_client with
    | some fn => some (HandlerOf.client, fn)
    | none => none

/-- The list of invocations the fallback rule asks for: one call of the chosen
handler on `user`, or none. -/
def spec_handler_calls (mk : HandlerOf → FnPtr → UserPtr → Event)
    (of_user of_client : Option FnPtr) (user : UserPtr) : List Event :=
  match spec_fallback_handler of_user of_client with
  | some p => [mk p.1 p.2 user]
  | none => []

/-- Calls `f` on `user` `k` times in a row. -/
def repeat_call (f : World → UserPtr → World) (user : UserPtr) : Nat → World → World
  | 0, w => w
  | k + 1, w => repeat_call f user k (f w user)

/-! ## Sequences of arbitrary client operations -/

/-- A call of any operation of `client.c` on the client. -/
inductive SessionOp where
  | call (op : ClientOp)
  | foreach_user (callback : UserPtr → Nat → World → World) (data : Nat)
  | alloc_layer
  | free_layer (layer : guac_layer)
  | alloc_buffer
  | free_buffer (layer : guac_layer)

/-- Performs one operation; `none` when a loop runs out of fuel. -/
def session_step (env : Env) (fuel : Nat) (w : World) : SessionOp → Option World
  | SessionOp.call op => client_step env fuel w op
  | SessionOp.foreach_user callback data => guac_client_foreach_user fuel w callback data
  | SessionOp.alloc_layer => some { w with client := (guac_client_alloc_layer w.client).2 }
  | SessionOp.free_layer layer => some { w with client := guac_client_free_layer w.client layer }
  | SessionOp.alloc_buffer => some { w with client := (guac_client_alloc_buffer w.client).2 }
  | SessionOp.free_buffer layer =>
    some { w with client := guac_client_free_buffer w.client layer }

/-- Performs a sequence of operations, first one first. -/
def session_run (env : Env) (fuel : Nat) : World → List SessionOp → Option World
  | w, [] => some w
  | w, op :: ops =>
    match session_step env fuel w op with
    | none => none
    | some w1 => session_run env fuel w1 ops

/-- The callbacks handed to `guac_client_foreach_user` in the sequence do not
write `client->state`. -/
def CallbacksKeepState (ops : List SessionOp) : Prop :=
  ∀ callback data, SessionOp.foreach_user callback data ∈ ops →
    ∀ (u : UserPtr) (d : Nat) (w : World), (callback u d w).client.state = w.client.state

/-! ## More concrete scenarios -/

/-- Surroundings in which every write on socket 102 fails and every other write
succeeds. -/
def flaky_env : Env :=
  { calm_env with socket_write_result := fun socket _ _ _ => if socket = 102 then -1 else 0 }

/-- Surroundings in which the first write on socket 102 fails; later writes on
it, and all writes on other sockets, succeed. -/
def flaky_once_env : Env :=
  { calm_env with
    socket_write_result := fun socket _ _ trace =>
      if socket = 102 ∧ trace.all (fun e =>
          match e with
          | Event.socket_write s _ _ => decide (s ≠ 102)
          | _ => true) then -1
      else 0 }

/-- A running user whose last frame was sent at 1000 and whose last sync reply
carried 400; it has its own resume handler (as installed by the join handlers
of the back-ends) and the client has a suspend handler. -/
def lagging_world : World :=
  { client := { fresh_client with suspend_handler := some 60, resume_handler := some 62 }
    users := fun p =>
      { blank_user (100 + p) with
        last_sent_timestamp := 1000, last_received_timestamp := 400, resume_handler := some 61 }
    trace := [] }

/-- The world `lagging_world` with other timestamps for every user. -/
def lag_world (sent received : Int) : World :=
  { lagging_world with
    users := fun p =>
      { blank_user (100 + p) with
        last_sent_timestamp := sent, last_received_timestamp := received,
        resume_handler := some 61 } }

/-- One call of every kind of operation, for the concrete scenarios. -/
def every_kind_ops : List SessionOp :=
  [SessionOp.call (ClientOp.add_user 1 0 []),
    SessionOp.foreach_user (recording_callback 9) 77,
    SessionOp.call (ClientOp.abort 5 "late"),
    SessionOp.alloc_layer,
    SessionOp.free_layer { index := 1 },
    SessionOp.alloc_buffer,
    SessionOp.call (ClientOp.broadcast_write chunk_1 4),
    SessionOp.call (ClientOp.end_frame 7),
    SessionOp.call (ClientOp.suspend_user 1),
    SessionOp.call (ClientOp.resume_user 1),
    SessionOp.call (ClientOp.remove_user 1),
    SessionOp.free_buffer { index := -1 },
    SessionOp.call ClientOp.stop]

/-! ## Freeing the client and loading a plugin (`client.c`, lines 209-234 and 412-461) -/

/-- The `while (client->__users != NULL)` loop of `guac_client_free`; `none`
when the fuel is used up before the list is empty. -/
def free_drain : Nat → World → Option World
  | 0, w =>
    match w.client.__users with
    | none => some w
    | some _ => none
  | fuel + 1, w =>
    match w.client.__users with
    | none => some w
    | some user => free_drain fuel (guac_client_remove_user w user)

/-- The function `guac_client_free`.  `free_result` is what the free handler
returns and `dlclose_result` what `dlclose` returns (non-zero on failure). -/
def guac_client_free (free_result dlclose_result : Int) (fuel : Nat) (w : World) :
    Option World :=
  -- Remove all users
  match free_drain fuel w with
  | none => none
  | some w1 =>
    let w2 :=
      match w1.client.free_handler with
      | some fn =>
        -- FIXME: Errors currently ignored...
        let r : Int × World := (free_result, emit w1 (Event.free_handler fn))
        r.2
      | none => w1
    -- Free layer pools
    let w3 := emit w2 (Event.pool_free w2.client.__buffer_pool)
    let w4 := emit w3 (Event.pool_free w3.client.__layer_pool)
    -- Close associated plugin
    let w5 :=
      match w4.client.__plugin_handle with
      | some handle =>
        let w41 := emit w4 (Event.dlclose handle)
        if dlclose_result ≠ 0 then
          vguac_client_log w41 guac_client_log_level.GUAC_LOG_ERROR "Unable to close plugin: %s"
        else w41
      | none => w4
    let w6 := emit w5 Event.mutex_destroy
    some (emit w6 Event.client_free)

/-- The values of `guac_status` that `client.c` assigns to `guac_error`. -/
inductive guac_status where
  | GUAC_STATUS_NO_MEMORY
  | GUAC_STATUS_NOT_FOUND
  | GUAC_STATUS_INTERNAL_ERROR
deriving DecidableEq, Repr

/-- The dynamic loader as `guac_client_load_plugin` sees it: the constants of
the absent `plugin-constants.h`, what `dlopen` returns for a library name
(`none` for `NULL`), the address `dlsym` finds for `guac_client_init` in a
library (`none` when `dlerror` reports a failure), and what the init function
at an address does to the memory and returns. -/
structure PluginEnv where
  GUAC_PROTOCOL_LIBRARY_PREFIX : String
  GUAC_PROTOCOL_LIBRARY_SUFFIX : String
  GUAC_PROTOCOL_NAME_LIMIT : Nat
  dlopen : String → Option Nat
  dlsym_init : Nat → Option FnPtr
  client_init : FnPtr → World → Int × World

/-- What a call of `guac_client_load_plugin` leaves behind: its return value,
the value it assigned to `guac_error` (`none` when it assigned nothing), and
the memory. -/
structure LoadOutcome where
  retval : Int
  guac_error : Option guac_status
  world : World

/-- The library name built by `strncat` and `strcat`: the prefix, at most
`GUAC_PROTOCOL_NAME_LIMIT - 1` characters of the protocol name, the suffix. -/
def protocol_lib (p : PluginEnv) (protocol : String) : String :=
  p.GUAC_PROTOCOL_LIBRARY_PREFIX
    ++ String.mk (protocol.toList.take (p.GUAC_PROTOCOL_NAME_LIMIT - 1))
    ++ p.GUAC_PROTOCOL_LIBRARY_SUFFIX

/-- The function `guac_client_load_plugin`.  The empty array
`__GUAC_CLIENT_NO_ARGS` is the empty list. -/
def guac_client_load_plugin (p : PluginEnv) (w : World) (protocol : String) : LoadOutcome :=
  -- Load client plugin
  let w1 := emit w (Event.dlopen (protocol_lib p protocol))
  match p.dlopen (protocol_lib p protocol) with
  | none =>
    { retval := -1, guac_error := some guac_status.GUAC_STATUS_NOT_FOUND, world := w1 }
  | some client_plugin_handle =>
    -- Get init function
    let w2 := emit w1 (Event.dlsym client_plugin_handle "guac_client_init")
    match p.dlsym_init client_plugin_handle with
    | none =>
      -- Fail if cannot find guac_client_init
      { retval := -1, guac_error := some guac_status.GUAC_STATUS_INTERNAL_ERROR, world := w2 }
    | some client_init =>
      -- Init client
      let w3 :=
        { w2 with
          client := { w2.client with args := [], __plugin_handle := some client_plugin_handle } }
      let r := p.client_init client_init (emit w3 (Event.client_init client_init))
      { retval := r.1, guac_error := none, world := r.2 }

/-! ## Scenarios for freeing, loading and aborting -/

/-- Whether an event is a call of `pthread_mutex_lock` or
`pthread_mutex_unlock` on the users lock. -/
def is_mutex_event : Event → Bool
  | Event.mutex_lock => true
  | Event.mutex_unlock => true
  | _ => false

/-- Users 1, 2 and 3 have joined a client that has a log handler (70), a leave
handler (71), a free handler (72) and a loaded plugin (handle 9); user 2 has a
leave handler of its own (73). -/
def busy_world : World :=
  set_user
    (user_run calm_env
      { fresh_world with
        client :=
          { fresh_client with
            log_handler := some 70, leave_handler := some 71, free_handler := some 72,
            __plugin_handle := some 9 } }
      [UserOp.add 1 0 [], UserOp.add 2 0 [], UserOp.add 3 0 []])
    2 (fun u => { u with leave_handler := some 73 })

/-- A loader that knows the libraries `libguac-client-vnc.so` (handle 5, init
function at 80) and `libguac-client-bad.so` (handle 6, no init function).  The
init function at 80 installs the argument names and a join handler and returns
0; any other init function returns 1. -/
def demo_plugins : PluginEnv :=
  { GUAC_PROTOCOL_LIBRARY_PREFIX := "libguac-client-"
    GUAC_PROTOCOL_LIBRARY_SUFFIX := ".so"
    GUAC_PROTOCOL_NAME_LIMIT := 256
    dlopen := fun name =>
      if name = "libguac-client-vnc.so" then some 5
      else if name = "libguac-client-bad.so" then some 6
      else none
    dlsym_init := fun handle => if handle = 5 then some 80 else none
    client_init := fun fn w =>
      if fn = 80 then
        (0, { w with client := { w.client with args := ["hostname", "port"],
                                               join_handler := some 81 } })
      else (1, w) }

/-- Surroundings in which sending an encoded instruction reports the value 3
(a failure) and everything else succeeds. -/
def failing_send_env : Env :=
  { calm_env with send_result := fun _ _ => 3 }

/-! ## The statements of suspend and resume, one by one -/

/-- One statement of `guac_client_suspend_user` or `guac_client_resume_user`
as it is executed: a call that leaves `client.c`, or the assignment
`user->state = state`. -/
inductive Action where
  | call (e : Event)
  | assign_state (user : UserPtr) (state : guac_user_state)
deriving DecidableEq, Repr

/-- Executes one statement. -/
def run_action (w : World) : Action → World
  | Action.call e => emit w e
  | Action.assign_state user state => set_user w user (fun u => { u with state := state })

/-- Executes statements one after the other, first statement first. -/
def run_actions (w : World) (actions : List Action) : World :=
  actions.foldl run_action w

/-- The statements that `guac_client_suspend_user` executes on `w`, in the
order of `client.c`, lines 351-362. -/
def suspend_user_actions (w : World) (user : UserPtr) : List Action :=
  -- guac_user_log(user, GUAC_LOG_DEBUG, "Suspending user");
  (match w.client.log_handler with
    | some fn =>
      [Action.call (Event.log_handler fn guac_client_log_level.GUAC_LOG_DEBUG "Suspending user")]
    | none => []) ++
  -- Ensure suspend occurs at an instruction boundary
  [Action.call (Event.instruction_begin w.client.socket),
    Action.assign_state user guac_user_state.GUAC_USER_SUSPENDED,
    Action.call (Event.instruction_end w.client.socket)] ++
  -- Call handler, if defined
  (match (w.users user).suspend_handler with
    | some fn => [Action.call (Event.suspend_handler HandlerOf.user fn user)]
    | none =>
      match w.client.suspend_handler with
      | some fn => [Action.call (Event.suspend_handler HandlerOf.client fn user)]
      | none => [])

/-- The statements that `guac_client_resume_user` executes on `w`, in the
order of `client.c`, lines 368-379. -/
def resume_user_actions (w : World) (user : UserPtr) : List Action :=
  -- guac_user_log(user, GUAC_LOG_DEBUG, "Resuming user");
  (match w.client.log_handler with
    | some fn =>
      [Action.call (Event.log_handler fn guac_client_log_level.GUAC_LOG_DEBUG "Resuming user")]
    | none => []) ++
  -- Ensure resume occurs at an instruction boundary
  [Action.call (Event.instruction_begin w.client.socket),
    Action.assign_state user guac_user_state.GUAC_USER_RUNNING,
    Action.call (Event.instruction_end w.client.socket)] ++
  -- Call handler, if defined
  (match (w.users user).resume_handler with
    | some fn => [Action.call (Event.resume_handler HandlerOf.user fn user)]
    | none =>
      match w.client.resume_handler with
      | some fn => [Action.call (Event.resume_handler HandlerOf.client fn user)]
      | none => [])

/-- Whether an event is the invocation of a suspend or resume handler. -/
def is_state_handler : Event → Bool
  | Event.suspend_handler _ _ _ => true
  | Event.resume_handler _ _ _ => true
  | _ => false

/-! ## The list invariant in the words of the claim -/

/-- The user list of `w` is the finite, acyclic chain `l`, its head has no
predecessor, and every member with a successor is the predecessor of that
successor. -/
def ListInvariant (w : World) (l : List UserPtr) : Prop :=
  NextChain w.users w.client.__users l ∧ l.Nodup ∧
    (∀ head, w.client.__users = some head → (w.users head).__prev = none) ∧
    ∀ u, u ∈ l → ∀ next, (w.users u).__next = some next → (w.users next).__prev = some u

/-! ## The join handlers of the back-ends (`protocols/rdp/user.c`, `protocols/vnc/user.c`) -/

/-- What `guac_rdp_user_join_handler` needs from outside `user.c`: what
`guac_rdp_parse_args` returns for a user and its arguments and what
`pthread_create` returns (both non-zero on failure), and the addresses of the
functions it stores or starts. -/
structure RdpEnv where
  guac_rdp_parse_args : UserPtr → Int → List String → Int
  pthread_create : Int
  guac_rdp_client_thread : FnPtr
  guac_rdp_user_mouse_handler : FnPtr
  guac_rdp_user_key_handler : FnPtr
  guac_rdp_user_size_handler : FnPtr
  guac_rdp_clipboard_handler : FnPtr
  guac_rdp_user_leave_handler : FnPtr
  guac_rdp_user_resume_handler : FnPtr
  guac_rdp_user_frame_handler : FnPtr
  guac_rdp_user_sync_handler : FnPtr

/-- The function `guac_rdp_synchronize_user`. -/
def guac_rdp_synchronize_user (w : World) (user : UserPtr) : World :=
  -- Synchronize user with display state
  let w1 := emit w (Event.display_dup (w.users user).socket)
  guac_socket_flush w1 (w1.users user).socket

/-- The assignments at the end of `guac_rdp_user_join_handler`
(`rdp/user.c`, lines 84-96). -/
def rdp_install_handlers (x : RdpEnv) (w : World) (user : UserPtr) : World :=
  set_user w user (fun u =>
    { u with
      -- General events
      mouse_handler := some x.guac_rdp_user_mouse_handler
      key_handler := some x.guac_rdp_user_key_handler
      size_handler := some x.guac_rdp_user_size_handler
      clipboard_handler := some x.guac_rdp_clipboard_handler
      -- User management handlers
      leave_handler := some x.guac_rdp_user_leave_handler
      resume_handler := some x.guac_rdp_user_resume_handler
      -- Frame and lag control handlers
      frame_handler := some x.guac_rdp_user_frame_handler
      sync_handler := some x.guac_rdp_user_sync_handler })

/-- The function `guac_rdp_user_join_handler`. -/
def guac_rdp_user_join_handler (x : RdpEnv) (w : World) (user : UserPtr) (argc : Int)
    (argv : List String) : Int × World :=
  -- Connect via RDP if owner
  if (w.users user).owner ≠ 0 then
    -- Parse arguments into client
    let w1 := emit w (Event.parse_args user argc argv)
    if x.guac_rdp_parse_args user argc argv ≠ 0 then
      (1, guac_user_log w1 user guac_client_log_level.GUAC_LOG_INFO
        "Badly formatted client arguments.")
    else
      -- Start client thread
      let w2 := emit w1 (Event.pthread_create x.guac_rdp_client_thread)
      if x.pthread_create ≠ 0 then
        (1, guac_user_log w2 user guac_client_log_level.GUAC_LOG_ERROR
          "Unable to start VNC client thread.")
      else (0, rdp_install_handlers x w2 user)
  -- If not owner, synchronize with current display
  else (0, rdp_install_handlers x (guac_rdp_synchronize_user w user) user)

/-- The field of `guac_vnc_settings` (`vnc.h`) that `user.c` reads. -/
structure guac_vnc_settings where
  read_only : Int
deriving DecidableEq, Repr

/-- What `guac_vnc_user_join_handler` needs from outside `user.c`: what
`guac_vnc_parse_args` returns for the arguments (non-zero on failure) and the
settings it leaves, what `pthread_create` returns, and the addresses of the
functions it stores or starts. -/
structure VncEnv where
  guac_vnc_parse_args : guac_vnc_settings → Int → List String → Int × guac_vnc_settings
  pthread_create : Int
  guac_vnc_client_thread : FnPtr
  guac_vnc_user_mouse_handler : FnPtr
  guac_vnc_user_key_handler : FnPtr
  guac_vnc_clipboard_handler : FnPtr
  guac_vnc_user_leave_handler : FnPtr
  guac_vnc_user_resume_handler : FnPtr
  guac_vnc_user_frame_handler : FnPtr
  guac_vnc_user_sync_handler : FnPtr

/-- The function `guac_vnc_synchronize_user`. -/
def guac_vnc_synchronize_user (w : World) (user : UserPtr) : World :=
  -- Synchronize user with display state
  let w1 := emit w (Event.surface_dup (w.users user).socket)
  let w2 := emit w1 (Event.cursor_dup (w1.users user).socket)
  guac_socket_flush w2 (w2.users user).socket

/-- The assignments at the end of `guac_vnc_user_join_handler`
(`vnc/user.c`, lines 84-97), made with the settings as they are then. -/
def vnc_install_handlers (x : VncEnv) (vnc_settings : guac_vnc_settings) (w : World)
    (user : UserPtr) : World :=
  -- Only handle mouse/keyboard/clipboard if not read-only
  let w1 :=
    if vnc_settings.read_only = 0 then
      set_user w user (fun u =>
        { u with
          mouse_handler := some x.guac_vnc_user_mouse_handler
          key_handler := some x.guac_vnc_user_key_handler
          clipboard_handler := some x.guac_vnc_clipboard_handler })
    else w
  set_user w1 user (fun u =>
    { u with
      -- Add user management handlers
      leave_handler := some x.guac_vnc_user_leave_handler
      resume_handler := some x.guac_vnc_user_resume_handler
      -- Frame and lag control handlers
      frame_handler := some x.guac_vnc_user_frame_handler
      sync_handler := some x.guac_vnc_user_sync_handler })

/-- The function `guac_vnc_user_join_handler`; `settings` is
`vnc_client->settings` before the call, and the settings after the call are
returned with the return value. -/
def guac_vnc_user_join_handler (x : VncEnv) (settings : guac_vnc_settings) (w : World)
    (user : UserPtr) (argc : Int) (argv : List String) : Int × guac_vnc_settings × World :=
  -- Connect via VNC if owner
  if (w.users user).owner ≠ 0 then
    -- Parse arguments into client
    let w1 := emit w (Event.parse_args user argc argv)
    let parsed := x.guac_vnc_parse_args settings argc argv
    if parsed.1 ≠ 0 then
      (1, parsed.2, guac_user_log w1 user guac_client_log_level.GUAC_LOG_INFO
        "Badly formatted client arguments.")
    else
      -- Start client thread
      let w2 := emit w1 (Event.pthread_create x.guac_vnc_client_thread)
      if x.pthread_create ≠ 0 then
        (1, parsed.2, guac_user_log w2 user guac_client_log_level.GUAC_LOG_ERROR
          "Unable to start VNC client thread.")
      else (0, parsed.2, vnc_install_handlers x parsed.2 w2 user)
  -- If not owner, synchronize with current display
  else (0, settings, vnc_install_handlers x settings (guac_vnc_synchronize_user w user) user)

/-! ## Scenarios for the back-ends -/

/-- Whether an event is an attempt to parse arguments or to start a thread. -/
def is_connect_attempt : Event → Bool
  | Event.parse_args _ _ _ => true
  | Event.pthread_create _ => true
  | _ => false

/-- An RDP back-end whose argument parser accepts exactly the argument lists
that start with `host` and whose threads start; its functions sit at the
addresses 200 to 208. -/
def demo_rdp : RdpEnv :=
  { guac_rdp_parse_args := fun _ _ argv => if argv.head? = some "host" then 0 else 1
    pthread_create := 0
    guac_rdp_client_thread := 200
    guac_rdp_user_mouse_handler := 201
    guac_rdp_user_key_handler := 202
    guac_rdp_user_size_handler := 203
    guac_rdp_clipboard_handler := 204
    guac_rdp_user_leave_handler := 205
    guac_rdp_user_resume_handler := 206
    guac_rdp_user_frame_handler := 207
    guac_rdp_user_sync_handler := 208 }

/-- A VNC back-end whose argument parser accepts exactly the argument lists
that start with `host` and makes the connection read-only when the second
argument is `true`; its functions sit at the addresses 300 to 308. -/
def demo_vnc : VncEnv :=
  { guac_vnc_parse_args := fun settings _ argv =>
      if argv.head? = some "host" then
        (0, { settings with read_only := if argv.tail.head? = some "true" then 1 else 0 })
      else (1, settings)
    pthread_create := 0
    guac_vnc_client_thread := 300
    guac_vnc_user_mouse_handler := 301
    guac_vnc_user_key_handler := 302
    guac_vnc_clipboard_handler := 303
    guac_vnc_user_leave_handler := 305
    guac_vnc_user_resume_handler := 306
    guac_vnc_user_frame_handler := 307
    guac_vnc_user_sync_handler := 308 }

/-- A fresh client with a join handler (at 50) and a log handler (at 70); user
1 is the owner of the connection, every other user is not. -/
def owner_world : World :=
  { joined_world with
    client := { joined_world.client with log_handler := some 70 }
    users := fun p => { blank_user (100 + p) with owner := if p = 1 then 1 else 0 } }

/-- Surroundings in which the join handler of the client is
`guac_rdp_user_join_handler` of the back-end `x`, run on the memory `w0` as it
is when the handler is called. -/
def rdp_join_env (x : RdpEnv) (w0 : World) : Env :=
  { calm_env with
    join_result := fun _ user argc argv trace =>
      (guac_rdp_user_join_handler x { w0 with trace := trace } user argc argv).1 }

/-- Surroundings in which the join handler of the client is
`guac_vnc_user_join_handler` of the back-end `x` with the settings `settings`,
run on the memory `w0` as it is when the handler is called. -/
def vnc_join_env (x : VncEnv) (settings : guac_vnc_settings) (w0 : World) : Env :=
  { calm_env with
    join_result := fun _ user argc argv trace =>
      (guac_vnc_user_join_handler x settings { w0 with trace := trace } user argc argv).1 }

/-- The memory `owner_world` as it is when `guac_client_add_user` calls the
join handler: the users lock has been taken. -/
def owner_locked : World :=
  emit owner_world Event.mutex_lock

/-- An allocation that succeeds: `malloc` returns the address 4096, the
identifier is `$a1`, the time is 1234 and the new socket is 55. -/
def demo_alloc : AllocEnv :=
  { malloc := some 4096, generated_id := some "$a1", timestamp_current := 1234,
    socket := 55, GUAC_BUFFER_POOL_INITIAL_SIZE := 1024 }

/-- The client of `busy_world` with a join handler (at 50) installed. -/
def guarded_world : World :=
  { busy_world with client := { busy_world.client with join_handler := some 50 } }

/-- Surroundings in which the join handler refuses every user with the value
7. -/
def refusing_env : Env :=
  { calm_env with join_result := fun _ _ _ _ _ => 7 }

/-! ## The statements of the list operations, one by one -/

/-- One statement of `guac_client_add_user`, `guac_client_remove_user` or
`guac_client_foreach_user` as it is executed: a call that leaves `client.c`, or
a statement that reads or writes the user list. -/
inductive ListAction where
  | call (e : Event)
  -- user->__prev = NULL;
  | clear_prev (user : UserPtr)
  -- user->__next = client->__users;
  | next_from_head (user : UserPtr)
  -- if (client->__users != NULL) client->__users->__prev = user;
  | head_prev (user : UserPtr)
  -- client->__users = user;
  | head_to (user : UserPtr)
  -- client->connected_users++;
  | count_up
  -- if (user->__prev != NULL) user->__prev->__next = user->__next;
  -- else client->__users = user->__next;
  | update_prev (user : UserPtr)
  -- if (user->__next != NULL) user->__next->__prev = user->__prev;
  | update_next (user : UserPtr)
  -- client->connected_users--;
  | count_down
  -- current = client->__users;
  | read_head
  -- if (current->state == GUAC_USER_RUNNING) callback(current, data);
  -- current = current->__next;
  | visit (current : UserPtr)
deriving DecidableEq, Repr

/-- Whether a statement reads or writes the user list (the head, a link, the
counter, or a member on the way through the list). -/
def is_list_access : ListAction → Bool
  | ListAction.call _ => false
  | _ => true

/-- Executes one statement; `callback` and `data` are those of the
`guac_client_foreach_user` in progress, if any. -/
def run_list_action {δ : Type} (callback : UserPtr → δ → World → World) (data : δ) (w : World) :
    ListAction → World
  | ListAction.call e => emit w e
  | ListAction.clear_prev user => set_user w user (fun u => { u with __prev := none })
  | ListAction.next_from_head user =>
    set_user w user (fun u => { u with __next := w.client.__users })
  | ListAction.head_prev user =>
    match w.client.__users with
    | some head => set_user w head (fun h => { h with __prev := some user })
    | none => w
  | ListAction.head_to user => { w with client := { w.client with __users := some user } }
  | ListAction.count_up =>
    { w with client := { w.client with connected_users := w.client.connected_users + 1 } }
  | ListAction.update_prev user =>
    match (w.users user).__prev with
    | some prev => set_user w prev (fun p => { p with __next := (w.users user).__next })
    | none => { w with client := { w.client with __users := (w.users user).__next } }
  | ListAction.update_next user =>
    match (w.users user).__next with
    | some next => set_user w next (fun n => { n with __prev := (w.users user).__prev })
    | none => w
  | ListAction.count_down =>
    { w with client := { w.client with connected_users := w.client.connected_users - 1 } }
  | ListAction.read_head => w
  | ListAction.visit current =>
    if (w.users current).state = guac_user_state.GUAC_USER_RUNNING then callback current data w
    else w

/-- Executes statements one after the other, first statement first. -/
def run_list_actions {δ : Type} (callback : UserPtr → δ → World → World) (data : δ) (w : World)
    (actions : List ListAction) : World :=
  actions.foldl (run_list_action callback data) w

/-- The statements that `guac_client_add_user` executes on `w`, in the order of
`client.c`, lines 297-317. -/
def add_user_actions (env : Env) (w : World) (user : UserPtr) (argc : Int)
    (argv : List String) : List ListAction :=
  [ListAction.call Event.mutex_lock] ++
  -- Call handler, if defined
  (match w.client.join_handler with
    | some fn => [ListAction.call (Event.join_handler fn user argc argv)]
    | none => []) ++
  -- Add to list if join was successful
  (if (match w.client.join_handler with
        | some fn => env.join_result fn user argc argv (w.trace ++ [Event.mutex_lock])
        | none => 0) = 0 then
      [ListAction.clear_prev user, ListAction.next_from_head user, ListAction.head_prev user,
        ListAction.head_to user, ListAction.count_up]
    else []) ++
  [ListAction.call Event.mutex_unlock]

/-- The statements that `guac_client_remove_user` executes on `w`, in the order
of `client.c`, lines 325-345. -/
def remove_user_actions (w : World) (user : UserPtr) : List ListAction :=
  [ListAction.call Event.mutex_lock] ++
  -- Call handler, if defined
  (match (w.users user).leave_handler with
    | some fn => [ListAction.call (Event.leave_handler HandlerOf.user fn user)]
    | none =>
      match w.client.leave_handler with
      | some fn => [ListAction.call (Event.leave_handler HandlerOf.client fn user)]
      | none => []) ++
  -- Update prev / head, update next
  [ListAction.update_prev user, ListAction.update_next user, ListAction.count_down] ++
  [ListAction.call Event.mutex_unlock]

/-- The statements that `guac_client_foreach_user` executes when the user list
holds the users `l`, in the order of `client.c`, lines 387-400: one turn of the
loop for each member. -/
def foreach_user_actions (l : List UserPtr) : List ListAction :=
  [ListAction.call Event.mutex_lock] ++
  -- Call function on each active user
  [ListAction.read_head] ++ l.map ListAction.visit ++
  [ListAction.call Event.mutex_unlock]

/-! # Theorems -/

/-! ## The pool -/

theorem lowest_free_not_mem (s : List Nat) : lowest_free s ∉ s := by
  unfold lowest_free
  cases h : (List.range (s.length + 1)).find? (fun n => decide (n ∉ s)) with
  | some n =>
    have := List.find?_some h
    simpa using this
  | none =>
    exfalso
    rw [List.find?_eq_none] at h
    have hsub : List.range (s.length + 1) ⊆ s := by
      intro n hn
      have := h n hn
      simpa using this
    have hle := ((List.nodup_range (s.length + 1)).subperm hsub).length_le
    simp at hle

theorem lowest_free_minimal (s : List Nat) (m : Nat) (hm : m < lowest_free s) : m ∈ s := by
  unfold lowest_free at hm
  cases h : (List.range (s.length + 1)).find? (fun n => decide (n ∉ s)) with
  | some n =>
    rw [h] at hm
    simp only [Option.getD_some] at hm
    by_contra hms
    rw [List.find?_range_eq_some] at h
    have := h.2.2 m hm
    simp [hms] at this
  | none =>
    rw [h] at hm
    simp only [Option.getD_none] at hm
    rw [List.find?_eq_none] at h
    have := h m (List.mem_range.mpr (by omega))
    simpa using this

/-! ## Layers and buffers -/

/-- A layer index is the pool output plus one, hence at least 1: it is never
the index 0 of the default layer. -/
theorem alloc_layer_index_pos (c : guac_client) : 1 ≤ (guac_client_alloc_layer c).1.index := by
  simp [guac_client_alloc_layer, guac_pool_next_int]

/-- A buffer index is at most -1. -/
theorem alloc_buffer_index_neg (c : guac_client) : (guac_client_alloc_buffer c).1.index ≤ -1 := by
  simp only [guac_client_alloc_buffer, guac_pool_next_int]
  omega

/-- What holds of the buffer handles after every call: the live indices are
pairwise distinct and each one is `-n - 1` for an integer `n` that the buffer
pool has allocated. -/
theorem buffer_step_invariant (s : LayerSys) (op : LayerOp)
    (hnd : (s.live.map (fun l => l.index)).Nodup)
    (hmem : ∀ l ∈ s.live, ∃ n ∈ s.client.__buffer_pool.allocated, l.index = -(n : Int) - 1)
    (hop : ∀ layer, op = LayerOp.free layer → layer ∈ s.live) :
    ((buffer_step s op).live.map (fun l => l.index)).Nodup ∧
      ∀ l ∈ (buffer_step s op).live,
        ∃ n ∈ (buffer_step s op).client.__buffer_pool.allocated, l.index = -(n : Int) - 1 := by
  cases op with
  | alloc =>
    simp only [buffer_step, guac_client_alloc_buffer, guac_pool_next_int, List.map_cons,
      List.nodup_cons, List.mem_map, not_exists, not_and, List.mem_cons, forall_eq_or_imp]
    refine ⟨⟨?_, hnd⟩, ⟨_, ⟨Or.inl rfl, rfl⟩⟩, ?_⟩
    · intro l hl heq
      obtain ⟨n, hn, hidx⟩ := hmem l hl
      have hnot := lowest_free_not_mem s.client.__buffer_pool.allocated
      have : n = lowest_free s.client.__buffer_pool.allocated := by omega
      exact hnot (this ▸ hn)
    · intro l hl
      obtain ⟨n, hn, hidx⟩ := hmem l hl
      exact ⟨n, ⟨Or.inr hn, hidx⟩⟩
  | free layer =>
    have hlive : layer ∈ s.live := hop layer rfl
    have hnd0 : s.live.Nodup := List.Nodup.of_map _ hnd
    obtain ⟨m, _, hm⟩ := hmem layer hlive
    simp only [buffer_step, guac_client_free_buffer, guac_pool_free_int]
    refine ⟨hnd.sublist ((List.erase_sublist layer s.live).map _), ?_⟩
    intro l hl
    rw [hnd0.mem_erase_iff] at hl
    obtain ⟨n, hn, hidx⟩ := hmem l hl.2
    have hne : l.index ≠ layer.index := by
      intro h
      apply hl.1
      cases l
      cases layer
      simp_all
    have h0 : (0 : Int) ≤ -layer.index - 1 := by omega
    rw [if_pos h0]
    refine ⟨n, ?_, hidx⟩
    have hnm : n ≠ (-layer.index - 1).toNat := by
      intro h
      apply hne
      omega
    exact (List.mem_erase_of_ne hnm).mpr hn

/-- The invariant of `buffer_step_invariant` along a whole sequence of calls. -/
theorem buffer_run_invariant (ops : List LayerOp) :
    ∀ s : LayerSys, (s.live.map (fun l => l.index)).Nodup →
      (∀ l ∈ s.live, ∃ n ∈ s.client.__buffer_pool.allocated, l.index = -(n : Int) - 1) →
      FreesLive buffer_step s ops →
      ((buffer_run s ops).live.map (fun l => l.index)).Nodup ∧
        ∀ l ∈ (buffer_run s ops).live,
          ∃ n ∈ (buffer_run s ops).client.__buffer_pool.allocated, l.index = -(n : Int) - 1 := by
  induction ops with
  | nil => intro s hnd hmem _; exact ⟨hnd, hmem⟩
  | cons op ops ih =>
    intro s hnd hmem hvalid
    have hstep : (∀ layer, op = LayerOp.free layer → layer ∈ s.live) ∧
        FreesLive buffer_step (buffer_step s op) ops := by
      cases op with
      | alloc => exact ⟨fun _ h => (by cases h), hvalid⟩
      | free layer => exact ⟨fun _ h => (by cases h; exact hvalid.1), hvalid.2⟩
    obtain ⟨h1, h2⟩ := buffer_step_invariant s op hnd hmem hstep.1
    exact ih (buffer_step s op) h1 h2 hstep.2

/-- C1 (the code at the failing input): on a fresh client with the lowest-free
pool, the calls alloc, alloc, free of the handle with index 1, alloc are all
legal (the free hits a live handle), and they leave two live layer handles
that both carry index 2.  `guac_client_free_layer` hands `layer->index` to the
pool although `guac_client_alloc_layer` drew `index - 1`, so the pool integer
of the other live handle is released. -/
theorem C1_live_layer_indices_collide :
    FreesLive layer_step fresh_layers
        [LayerOp.alloc, LayerOp.alloc, LayerOp.free { index := 1 }, LayerOp.alloc] ∧
      (layer_run fresh_layers
          [LayerOp.alloc, LayerOp.alloc, LayerOp.free { index := 1 }, LayerOp.alloc]).live.map
        (fun l => l.index) = [2, 2] ∧
      ¬ ((layer_run fresh_layers
          [LayerOp.alloc, LayerOp.alloc, LayerOp.free { index := 1 }, LayerOp.alloc]).live.map
        (fun l => l.index)).Nodup := by
  decide

/-- C2 (the code at the failing input): three allocations on a fresh client
give the indices 1, 2, 3; after freeing the layer with index 2 the next
allocation returns index 3, not 2, while the first layer with index 3 is still
live. -/
theorem C2_freed_layer_index_not_reissued :
    (layer_run fresh_layers [LayerOp.alloc, LayerOp.alloc, LayerOp.alloc]).live.map
        (fun l => l.index) = [3, 2, 1] ∧
      (guac_client_alloc_layer
          (layer_run fresh_layers
            [LayerOp.alloc, LayerOp.alloc, LayerOp.alloc,
              LayerOp.free { index := 2 }]).client).1.index = 3 ∧
      (layer_run fresh_layers
          [LayerOp.alloc, LayerOp.alloc, LayerOp.alloc, LayerOp.free { index := 2 },
            LayerOp.alloc]).live.map
        (fun l => l.index) = [3, 3, 1] := by
  decide

/-- C3 (the code at the failing input): on a fresh client
`guac_client_alloc_layer` draws 0 from the layer pool and returns index 1;
`guac_client_free_layer` of that handle releases 1, so 0 stays allocated and
the pool is not back in its prior state.  Likewise from the state reached by
three allocations and the free of index 1, where the pool holds 2 and 0:
allocation draws 1, the free releases 2, and the pool ends holding 1 and 0. -/
theorem C3_alloc_free_layer_changes_pool :
    (guac_pool_next_int fresh_client.__layer_pool).1 = 0 ∧
      (guac_client_alloc_layer fresh_client).1.index = 1 ∧
      fresh_client.__layer_pool.allocated = [] ∧
      (guac_client_free_layer (guac_client_alloc_layer fresh_client).2
          (guac_client_alloc_layer fresh_client).1).__layer_pool.allocated = [0] ∧
      (layer_run fresh_layers
          [LayerOp.alloc, LayerOp.alloc, LayerOp.alloc,
            LayerOp.free { index := 1 }]).client.__layer_pool.allocated = [2, 0] ∧
      (guac_client_free_layer
          (guac_client_alloc_layer
            (layer_run fresh_layers
              [LayerOp.alloc, LayerOp.alloc, LayerOp.alloc,
                LayerOp.free { index := 1 }]).client).2
          (guac_client_alloc_layer
            (layer_run fresh_layers
              [LayerOp.alloc, LayerOp.alloc, LayerOp.alloc,
                LayerOp.free { index := 1 }]).client).1).__layer_pool.allocated = [1, 0] := by
  decide

/-- C4: after every sequence of `guac_client_alloc_buffer` and
`guac_client_free_buffer` calls on a client that starts with no live buffer,
each free being applied to a handle that is live at that moment, the indices
of the live buffer handles are pairwise distinct, each is at most -1 (so none
is 0), and none equals an index that `guac_client_alloc_layer` can return. -/
theorem C4_buffer_indices_distinct_negative (c : guac_client) (ops : List LayerOp)
    (hvalid : FreesLive buffer_step { client := c, live := [] } ops) :
    ((buffer_run { client := c, live := [] } ops).live.map (fun l => l.index)).Nodup ∧
      ∀ l ∈ (buffer_run { client := c, live := [] } ops).live,
        l.index ≤ -1 ∧ l.index ≠ __GUAC_DEFAULT_LAYER.index ∧
          ∀ c1 : guac_client, (guac_client_alloc_layer c1).1.index ≠ l.index := by
  have hinv := buffer_run_invariant ops { client := c, live := [] } (by simp) (by simp) hvalid
  refine ⟨hinv.1, ?_⟩
  intro l hl
  obtain ⟨n, _, hidx⟩ := hinv.2 l hl
  have hneg : l.index ≤ -1 := by omega
  refine ⟨hneg, ?_, ?_⟩
  · simp only [__GUAC_DEFAULT_LAYER]
    omega
  · intro c1 h
    have := alloc_layer_index_pos c1
    omega

/-- C4 at a concrete input: buffers allocated, freed and allocated again on a
fresh client. -/
theorem C4_buffer_indices_witness :
    FreesLive buffer_step { client := fresh_client, live := [] }
        [LayerOp.alloc, LayerOp.alloc, LayerOp.free { index := -1 }, LayerOp.alloc] ∧
      (((buffer_run { client := fresh_client, live := [] }
            [LayerOp.alloc, LayerOp.alloc, LayerOp.free { index := -1 }, LayerOp.alloc]).live.map
          (fun l => l.index)).Nodup ∧
        ∀ l ∈ (buffer_run { client := fresh_client, live := [] }
            [LayerOp.alloc, LayerOp.alloc, LayerOp.free { index := -1 }, LayerOp.alloc]).live,
          l.index ≤ -1 ∧ l.index ≠ __GUAC_DEFAULT_LAYER.index ∧
            ∀ c1 : guac_client, (guac_client_alloc_layer c1).1.index ≠ l.index) :=
  ⟨by decide,
    C4_buffer_indices_distinct_negative fresh_client
      [LayerOp.alloc, LayerOp.alloc, LayerOp.free { index := -1 }, LayerOp.alloc] (by decide)⟩

/-- C5: `guac_client_free_buffer` releases exactly the integer that
`guac_client_alloc_buffer` drew for the handle, so allocating a buffer and
freeing it gives back the client as it was (pool included) and the next
allocation returns the same index again.  With the lowest-free pool the first
two buffers of a fresh client have indices -1 and -2, and after freeing the -1
buffer the next allocation returns -1. -/
theorem C5_free_buffer_undoes_alloc_buffer (c : guac_client) :
    -(guac_client_alloc_buffer c).1.index - 1 = (guac_pool_next_int c.__buffer_pool).1 ∧
      guac_client_free_buffer (guac_client_alloc_buffer c).2 (guac_client_alloc_buffer c).1 = c ∧
      (guac_client_alloc_buffer
          (guac_client_free_buffer (guac_client_alloc_buffer c).2
            (guac_client_alloc_buffer c).1)).1.index = (guac_client_alloc_buffer c).1.index ∧
      (buffer_run fresh_layers [LayerOp.alloc, LayerOp.alloc]).live.map (fun l => l.index)
        = [-2, -1] ∧
      (guac_client_alloc_buffer
          (buffer_run fresh_layers
            [LayerOp.alloc, LayerOp.alloc, LayerOp.free { index := -1 }]).client).1.index = -1 := by
  have hround :
      guac_client_free_buffer (guac_client_alloc_buffer c).2 (guac_client_alloc_buffer c).1 = c := by
    simp only [guac_client_free_buffer, guac_client_alloc_buffer, guac_pool_next_int,
      guac_pool_free_int]
    have h0 : (0 : Int) ≤ -(-(lowest_free c.__buffer_pool.allocated : Int) - 1) - 1 := by omega
    rw [if_pos h0]
    have h1 : (-(-(lowest_free c.__buffer_pool.allocated : Int) - 1) - 1).toNat
        = lowest_free c.__buffer_pool.allocated := by omega
    rw [h1, List.erase_cons_head]
  refine ⟨?_, hround, ?_, by decide, by decide⟩
  · simp only [guac_client_alloc_buffer]
    omega
  · rw [hround]

/-! ## The doubly-linked user list -/

theorem DList_frame (users users1 : UserPtr → guac_user) :
    ∀ (l : List UserPtr) (p h : Option UserPtr),
      (∀ v ∈ l, (users1 v).__next = (users v).__next ∧ (users1 v).__prev = (users v).__prev) →
      DList users p h l → DList users1 p h l := by
  intro l
  induction l with
  | nil => intro p h _ hd; exact hd
  | cons u t ih =>
    intro p h hsame hd
    obtain ⟨hh, hp, ht⟩ := hd
    have hu := hsame u (List.mem_cons_self u t)
    refine ⟨hh, hu.2.trans hp, ?_⟩
    rw [hu.1]
    exact ih (some u) _ (fun v hv => hsame v (List.mem_cons_of_mem u hv)) ht

theorem DList_functional (users : UserPtr → guac_user) :
    ∀ (l l1 : List UserPtr) (p p1 h : Option UserPtr),
      DList users p h l → DList users p1 h l1 → l = l1 := by
  intro l
  induction l with
  | nil =>
    intro l1 p p1 h hd hd1
    cases l1 with
    | nil => rfl
    | cons u t =>
      have h0 : h = none := hd
      have h1 : h = some u := hd1.1
      rw [h0] at h1
      cases h1
  | cons u t ih =>
    intro l1 p p1 h hd hd1
    cases l1 with
    | nil =>
      have h0 : h = none := hd1
      have h1 : h = some u := hd.1
      rw [h0] at h1
      cases h1
    | cons u1 t1 =>
      have h0 : h = some u := hd.1
      have h1 : h = some u1 := hd1.1
      rw [h0] at h1
      cases h1
      rw [ih t1 (some u) (some u) _ hd.2.2 hd1.2.2]

theorem DList_from_member (users : UserPtr → guac_user) :
    ∀ (l : List UserPtr) (p h : Option UserPtr) (v : UserPtr),
      DList users p h l → v ∈ l →
      ∃ q t, DList users q (some v) (v :: t) ∧ (v :: t).length ≤ l.length := by
  intro l
  induction l with
  | nil => intro p h v _ hv; cases hv
  | cons u t ih =>
    intro p h v hd hv
    rcases List.mem_cons.mp hv with rfl | hvt
    · exact ⟨p, t, ⟨rfl, hd.2.1, hd.2.2⟩, le_refl _⟩
    · obtain ⟨q, s, hs, hlen⟩ := ih (some u) _ v hd.2.2 hvt
      exact ⟨q, s, hs, le_trans hlen (by simp)⟩

theorem DList_nodup (users : UserPtr → guac_user) :
    ∀ (l : List UserPtr) (p h : Option UserPtr), DList users p h l → l.Nodup := by
  intro l
  induction l with
  | nil => intro _ _ _; exact List.nodup_nil
  | cons u t ih =>
    intro p h hd
    refine List.nodup_cons.mpr ⟨?_, ih (some u) _ hd.2.2⟩
    intro hu
    obtain ⟨q, s, hs, hlen⟩ := DList_from_member users t (some u) _ u hd.2.2 hu
    have hfull : DList users p (some u) (u :: t) := ⟨rfl, hd.2.1, hd.2.2⟩
    have := DList_functional users (u :: s) (u :: t) q p (some u) hs hfull
    rw [this] at hlen
    simp at hlen

theorem DList_next_mem (users : UserPtr → guac_user) :
    ∀ (l : List UserPtr) (p h : Option UserPtr) (u n : UserPtr),
      DList users p h l → u ∈ l → (users u).__next = some n → n ∈ l := by
  intro l
  induction l with
  | nil => intro p h u n _ hu; cases hu
  | cons v t ih =>
    intro p h u n hd hu hn
    rcases List.mem_cons.mp hu with rfl | hut
    · have ht := hd.2.2
      rw [hn] at ht
      cases t with
      | nil => cases ht
      | cons x s =>
        have hx : some n = some x := ht.1
        cases hx
        simp
    · exact List.mem_cons_of_mem v (ih (some v) _ u n hd.2.2 hut hn)

theorem DList_prev_cases (users : UserPtr → guac_user) :
    ∀ (l : List UserPtr) (p h : Option UserPtr) (u : UserPtr),
      DList users p h l → u ∈ l →
      ((users u).__prev = p ∧ h = some u) ∨
        ∃ q ∈ l, (users u).__prev = some q ∧ (users q).__next = some u ∧ q ≠ u := by
  intro l
  induction l with
  | nil => intro p h u _ hu; cases hu
  | cons v t ih =>
    intro p h u hd hu
    have hnd := DList_nodup users (v :: t) p h hd
    rcases List.mem_cons.mp hu with rfl | hut
    · exact Or.inl ⟨hd.2.1, hd.1⟩
    · right
      rcases ih (some v) _ u hd.2.2 hut with ⟨hp, hn⟩ | ⟨q, hq, hp, hn, hne⟩
      · refine ⟨v, List.mem_cons_self v t, hp, hn, ?_⟩
        rintro rfl
        exact (List.nodup_cons.mp hnd).1 hut
      · exact ⟨q, List.mem_cons_of_mem v hq, hp, hn, hne⟩

theorem reachable_users_of_DList (users : UserPtr → guac_user) :
    ∀ (l : List UserPtr) (p h : Option UserPtr) (fuel : Nat),
      DList users p h l → l.length ≤ fuel → reachable_users users fuel h = l := by
  intro l
  induction l with
  | nil =>
    intro p h fuel hd _
    have h0 : h = none := hd
    subst h0
    cases fuel <;> rfl
  | cons u t ih =>
    intro p h fuel hd hfuel
    have h0 : h = some u := hd.1
    subst h0
    cases fuel with
    | zero => simp at hfuel
    | succ k =>
      simp only [reachable_users]
      rw [ih (some u) _ k hd.2.2 (by simpa using hfuel)]

/-! ## Adding and removing users -/

@[simp]
theorem emit_users (w : World) (e : Event) : (emit w e).users = w.users := rfl

@[simp]
theorem emit_client (w : World) (e : Event) : (emit w e).client = w.client := rfl

@[simp]
theorem emit_trace (w : World) (e : Event) : (emit w e).trace = w.trace ++ [e] := rfl

@[simp]
theorem set_user_client (w : World) (u : UserPtr) (f : guac_user → guac_user) :
    (set_user w u f).client = w.client := rfl

@[simp]
theorem set_user_trace (w : World) (u : UserPtr) (f : guac_user → guac_user) :
    (set_user w u f).trace = w.trace := rfl

@[simp]
theorem set_user_users (w : World) (u : UserPtr) (f : guac_user → guac_user) :
    (set_user w u f).users = Function.update w.users u (f (w.users u)) := rfl

theorem add_user_link_client (w : World) (user : UserPtr) :
    (add_user_link w user).client =
      { w.client with
        __users := some user, connected_users := w.client.connected_users + 1 } := by
  unfold add_user_link
  cases h : w.client.__users <;> simp [h]

theorem add_user_link_trace (w : World) (user : UserPtr) :
    (add_user_link w user).trace = w.trace := by
  unfold add_user_link
  cases h : w.client.__users <;> simp [h]

theorem add_user_link_next (w : World) (user v : UserPtr) :
    ((add_user_link w user).users v).__next =
      if v = user then w.client.__users else (w.users v).__next := by
  unfold add_user_link
  cases h : w.client.__users with
  | none =>
    by_cases hv : v = user
    · subst hv; simp [h]
    · simp [h, hv, Function.update_noteq hv]
  | some hd =>
    by_cases hv : v = user
    · subst hv
      by_cases hh : v = hd
      · subst hh; simp [h]
      · simp [h, Function.update_noteq hh]
    · by_cases hh : v = hd
      · subst hh; simp [h, hv, Function.update_noteq hv]
      · simp [h, hv, Function.update_noteq hh, Function.update_noteq hv]

theorem add_user_link_prev (w : World) (user v : UserPtr) :
    ((add_user_link w user).users v).__prev =
      if w.client.__users = some v then some user
      else if v = user then none else (w.users v).__prev := by
  unfold add_user_link
  cases h : w.client.__users with
  | none =>
    by_cases hv : v = user
    · subst hv; simp [h]
    · simp [h, hv, Function.update_noteq hv]
  | some hd =>
    by_cases hh : v = hd
    · subst hh; simp [h]
    · have hh1 : ¬ hd = v := fun e => hh e.symm
      by_cases hv : v = user
      · subst hv; simp [h, hh1, Function.update_noteq hh]
      · simp [h, hv, hh1, Function.update_noteq hh, Function.update_noteq hv]

theorem add_user_link_state (w : World) (user v : UserPtr) :
    ((add_user_link w user).users v).state = (w.users v).state ∧
      ((add_user_link w user).users v).socket = (w.users v).socket := by
  unfold add_user_link
  cases h : w.client.__users with
  | none =>
    by_cases hv : v = user
    · subst hv; simp [h]
    · simp [h, hv, Function.update_noteq hv]
  | some hd =>
    by_cases hh : v = hd
    · subst hh
      by_cases hv : v = user
      · subst hv; simp [h]
      · simp [h, Function.update_noteq hv]
    · by_cases hv : v = user
      · subst hv; simp [h, Function.update_noteq hh]
      · simp [h, hv, Function.update_noteq hh, Function.update_noteq hv]

theorem add_user_link_wf (w : World) (user : UserPtr) (l : List UserPtr)
    (hwf : WellFormed w l) (hnew : user ∉ l) : WellFormed (add_user_link w user) (user :: l) := by
  unfold WellFormed at hwf ⊢
  have hnd := DList_nodup _ _ _ _ hwf
  rw [add_user_link_client]
  refine ⟨rfl, ?_, ?_⟩
  · rw [add_user_link_prev]
    cases l with
    | nil =>
      have h0 : w.client.__users = none := hwf
      simp [h0]
    | cons hd t =>
      have h0 : w.client.__users = some hd := hwf.1
      have hne : hd ≠ user := by
        rintro rfl
        exact hnew (List.mem_cons_self _ _)
      simp [h0, hne]
  · rw [add_user_link_next, if_pos rfl]
    cases l with
    | nil => exact hwf
    | cons hd t =>
      have h0 : w.client.__users = some hd := hwf.1
      have hne : hd ≠ user := by
        rintro rfl
        exact hnew (List.mem_cons_self _ _)
      have hhd : hd ∉ t := (List.nodup_cons.mp hnd).1
      refine ⟨h0, ?_, ?_⟩
      · rw [add_user_link_prev, if_pos h0]
      · rw [add_user_link_next, if_neg hne]
        refine DList_frame w.users _ t (some hd) _ ?_ hwf.2.2
        intro v hv
        have hv1 : v ≠ hd := by rintro rfl; exact hhd hv
        have hv2 : v ≠ user := by rintro rfl; exact hnew (List.mem_cons_of_mem _ hv)
        have hv3 : ¬ w.client.__users = some v := by
          rw [h0]
          intro e
          cases e
          exact hv1 rfl
        rw [add_user_link_next, add_user_link_prev, if_neg hv2, if_neg hv3, if_neg hv2]
        exact ⟨rfl, rfl⟩

theorem remove_user_unlink_client (w : World) (user : UserPtr) :
    (remove_user_unlink w user).client =
      { w.client with
        __users :=
          (match (w.users user).__prev with
          | some _ => w.client.__users
          | none => (w.users user).__next),
        connected_users := w.client.connected_users - 1 } := by
  unfold remove_user_unlink
  cases hp : (w.users user).__prev <;> cases hn : (w.users user).__next <;> simp [hp, hn] <;>
    split <;> simp

theorem remove_user_unlink_trace (w : World) (user : UserPtr) :
    (remove_user_unlink w user).trace = w.trace := by
  unfold remove_user_unlink
  cases hp : (w.users user).__prev <;> cases hn : (w.users user).__next <;> simp [hp, hn] <;>
    split <;> simp

theorem remove_user_unlink_next (w : World) (user v : UserPtr) :
    ((remove_user_unlink w user).users v).__next =
      if (w.users user).__prev = some v then (w.users user).__next else (w.users v).__next := by
  unfold remove_user_unlink
  cases hp : (w.users user).__prev with
  | none =>
    cases hn : (w.users user).__next with
    | none => simp [hn]
    | some n =>
      by_cases hv : v = n
      · subst hv; simp [hn]
      · simp [hn, Function.update_noteq hv]
  | some q =>
    by_cases hq : v = q
    · subst hq
      simp only [set_user_users, set_user_client, Function.update_same, if_true]
      split
      · rename_i n hn
        by_cases hvn : v = n
        · subst hvn; simp
        · simp [Function.update_noteq hvn]
      · simp
    · have hq1 : ¬ q = v := fun e => hq e.symm
      simp only [set_user_users, set_user_client, Option.some.injEq, hq1, if_false]
      split
      · rename_i n hn
        by_cases hvn : v = n
        · subst hvn; simp [Function.update_noteq hq]
        · simp [Function.update_noteq hvn, Function.update_noteq hq]
      · simp [Function.update_noteq hq]

theorem remove_user_unlink_state (w : World) (user v : UserPtr) :
    ((remove_user_unlink w user).users v).state = (w.users v).state ∧
      ((remove_user_unlink w user).users v).socket = (w.users v).socket := by
  unfold remove_user_unlink
  cases hp : (w.users user).__prev with
  | none =>
    cases hn : (w.users user).__next with
    | none => simp [hn]
    | some n =>
      by_cases hv : v = n
      · subst hv; simp [hn]
      · simp [hn, Function.update_noteq hv]
  | some q =>
    simp only [set_user_users, set_user_client]
    split
    · rename_i n hn
      by_cases hvn : v = n
      · subst hvn
        by_cases hq : v = q
        · subst hq; simp
        · simp [Function.update_noteq hq]
      · by_cases hq : v = q
        · subst hq; simp [Function.update_noteq hvn]
        · simp [Function.update_noteq hvn, Function.update_noteq hq]
    · by_cases hq : v = q
      · subst hq; simp
      · simp [Function.update_noteq hq]

theorem remove_user_unlink_prev (w : World) (user v : UserPtr)
    (hself : (w.users user).__prev ≠ some user) :
    ((remove_user_unlink w user).users v).__prev =
      if (w.users user).__next = some v then (w.users user).__prev else (w.users v).__prev := by
  unfold remove_user_unlink
  cases hp : (w.users user).__prev with
  | none =>
    cases hn : (w.users user).__next with
    | none => simp [hn]
    | some n =>
      by_cases hv : v = n
      · subst hv; simp [hn, hp]
      · have hv1 : ¬ n = v := fun e => hv e.symm
        simp [hn, hv1, Function.update_noteq hv]
  | some q =>
    have hqu : user ≠ q := by
      intro e
      apply hself
      rw [hp, e]
    simp only [set_user_users, set_user_client, Function.update_noteq hqu]
    cases hn : (w.users user).__next with
    | none =>
      simp only [if_false]
      by_cases hq : v = q
      · subst hq; simp
      · simp [Function.update_noteq hq]
    | some n =>
      by_cases hv : v = n
      · subst hv
        simp [hp]
      · have hv1 : ¬ n = v := fun e => hv e.symm
        simp only [Option.some.injEq, hv1, if_false, Function.update_noteq hv]
        by_cases hq : v = q
        · subst hq; simp [Function.update_noteq hv]
        · simp [Function.update_noteq hq, Function.update_noteq hv]

theorem remove_user_unlink_dlist (w : World) (user : UserPtr) :
    ∀ (l : List UserPtr) (p h : Option UserPtr),
      DList w.users p h l → (∀ q, p = some q → q ∉ l) → user ∈ l →
      DList (remove_user_unlink w user).users p
        (if h = some user then (w.users user).__next else h) (l.erase user) := by
  intro l
  induction l with
  | nil => intro p h _ _ hu; cases hu
  | cons v t ih =>
    intro p h hd hp hu
    have hnd := DList_nodup _ _ _ _ hd
    have hvt : v ∉ t := (List.nodup_cons.mp hnd).1
    have hh : h = some v := hd.1
    -- the predecessor field of `user` does not point at `user` itself
    have hself : (w.users user).__prev ≠ some user := by
      rcases DList_prev_cases _ _ _ _ user hd hu with ⟨h1, _⟩ | ⟨q, _, h1, _, hne⟩
      · rw [h1]
        intro e
        exact hp user e hu
      · rw [h1]
        intro e
        cases e
        exact hne rfl
    by_cases huv : user = v
    · -- `user` is the first element of this part of the list
      subst huv
      rw [List.erase_cons_head, if_pos hh]
      have hprev : (w.users user).__prev = p := hd.2.1
      cases t with
      | nil => exact hd.2.2
      | cons n s =>
        have hn : (w.users user).__next = some n := hd.2.2.1
        have hnu : n ≠ user := by
          rintro rfl
          exact hvt (List.mem_cons_self _ _)
        have hpn : ∀ x, x ∈ user :: n :: s → (w.users user).__prev ≠ some x := by
          intro x hx e
          rw [hprev] at e
          exact hp x e hx
        refine ⟨hn, ?_, ?_⟩
        · rw [remove_user_unlink_prev w user n hself, if_pos hn, hprev]
        · rw [remove_user_unlink_next, if_neg (hpn n (by simp))]
          refine DList_frame w.users _ s (some n) _ ?_ hd.2.2.2.2
          intro x hx
          have hxn : x ≠ n := by
            rintro rfl
            exact (List.nodup_cons.mp (List.nodup_cons.mp hnd).2).1 hx
          have hnx : ¬ (w.users user).__next = some x := by
            rw [hn]
            intro e
            cases e
            exact hxn rfl
          rw [remove_user_unlink_next, remove_user_unlink_prev w user x hself,
            if_neg (hpn x (by simp [hx])), if_neg hnx]
          exact ⟨rfl, rfl⟩
    · -- `user` sits further down
      have hut : user ∈ t := by
        rcases List.mem_cons.mp hu with e | e
        · exact absurd e huv
        · exact e
      have hvu : ¬ (v == user) = true := by
        simpa using fun e : v = user => huv e.symm
      rw [List.erase_cons_tail hvu]
      have hhu : ¬ h = some user := by
        rw [hh]
        intro e
        cases e
        exact huv rfl
      rw [if_neg hhu]
      have hnv : ¬ (w.users user).__next = some v := by
        intro e
        exact hvt (DList_next_mem _ _ _ _ user v hd.2.2 hut e)
      refine ⟨hh, ?_, ?_⟩
      · rw [remove_user_unlink_prev w user v hself, if_neg hnv]
        exact hd.2.1
      · have hrec := ih (some v) (w.users v).__next hd.2.2
          (fun q e => by cases e; exact hvt) hut
        have hiff : (w.users user).__prev = some v ↔ (w.users v).__next = some user := by
          constructor
          · intro e
            rcases DList_prev_cases _ _ _ _ user hd.2.2 hut with ⟨_, h2⟩ | ⟨q, hq, h1, _, _⟩
            · exact h2
            · rw [e] at h1
              cases h1
              exact absurd hq hvt
          · intro e
            have ht := hd.2.2
            rw [e] at ht
            cases t with
            | nil => cases hut
            | cons x s =>
              have hx : some user = some x := ht.1
              cases hx
              exact ht.2.1
        rw [remove_user_unlink_next]
        by_cases hc : (w.users v).__next = some user
        · rw [if_pos (hiff.mpr hc)]
          rw [if_pos hc] at hrec
          exact hrec
        · rw [if_neg (fun e => hc (hiff.mp e))]
          rw [if_neg hc] at hrec
          exact hrec

theorem remove_user_unlink_wf (w : World) (user : UserPtr) (l : List UserPtr)
    (hwf : WellFormed w l) (hmem : user ∈ l) :
    WellFormed (remove_user_unlink w user) (l.erase user) := by
  unfold WellFormed at hwf ⊢
  have hrec := remove_user_unlink_dlist w user l none w.client.__users hwf
    (fun q e => by cases e) hmem
  rw [remove_user_unlink_client]
  have hhead : (match (w.users user).__prev with
      | some _ => w.client.__users
      | none => (w.users user).__next) =
      (if w.client.__users = some user then (w.users user).__next else w.client.__users) := by
    rcases DList_prev_cases _ _ _ _ user hwf hmem with ⟨h1, h2⟩ | ⟨q, hq, h1, _, hne⟩
    · rw [h1, if_pos h2]
    · rw [h1]
      have : ¬ w.client.__users = some user := by
        intro e
        cases l with
        | nil => cases hmem
        | cons x s =>
          have hx : w.client.__users = some x := hwf.1
          rw [hx] at e
          cases e
          have := hwf.2.1
          rw [h1] at this
          cases this
      rw [if_neg this]
  simp only [hhead]
  exact hrec

theorem WellFormed_unique (w : World) (l l1 : List UserPtr) (h : WellFormed w l)
    (h1 : WellFormed w l1) : l = l1 :=
  DList_functional w.users l l1 none none w.client.__users h h1

theorem add_user_retval (env : Env) (w : World) (user : UserPtr) (argc : Int)
    (argv : List String) :
    (guac_client_add_user env w user argc argv).1 =
      match w.client.join_handler with
      | some fn => env.join_result fn user argc argv (w.trace ++ [Event.mutex_lock])
      | none => 0 := by
  unfold guac_client_add_user
  cases h : w.client.join_handler <;> simp [h]

theorem add_user_refused (env : Env) (w : World) (user : UserPtr) (argc : Int)
    (argv : List String) (h : (guac_client_add_user env w user argc argv).1 ≠ 0) :
    (guac_client_add_user env w user argc argv).2.users = w.users ∧
      (guac_client_add_user env w user argc argv).2.client = w.client := by
  unfold guac_client_add_user at h ⊢
  cases hj : w.client.join_handler with
  | none => simp [hj] at h
  | some fn =>
    simp only [hj, emit_client, emit_trace] at h ⊢
    simp [h]

theorem add_user_shape (env : Env) (w : World) (user : UserPtr) (argc : Int)
    (argv : List String) :
    ∃ w2 : World, w2.users = w.users ∧ w2.client = w.client ∧
      (guac_client_add_user env w user argc argv).2 =
        emit (if (guac_client_add_user env w user argc argv).1 = 0 then add_user_link w2 user
          else w2) Event.mutex_unlock := by
  unfold guac_client_add_user
  cases hj : w.client.join_handler with
  | none => exact ⟨emit w Event.mutex_lock, rfl, rfl, by simp [hj]⟩
  | some fn =>
    exact ⟨emit (emit w Event.mutex_lock) (Event.join_handler fn user argc argv), rfl, rfl,
      by simp [hj]⟩

theorem WellFormed_congr (w w2 : World) (l : List UserPtr) (hu : w2.users = w.users)
    (hc : w2.client = w.client) : WellFormed w2 l ↔ WellFormed w l := by
  unfold WellFormed
  rw [hu, hc]

theorem add_user_accepted (env : Env) (w : World) (user : UserPtr) (argc : Int)
    (argv : List String) (h : (guac_client_add_user env w user argc argv).1 = 0) :
    (guac_client_add_user env w user argc argv).2.client =
        { w.client with
          __users := some user, connected_users := w.client.connected_users + 1 } ∧
      ∀ l, WellFormed w l → user ∉ l →
        WellFormed (guac_client_add_user env w user argc argv).2 (user :: l) := by
  obtain ⟨w2, hu, hc, hshape⟩ := add_user_shape env w user argc argv
  rw [if_pos h] at hshape
  rw [hshape]
  refine ⟨?_, ?_⟩
  · rw [emit_client, add_user_link_client, hc]
  · intro l hwf hnew
    exact add_user_link_wf w2 user l ((WellFormed_congr w w2 l hu hc).mpr hwf) hnew

theorem remove_user_shape (w : World) (user : UserPtr) :
    ∃ w2 : World, w2.users = w.users ∧ w2.client = w.client ∧
      guac_client_remove_user w user = emit (remove_user_unlink w2 user) Event.mutex_unlock := by
  unfold guac_client_remove_user
  simp only [emit_users, emit_client]
  cases (w.users user).leave_handler with
  | some fn =>
    exact ⟨emit (emit w Event.mutex_lock) (Event.leave_handler HandlerOf.user fn user),
      rfl, rfl, rfl⟩
  | none =>
    cases w.client.leave_handler with
    | some fn =>
      exact ⟨emit (emit w Event.mutex_lock) (Event.leave_handler HandlerOf.client fn user),
        rfl, rfl, rfl⟩
    | none => exact ⟨emit w Event.mutex_lock, rfl, rfl, rfl⟩

theorem remove_user_wf (w : World) (user : UserPtr) (l : List UserPtr) (hwf : WellFormed w l)
    (hmem : user ∈ l) : WellFormed (guac_client_remove_user w user) (l.erase user) := by
  obtain ⟨w2, hu, hc, hshape⟩ := remove_user_shape w user
  rw [hshape]
  exact remove_user_unlink_wf w2 user l ((WellFormed_congr w w2 l hu hc).mpr hwf) hmem

theorem remove_user_count (w : World) (user : UserPtr) :
    (guac_client_remove_user w user).client.connected_users = w.client.connected_users - 1 := by
  obtain ⟨w2, _, hc, hshape⟩ := remove_user_shape w user
  rw [hshape, emit_client, remove_user_unlink_client, ← hc]

/-- The counter `connected_users` agrees with the list: the invariant behind
the membership operations. -/
theorem user_step_count (env : Env) (w : World) (op : UserOp) (l : List UserPtr)
    (hwf : WellFormed w l) (hcount : w.client.connected_users = l.length)
    (hvalid : UserOpsValid env w [op]) :
    ∃ l1, WellFormed (user_step env w op) l1 ∧
      (user_step env w op).client.connected_users = l1.length := by
  cases op with
  | add user argc argv =>
    have hnew : user ∉ l := hvalid.1 l hwf
    by_cases h : (guac_client_add_user env w user argc argv).1 = 0
    · obtain ⟨hc, hl⟩ := add_user_accepted env w user argc argv h
      refine ⟨user :: l, hl l hwf hnew, ?_⟩
      simp only [user_step, hc, hcount, List.length_cons]
      push_cast
      rfl
    · obtain ⟨hu, hc⟩ := add_user_refused env w user argc argv h
      refine ⟨l, ?_, ?_⟩
      · unfold WellFormed at hwf ⊢
        simp only [user_step, hu, hc]
        exact hwf
      · simp only [user_step, hc, hcount]
  | remove user =>
    obtain ⟨l0, hwf0, hmem0⟩ := hvalid.1
    have hmem : user ∈ l := by
      rw [WellFormed_unique w l l0 hwf hwf0]
      exact hmem0
    refine ⟨l.erase user, remove_user_wf w user l hwf hmem, ?_⟩
    simp only [user_step, remove_user_count, hcount, List.length_erase_of_mem hmem]
    have hpos : 1 ≤ l.length := List.length_pos_of_mem hmem
    omega

theorem user_run_count (env : Env) (ops : List UserOp) :
    ∀ (w : World) (l : List UserPtr), WellFormed w l → w.client.connected_users = l.length →
      UserOpsValid env w ops →
      ∃ l1, WellFormed (user_run env w ops) l1 ∧
        (user_run env w ops).client.connected_users = l1.length := by
  induction ops with
  | nil => intro w l hwf hc _; exact ⟨l, hwf, hc⟩
  | cons op ops ih =>
    intro w l hwf hc hvalid
    have hsplit : UserOpsValid env w [op] ∧ UserOpsValid env (user_step env w op) ops := by
      cases op with
      | add user argc argv => exact ⟨⟨hvalid.1, trivial⟩, hvalid.2⟩
      | remove user => exact ⟨⟨hvalid.1, trivial⟩, hvalid.2⟩
    obtain ⟨l1, hwf1, hc1⟩ := user_step_count env w op l hwf hc hsplit.1
    exact ih (user_step env w op) l1 hwf1 hc1 hsplit.2

theorem UserOpsValid_take (env : Env) (ops : List UserOp) :
    ∀ (w : World) (k : Nat), UserOpsValid env w ops → UserOpsValid env w (ops.take k) := by
  induction ops with
  | nil => intro w k h; simpa using h
  | cons op ops ih =>
    intro w k h
    cases k with
    | zero => exact trivial
    | succ k =>
      cases op with
      | add user argc argv => exact ⟨h.1, ih _ k h.2⟩
      | remove user => exact ⟨h.1, ih _ k h.2⟩

theorem not_mem_of_WellFormed (w : World) (l0 : List UserPtr) (user : UserPtr)
    (h0 : WellFormed w l0) (hnew : user ∉ l0) : ∀ l, WellFormed w l → user ∉ l := by
  intro l hl
  rw [WellFormed_unique w l l0 hl h0]
  exact hnew

/-- C6: when a join handler is installed, `guac_client_add_user` returns
exactly the value the handler returned.  If that value is zero the user
becomes the head of the list (the former members follow it, the list stays
well-formed) and `connected_users` grows by one; if it is non-zero the user
heap and the whole client structure, hence the list and the counter, are
unchanged. -/
theorem C6_add_user_follows_join_handler (env : Env) (w : World) (user : UserPtr) (argc : Int)
    (argv : List String) (fn : FnPtr) (hjoin : w.client.join_handler = some fn) :
    (guac_client_add_user env w user argc argv).1 =
        env.join_result fn user argc argv (w.trace ++ [Event.mutex_lock]) ∧
      ((guac_client_add_user env w user argc argv).1 = 0 →
        (guac_client_add_user env w user argc argv).2.client.__users = some user ∧
          (guac_client_add_user env w user argc argv).2.client.connected_users =
            w.client.connected_users + 1 ∧
          ∀ l, WellFormed w l → user ∉ l →
            WellFormed (guac_client_add_user env w user argc argv).2 (user :: l)) ∧
      ((guac_client_add_user env w user argc argv).1 ≠ 0 →
        (guac_client_add_user env w user argc argv).2.users = w.users ∧
          (guac_client_add_user env w user argc argv).2.client = w.client) := by
  refine ⟨?_, ?_, add_user_refused env w user argc argv⟩
  · rw [add_user_retval, hjoin]
  · intro h
    obtain ⟨hc, hl⟩ := add_user_accepted env w user argc argv h
    refine ⟨?_, ?_, hl⟩
    · rw [hc]
    · rw [hc]

/-- C7: on a client whose list is empty and whose counter is 0, as
`guac_client_alloc` leaves them, after every prefix of a sequence of
`guac_client_add_user` and `guac_client_remove_user` calls (each add of a user
that is not in the list, each remove of a user that is in it, whatever the
join handler returns) the list is well-formed and `connected_users` equals the
number of users reachable from the head. -/
theorem C7_connected_users_is_list_length (env : Env) (w0 : World) (ops : List UserOp)
    (hhead : w0.client.__users = none) (hcount : w0.client.connected_users = 0)
    (hvalid : UserOpsValid env w0 ops) (k : Nat) :
    ∃ l, WellFormed (user_run env w0 (ops.take k)) l ∧
      (user_run env w0 (ops.take k)).client.connected_users = l.length ∧
      ∀ fuel, l.length ≤ fuel →
        reachable_users (user_run env w0 (ops.take k)).users fuel
          (user_run env w0 (ops.take k)).client.__users = l := by
  obtain ⟨l, hwf, hc⟩ := user_run_count env (ops.take k) w0 [] hhead (by simpa using hcount)
    (UserOpsValid_take env ops w0 k hvalid)
  exact ⟨l, hwf, hc, fun fuel hf => reachable_users_of_DList _ l none _ fuel hwf hf⟩

/-- C6 at a concrete input: user 1 joins a fresh client whose join handler
accepts it. -/
theorem C6_add_user_witness :
    joined_world.client.join_handler = some 50 ∧
      ((guac_client_add_user picky_env joined_world 1 0 []).1 =
          picky_env.join_result 50 1 0 [] (joined_world.trace ++ [Event.mutex_lock]) ∧
        ((guac_client_add_user picky_env joined_world 1 0 []).1 = 0 →
          (guac_client_add_user picky_env joined_world 1 0 []).2.client.__users = some 1 ∧
            (guac_client_add_user picky_env joined_world 1 0 []).2.client.connected_users =
              joined_world.client.connected_users + 1 ∧
            ∀ l, WellFormed joined_world l → 1 ∉ l →
              WellFormed (guac_client_add_user picky_env joined_world 1 0 []).2 (1 :: l)) ∧
        ((guac_client_add_user picky_env joined_world 1 0 []).1 ≠ 0 →
          (guac_client_add_user picky_env joined_world 1 0 []).2.users = joined_world.users ∧
            (guac_client_add_user picky_env joined_world 1 0 []).2.client =
              joined_world.client)) :=
  ⟨rfl, C6_add_user_follows_join_handler picky_env joined_world 1 0 [] 50 rfl⟩

theorem scenario_ops_valid : UserOpsValid picky_env joined_world scenario_ops :=
  ⟨not_mem_of_WellFormed _ [] 1 (by decide) (by decide),
    not_mem_of_WellFormed _ [1] 2 (by decide) (by decide),
    not_mem_of_WellFormed _ [2, 1] 3 (by decide) (by decide),
    ⟨[2, 1], by decide, by decide⟩, trivial⟩

/-- C7 at a concrete input: users 1 and 2 join, user 3 is refused, user 1
leaves; the counter and the list agree after all four calls. -/
theorem C7_connected_users_witness :
    joined_world.client.__users = none ∧ joined_world.client.connected_users = 0 ∧
      UserOpsValid picky_env joined_world scenario_ops ∧
      ∃ l, WellFormed (user_run picky_env joined_world (scenario_ops.take 4)) l ∧
        (user_run picky_env joined_world (scenario_ops.take 4)).client.connected_users
          = l.length ∧
        ∀ fuel, l.length ≤ fuel →
          reachable_users (user_run picky_env joined_world (scenario_ops.take 4)).users fuel
            (user_run picky_env joined_world (scenario_ops.take 4)).client.__users = l :=
  ⟨rfl, rfl, scenario_ops_valid,
    C7_connected_users_is_list_length picky_env joined_world scenario_ops rfl rfl
      scenario_ops_valid 4⟩

/-! ## Iterating over the users -/

theorem NextChain_of_DList (users : UserPtr → guac_user) :
    ∀ (l : List UserPtr) (p h : Option UserPtr), DList users p h l → NextChain users h l := by
  intro l
  induction l with
  | nil => intro p h hd; exact hd
  | cons u t ih => intro p h hd; exact ⟨hd.1, ih (some u) _ hd.2.2⟩

theorem NextChain_frame (users users1 : UserPtr → guac_user)
    (hsame : ∀ v, (users1 v).__next = (users v).__next) :
    ∀ (l : List UserPtr) (h : Option UserPtr), NextChain users h l → NextChain users1 h l := by
  intro l
  induction l with
  | nil => intro h hc; exact hc
  | cons u t ih =>
    intro h hc
    refine ⟨hc.1, ?_⟩
    rw [hsame u]
    exact ih _ hc.2

theorem running_users_congr (w w1 : World) (l : List UserPtr)
    (hsame : ∀ v, (w1.users v).state = (w.users v).state) :
    running_users w1 l = running_users w l := by
  unfold running_users
  apply List.filter_congr
  intro v _
  rw [hsame v]

/-- The loop of `guac_client_foreach_user` on a list that ends at `NULL`: with
fuel for every member it returns, and it has called the callback on the running
members, in list order. -/
theorem foreach_loop_spec {δ : Type} (callback : UserPtr → δ → World → World) (data : δ)
    (hframe : ∀ u d w v, ((callback u d w).users v).__next = (w.users v).__next ∧
      ((callback u d w).users v).state = (w.users v).state) :
    ∀ (l : List UserPtr) (h : Option UserPtr) (w : World) (fuel : Nat),
      NextChain w.users h l → l.length ≤ fuel →
      foreach_loop callback data fuel h w =
        some ((running_users w l).foldl (fun acc u => callback u data acc) w) := by
  intro l
  induction l with
  | nil =>
    intro h w fuel hc _
    have h0 : h = none := hc
    subst h0
    cases fuel <;> simp [foreach_loop, running_users]
  | cons u t ih =>
    intro h w fuel hc hfuel
    have h0 : h = some u := hc.1
    subst h0
    cases fuel with
    | zero => simp at hfuel
    | succ k =>
      have hk : t.length ≤ k := by simpa using hfuel
      simp only [foreach_loop]
      by_cases hrun : (w.users u).state = guac_user_state.GUAC_USER_RUNNING
      · rw [if_pos hrun]
        have hnext := (hframe u data w u).1
        rw [hnext]
        have hchain : NextChain (callback u data w).users (w.users u).__next t :=
          NextChain_frame w.users _ (fun v => (hframe u data w v).1) t _ hc.2
        rw [ih _ (callback u data w) k hchain hk]
        rw [running_users_congr w (callback u data w) t (fun v => (hframe u data w v).2)]
        simp [running_users, hrun]
      · rw [if_neg hrun]
        rw [ih _ w k hc.2 hk]
        simp [running_users, hrun]

theorem mem_running_users (w : World) (l : List UserPtr) (u : UserPtr) :
    u ∈ running_users w l ↔
      u ∈ l ∧ (w.users u).state = guac_user_state.GUAC_USER_RUNNING := by
  simp [running_users]

/-- C8: on a well-formed user list `l`, with fuel for every member,
`guac_client_foreach_user` returns, and between taking and releasing the lock
it has called the callback, with the caller's data, on the members of `l` whose
state is `GUAC_USER_RUNNING`, once each, in list order from the head (the most
recently added user first), and on no other user.  The callback is assumed to
leave the `__next` pointers and the user states alone. -/
theorem C8_foreach_user_visits_running_users {δ : Type} (w : World) (l : List UserPtr)
    (callback : UserPtr → δ → World → World) (data : δ) (fuel : Nat)
    (hwf : WellFormed w l)
    (hframe : ∀ u d w1 v, ((callback u d w1).users v).__next = (w1.users v).__next ∧
      ((callback u d w1).users v).state = (w1.users v).state)
    (hfuel : l.length ≤ fuel) :
    guac_client_foreach_user fuel w callback data =
        some (emit ((running_users w l).foldl (fun acc u => callback u data acc)
          (emit w Event.mutex_lock)) Event.mutex_unlock) ∧
      (running_users w l).Nodup ∧
      ∀ u, u ∈ running_users w l ↔
        u ∈ l ∧ (w.users u).state = guac_user_state.GUAC_USER_RUNNING := by
  refine ⟨?_, ?_, mem_running_users w l⟩
  · unfold guac_client_foreach_user
    have hchain : NextChain (emit w Event.mutex_lock).users (emit w Event.mutex_lock).client.__users l :=
      NextChain_of_DList _ l none _ hwf
    show Option.map (fun w2 => emit w2 Event.mutex_unlock)
        (foreach_loop callback data fuel (emit w Event.mutex_lock).client.__users
          (emit w Event.mutex_lock)) = _
    rw [foreach_loop_spec callback data hframe l _ (emit w Event.mutex_lock) fuel hchain hfuel]
    rfl
  · exact (DList_nodup _ _ _ _ hwf).sublist (List.filter_sublist _)

/-- C8 at a concrete input: users 3, 2, 1 are in the list (3 at the head) and
user 2 is suspended; the recording callback is called for 3 and then for 1. -/
theorem C8_foreach_user_witness :
    WellFormed trio_world [3, 2, 1] ∧
      (∀ (u : UserPtr) (d : Nat) (w1 : World) (v : UserPtr),
        ((recording_callback 9 u d w1).users v).__next = (w1.users v).__next ∧
          ((recording_callback 9 u d w1).users v).state = (w1.users v).state) ∧
      [3, 2, 1].length ≤ 3 ∧
      (guac_client_foreach_user 3 trio_world (recording_callback 9) 77 =
          some (emit ((running_users trio_world [3, 2, 1]).foldl
            (fun acc u => recording_callback 9 u 77 acc)
            (emit trio_world Event.mutex_lock)) Event.mutex_unlock) ∧
        (running_users trio_world [3, 2, 1]).Nodup ∧
        ∀ u, u ∈ running_users trio_world [3, 2, 1] ↔
          u ∈ [3, 2, 1] ∧ (trio_world.users u).state = guac_user_state.GUAC_USER_RUNNING) ∧
      running_users trio_world [3, 2, 1] = [3, 1] ∧
      (guac_client_foreach_user 3 trio_world (recording_callback 9) 77).map
          (fun w => w.trace.drop trio_world.trace.length) =
        some [Event.mutex_lock, Event.user_callback 9 3 77, Event.user_callback 9 1 77,
          Event.mutex_unlock] :=
  ⟨by decide, fun _ _ _ _ => ⟨rfl, rfl⟩, by decide,
    C8_foreach_user_visits_running_users trio_world [3, 2, 1] (recording_callback 9) 77 3
      (by decide) (fun _ _ _ _ => ⟨rfl, rfl⟩) (by decide),
    by decide, by decide⟩

/-! ## The broadcast socket -/

theorem write_chunk_callback_fields (env : Env) (u : UserPtr) (chunk : __write_chunk)
    (w : World) (v : UserPtr) :
    ((__write_chunk_callback env u chunk w).users v).__next = (w.users v).__next ∧
      ((__write_chunk_callback env u chunk w).users v).state = (w.users v).state ∧
      ((__write_chunk_callback env u chunk w).users v).socket = (w.users v).socket ∧
      ((__write_chunk_callback env u chunk w).users v).__prev = (w.users v).__prev := by
  unfold __write_chunk_callback guac_socket_write guac_user_stop
  by_cases hr : env.socket_write_result (w.users u).socket chunk.buffer chunk.length w.trace = 0
  · simp [hr]
  · by_cases hv : v = u
    · subst hv; simp [hr]
    · simp [hr, Function.update_noteq hv]

theorem write_chunk_callback_client (env : Env) (u : UserPtr) (chunk : __write_chunk)
    (w : World) : (__write_chunk_callback env u chunk w).client = w.client := by
  unfold __write_chunk_callback guac_socket_write guac_user_stop
  by_cases hr : env.socket_write_result (w.users u).socket chunk.buffer chunk.length w.trace = 0
  · simp [hr]
  · simp [hr]

theorem write_chunk_callback_trace (env : Env) (u : UserPtr) (chunk : __write_chunk)
    (w : World) :
    ∃ tail, (__write_chunk_callback env u chunk w).trace =
        w.trace ++ Event.socket_write (w.users u).socket chunk.buffer chunk.length :: tail ∧
      tail.filter is_socket_write = [] := by
  unfold __write_chunk_callback guac_socket_write guac_user_stop
  by_cases hr : env.socket_write_result (w.users u).socket chunk.buffer chunk.length w.trace = 0
  · exact ⟨[], by simp [hr], rfl⟩
  · exact ⟨[Event.user_stop u], by simp [hr], rfl⟩

/-- What a fan-out over the users `l` does: one `guac_socket_write` per user, in
order, on that user's socket; the list structure, the user states and sockets
and the client are left alone. -/
theorem write_chunk_fold (env : Env) (chunk : __write_chunk) :
    ∀ (l : List UserPtr) (w : World),
      (∃ new, (l.foldl (fun acc u => __write_chunk_callback env u chunk acc) w).trace =
          w.trace ++ new ∧
        new.filter is_socket_write =
          l.map (fun u => Event.socket_write (w.users u).socket chunk.buffer chunk.length)) ∧
      (l.foldl (fun acc u => __write_chunk_callback env u chunk acc) w).client = w.client ∧
      ∀ v, ((l.foldl (fun acc u => __write_chunk_callback env u chunk acc) w).users v).__next
            = (w.users v).__next ∧
          ((l.foldl (fun acc u => __write_chunk_callback env u chunk acc) w).users v).state
            = (w.users v).state ∧
          ((l.foldl (fun acc u => __write_chunk_callback env u chunk acc) w).users v).socket
            = (w.users v).socket ∧
          ((l.foldl (fun acc u => __write_chunk_callback env u chunk acc) w).users v).__prev
            = (w.users v).__prev := by
  intro l
  induction l with
  | nil => intro w; exact ⟨⟨[], by simp, rfl⟩, rfl, fun _ => ⟨rfl, rfl, rfl, rfl⟩⟩
  | cons u t ih =>
    intro w
    obtain ⟨⟨new, htr, hnew⟩, hcl, hfields⟩ := ih (__write_chunk_callback env u chunk w)
    obtain ⟨tail, htail, hfilter⟩ := write_chunk_callback_trace env u chunk w
    have hf := write_chunk_callback_fields env u chunk w
    simp only [List.foldl_cons]
    refine ⟨⟨Event.socket_write (w.users u).socket chunk.buffer chunk.length :: tail ++ new,
      ?_, ?_⟩, ?_, ?_⟩
    · rw [htr, htail]
      simp
    · rw [List.filter_append, hnew]
      simp only [List.filter_cons, is_socket_write, if_true, hfilter, List.map_cons,
        List.cons_append, List.nil_append]
      congr 1
      apply List.map_congr_left
      intro v _
      rw [(hf v).2.2.1]
    · rw [hcl, write_chunk_callback_client]
    · intro v
      obtain ⟨h1, h2, h3, h4⟩ := hfields v
      obtain ⟨g1, g2, g3, g4⟩ := hf v
      exact ⟨h1.trans g1, h2.trans g2, h3.trans g3, h4.trans g4⟩

/-- The broadcast write on a well-formed list: with fuel for every member it
returns `count` (as an `ssize_t`), and it has written the chunk once on the socket of every
running member, in list order, and on no other socket. -/
theorem broadcast_write_spec (env : Env) (fuel : Nat) (w : World) (l : List UserPtr)
    (buf : List Nat) (count : Nat) (hwf : WellFormed w l) (hfuel : l.length ≤ fuel) :
    ∃ w1, __guac_socket_broadcast_write_handler env fuel w buf count = some (to_ssize_t count, w1) ∧
      writes_since w.trace.length w1 =
        (running_users w l).map (fun u => Event.socket_write (w.users u).socket buf count) ∧
      WellFormed w1 l ∧ w1.client = w.client ∧
      ∀ v, (w1.users v).state = (w.users v).state ∧ (w1.users v).socket = (w.users v).socket := by
  have hchain : NextChain (emit w Event.mutex_lock).users
      (emit w Event.mutex_lock).client.__users l := NextChain_of_DList _ l none _ hwf
  have hloop := foreach_loop_spec (__write_chunk_callback env) { buffer := buf, length := count }
    (fun u d w1 v => ⟨(write_chunk_callback_fields env u d w1 v).1,
      (write_chunk_callback_fields env u d w1 v).2.1⟩)
    l _ (emit w Event.mutex_lock) fuel hchain hfuel
  obtain ⟨⟨new, htr, hnew⟩, hcl, hfields⟩ :=
    write_chunk_fold env { buffer := buf, length := count }
      (running_users (emit w Event.mutex_lock) l) (emit w Event.mutex_lock)
  refine ⟨emit ((running_users (emit w Event.mutex_lock) l).foldl
      (fun acc u => __write_chunk_callback env u { buffer := buf, length := count } acc)
      (emit w Event.mutex_lock)) Event.mutex_unlock, ?_, ?_, ?_, ?_, ?_⟩
  · unfold __guac_socket_broadcast_write_handler guac_client_foreach_user
    show Option.map _ (Option.map _ (foreach_loop (__write_chunk_callback env)
      { buffer := buf, length := count } fuel (emit w Event.mutex_lock).client.__users
      (emit w Event.mutex_lock))) = _
    rw [hloop]
    rfl
  · unfold writes_since
    rw [emit_trace, htr, emit_trace]
    simp only [List.append_assoc, List.drop_left, List.filter_append, hnew]
    simp [is_socket_write, running_users]
  · unfold WellFormed at hwf ⊢
    rw [emit_client, hcl, emit_users]
    exact DList_frame w.users _ l none _ (fun v _ => ⟨(hfields v).1, (hfields v).2.2.2⟩) hwf
  · rw [emit_client, hcl]
    rfl
  · intro v
    exact ⟨(hfields v).2.1, (hfields v).2.2.1⟩

theorem add_user_state (env : Env) (w : World) (user : UserPtr) (argc : Int)
    (argv : List String) (v : UserPtr) :
    ((guac_client_add_user env w user argc argv).2.users v).state = (w.users v).state ∧
      ((guac_client_add_user env w user argc argv).2.users v).socket = (w.users v).socket := by
  obtain ⟨w2, hu, _, hshape⟩ := add_user_shape env w user argc argv
  rw [hshape, emit_users]
  by_cases h : (guac_client_add_user env w user argc argv).1 = 0
  · rw [if_pos h, (add_user_link_state w2 user v).1, (add_user_link_state w2 user v).2, hu]
    exact ⟨rfl, rfl⟩
  · rw [if_neg h, hu]
    exact ⟨rfl, rfl⟩

theorem remove_user_state (w : World) (user v : UserPtr) :
    ((guac_client_remove_user w user).users v).state = (w.users v).state ∧
      ((guac_client_remove_user w user).users v).socket = (w.users v).socket := by
  obtain ⟨w2, hu, _, hshape⟩ := remove_user_shape w user
  rw [hshape, emit_users, (remove_user_unlink_state w2 user v).1,
    (remove_user_unlink_state w2 user v).2, hu]
  exact ⟨rfl, rfl⟩

/-- C10: on a client whose list is empty, let `V1` and then `V2` be added with
success, both in state running.  A broadcast write of a chunk then returns and
performs exactly two socket writes, of that same buffer and length: one on the
socket of `V2` (the head) and one on the socket of `V1`.  After
`guac_client_remove_user` of `V2`, a further broadcast write performs exactly
one socket write, on the socket of `V1`; when the two sockets differ, none is
made on the socket of `V2`. -/
theorem C10_broadcast_reaches_current_members (env : Env) (w0 : World) (V1 V2 : UserPtr)
    (argc1 argc2 : Int) (argv1 argv2 : List String) (buf1 buf2 : List Nat)
    (count1 count2 fuel : Nat)
    (hempty : w0.client.__users = none) (hne : V1 ≠ V2)
    (hrun1 : (w0.users V1).state = guac_user_state.GUAC_USER_RUNNING)
    (hrun2 : (w0.users V2).state = guac_user_state.GUAC_USER_RUNNING)
    (hjoin1 : (guac_client_add_user env w0 V1 argc1 argv1).1 = 0)
    (hjoin2 : (guac_client_add_user env (guac_client_add_user env w0 V1 argc1 argv1).2
      V2 argc2 argv2).1 = 0)
    (hfuel : 2 ≤ fuel) :
    ∃ wA wB,
      __guac_socket_broadcast_write_handler env fuel
          (guac_client_add_user env (guac_client_add_user env w0 V1 argc1 argv1).2
            V2 argc2 argv2).2 buf1 count1 = some (to_ssize_t count1, wA) ∧
        writes_since
            (guac_client_add_user env (guac_client_add_user env w0 V1 argc1 argv1).2
              V2 argc2 argv2).2.trace.length wA =
          [Event.socket_write (w0.users V2).socket buf1 count1,
            Event.socket_write (w0.users V1).socket buf1 count1] ∧
        __guac_socket_broadcast_write_handler env fuel (guac_client_remove_user wA V2)
          buf2 count2 = some (to_ssize_t count2, wB) ∧
        writes_since (guac_client_remove_user wA V2).trace.length wB =
          [Event.socket_write (w0.users V1).socket buf2 count2] ∧
        ((w0.users V1).socket ≠ (w0.users V2).socket →
          NoWriteTo (w0.users V2).socket
            (writes_since (guac_client_remove_user wA V2).trace.length wB)) := by
  have hwf0 : WellFormed w0 [] := hempty
  have hwf1 := (add_user_accepted env w0 V1 argc1 argv1 hjoin1).2 [] hwf0 (by simp)
  have hwf2 := (add_user_accepted env _ V2 argc2 argv2 hjoin2).2 [V1] hwf1
    (by simpa using fun e : V2 = V1 => hne e.symm)
  have hst1 := add_user_state env w0 V1 argc1 argv1
  have hst2 := add_user_state env (guac_client_add_user env w0 V1 argc1 argv1).2 V2 argc2 argv2
  obtain ⟨wA, hA, hwA, hwfA, _, hstA⟩ :=
    broadcast_write_spec env fuel _ [V2, V1] buf1 count1 hwf2 (by simpa using hfuel)
  have hwfR := remove_user_wf wA V2 [V2, V1] hwfA (by simp)
  rw [List.erase_cons_head] at hwfR
  have hstR := remove_user_state wA V2
  obtain ⟨wB, hB, hwB, _, _, _⟩ :=
    broadcast_write_spec env fuel _ [V1] buf2 count2 hwfR (by simp; omega)
  have hs1 : ∀ v, ((guac_client_add_user env (guac_client_add_user env w0 V1 argc1 argv1).2
      V2 argc2 argv2).2.users v).state = (w0.users v).state := fun v =>
    (hst2 v).1.trans (hst1 v).1
  have hk1 : ∀ v, ((guac_client_add_user env (guac_client_add_user env w0 V1 argc1 argv1).2
      V2 argc2 argv2).2.users v).socket = (w0.users v).socket := fun v =>
    (hst2 v).2.trans (hst1 v).2
  have hsR : ∀ v, ((guac_client_remove_user wA V2).users v).state = (w0.users v).state :=
    fun v => (hstR v).1.trans ((hstA v).1.trans (hs1 v))
  have hkR : ∀ v, ((guac_client_remove_user wA V2).users v).socket = (w0.users v).socket :=
    fun v => (hstR v).2.trans ((hstA v).2.trans (hk1 v))
  have hwB1 : writes_since (guac_client_remove_user wA V2).trace.length wB =
      [Event.socket_write (w0.users V1).socket buf2 count2] := by
    rw [hwB]
    simp [running_users, hsR, hkR, hrun1]
  refine ⟨wA, wB, hA, ?_, hB, hwB1, ?_⟩
  · rw [hwA]
    simp [running_users, hs1, hk1, hrun1, hrun2]
  · intro hsock
    rw [hwB1]
    intro e he buf count
    rw [List.mem_singleton] at he
    rw [he]
    intro h
    injection h with h1
    exact hsock h1

/-- C10 at the scenario S1: V1 = user 1 and V2 = user 2 join a fresh client; the
chunk `1.0;` is written on the sockets of both, the chunk `2.0;`, sent after
user 2 was removed, on the socket of user 1 only. -/
theorem C10_broadcast_witness :
    fresh_world.client.__users = none ∧ (1 : UserPtr) ≠ 2 ∧
      (fresh_world.users 1).state = guac_user_state.GUAC_USER_RUNNING ∧
      (fresh_world.users 2).state = guac_user_state.GUAC_USER_RUNNING ∧
      (guac_client_add_user calm_env fresh_world 1 0 []).1 = 0 ∧
      (guac_client_add_user calm_env (guac_client_add_user calm_env fresh_world 1 0 []).2
        2 0 []).1 = 0 ∧
      (∃ wA wB,
        __guac_socket_broadcast_write_handler calm_env 2
            (guac_client_add_user calm_env (guac_client_add_user calm_env fresh_world 1 0 []).2
              2 0 []).2 chunk_1 4 = some (to_ssize_t 4, wA) ∧
          writes_since
              (guac_client_add_user calm_env
                (guac_client_add_user calm_env fresh_world 1 0 []).2 2 0 []).2.trace.length wA =
            [Event.socket_write (fresh_world.users 2).socket chunk_1 4,
              Event.socket_write (fresh_world.users 1).socket chunk_1 4] ∧
          __guac_socket_broadcast_write_handler calm_env 2 (guac_client_remove_user wA 2)
            chunk_2 4 = some (to_ssize_t 4, wB) ∧
          writes_since (guac_client_remove_user wA 2).trace.length wB =
            [Event.socket_write (fresh_world.users 1).socket chunk_2 4] ∧
          ((fresh_world.users 1).socket ≠ (fresh_world.users 2).socket →
            NoWriteTo (fresh_world.users 2).socket
              (writes_since (guac_client_remove_user wA 2).trace.length wB))) ∧
      (client_run calm_env 2 fresh_world
          [ClientOp.add_user 1 0 [], ClientOp.add_user 2 0 [],
            ClientOp.broadcast_write chunk_1 4, ClientOp.remove_user 2,
            ClientOp.broadcast_write chunk_2 4]).map (fun w => writes_since 0 w) =
        some [Event.socket_write 102 chunk_1 4, Event.socket_write 101 chunk_1 4,
          Event.socket_write 101 chunk_2 4] :=
  ⟨rfl, by decide, rfl, rfl, rfl, rfl,
    C10_broadcast_reaches_current_members calm_env fresh_world 1 2 0 0 [] [] chunk_1 chunk_2 4 4 2
      rfl (by decide) rfl rfl rfl rfl (le_refl 2),
    by decide⟩

/-! ## A suspended user is left out of the fan-out -/

theorem NoWriteTo_of_quiet (socket : SocketPtr) (events : List Event)
    (h : ∀ e ∈ events, is_socket_write e = false) : NoWriteTo socket events := by
  intro e he buf count heq
  have := h e he
  rw [heq] at this
  cases this

theorem NoWriteTo_append (socket : SocketPtr) (a b : List Event) (ha : NoWriteTo socket a)
    (hb : NoWriteTo socket b) : NoWriteTo socket (a ++ b) := by
  intro e he
  rcases List.mem_append.mp he with h | h
  · exact ha e h
  · exact hb e h

theorem foreach_write_quiet (env : Env) (chunk : __write_chunk) (socket : SocketPtr)
    (u : UserPtr) :
    ∀ (fuel : Nat) (cur : Option UserPtr) (w w1 : World),
      foreach_loop (__write_chunk_callback env) chunk fuel cur w = some w1 →
      SuspendedApart socket u w →
      SuspendedApart socket u w1 ∧ w1.client = w.client ∧
        ∃ new, w1.trace = w.trace ++ new ∧ NoWriteTo socket new := by
  intro fuel
  induction fuel with
  | zero =>
    intro cur w w1 h hP
    cases cur with
    | none =>
      simp only [foreach_loop, Option.some.injEq] at h
      subst h
      exact ⟨hP, rfl, [], by simp, fun _ he => by cases he⟩
    | some c => simp [foreach_loop] at h
  | succ k ih =>
    intro cur w w1 h hP
    cases cur with
    | none =>
      simp only [foreach_loop, Option.some.injEq] at h
      subst h
      exact ⟨hP, rfl, [], by simp, fun _ he => by cases he⟩
    | some c =>
      simp only [foreach_loop] at h
      by_cases hrun : (w.users c).state = guac_user_state.GUAC_USER_RUNNING
      · rw [if_pos hrun] at h
        have hcu : c ≠ u := by
          rintro rfl
          rw [hP.1] at hrun
          cases hrun
        have hf := write_chunk_callback_fields env c chunk w
        have hP1 : SuspendedApart socket u (__write_chunk_callback env c chunk w) :=
          ⟨by rw [(hf u).2.1]; exact hP.1, fun v hv => by rw [(hf v).2.2.1]; exact hP.2 v hv⟩
        obtain ⟨hP2, hc2, new, htr, hnew⟩ := ih _ _ w1 h hP1
        obtain ⟨tail, htail, hfilter⟩ := write_chunk_callback_trace env c chunk w
        refine ⟨hP2, hc2.trans (write_chunk_callback_client env c chunk w),
          (Event.socket_write (w.users c).socket chunk.buffer chunk.length :: tail) ++ new,
          ?_, ?_⟩
        · rw [htr, htail]
          simp
        · apply NoWriteTo_append _ _ _ _ hnew
          intro e he buf count heq
          rcases List.mem_cons.mp he with h1 | h1
          · rw [heq] at h1
            injection h1 with h2
            exact hP.2 c hcu h2.symm
          · have hq : ∀ e ∈ tail, is_socket_write e = false := by
              intro e1 he1
              by_contra hne
              have : e1 ∈ tail.filter is_socket_write :=
                List.mem_filter.mpr ⟨he1, by simpa using hne⟩
              rw [hfilter] at this
              cases this
            exact NoWriteTo_of_quiet socket tail hq e h1 buf count heq
      · rw [if_neg hrun] at h
        exact ih _ _ w1 h hP

theorem broadcast_write_quiet (env : Env) (fuel : Nat) (socket : SocketPtr) (u : UserPtr)
    (w : World) (buf : List Nat) (count : Nat) (r : Int × World)
    (h : __guac_socket_broadcast_write_handler env fuel w buf count = some r)
    (hP : SuspendedApart socket u w) :
    SuspendedApart socket u r.2 ∧ r.2.client = w.client ∧
      ∃ new, r.2.trace = w.trace ++ new ∧ NoWriteTo socket new := by
  unfold __guac_socket_broadcast_write_handler guac_client_foreach_user at h
  cases hl : foreach_loop (__write_chunk_callback env) { buffer := buf, length := count } fuel
      (emit w Event.mutex_lock).client.__users (emit w Event.mutex_lock) with
  | none =>
    have : foreach_loop (__write_chunk_callback env) { buffer := buf, length := count } fuel
      w.client.__users (emit w Event.mutex_lock) = none := hl
    simp [this] at h
  | some w1 =>
    have hl1 : foreach_loop (__write_chunk_callback env) { buffer := buf, length := count } fuel
      w.client.__users (emit w Event.mutex_lock) = some w1 := hl
    simp only [emit_client, hl1, Option.map_some', Option.some.injEq] at h
    subst h
    obtain ⟨hP1, hc1, new, htr, hnew⟩ :=
      foreach_write_quiet env _ socket u fuel _ (emit w Event.mutex_lock) w1 hl hP
    refine ⟨hP1, hc1, ([Event.mutex_lock] ++ new) ++ [Event.mutex_unlock], ?_, ?_⟩
    · simp [htr]
    · exact NoWriteTo_append _ _ _
        (NoWriteTo_append _ _ _ (NoWriteTo_of_quiet _ _ (by simp [is_socket_write])) hnew)
        (NoWriteTo_of_quiet _ _ (by simp [is_socket_write]))

theorem add_user_trace (env : Env) (w : World) (user : UserPtr) (argc : Int)
    (argv : List String) :
    ∃ new, (guac_client_add_user env w user argc argv).2.trace = w.trace ++ new ∧
      ∀ e ∈ new, is_socket_write e = false := by
  unfold guac_client_add_user
  cases hj : w.client.join_handler with
  | none =>
    refine ⟨[Event.mutex_lock, Event.mutex_unlock], ?_, by simp [is_socket_write]⟩
    simp [hj, add_user_link_trace]
  | some fn =>
    refine ⟨[Event.mutex_lock, Event.join_handler fn user argc argv, Event.mutex_unlock], ?_,
      by simp [is_socket_write]⟩
    by_cases h : env.join_result fn user argc argv (w.trace ++ [Event.mutex_lock]) = 0
    · simp [hj, h, add_user_link_trace]
    · simp [hj, h]

theorem remove_user_trace (w : World) (user : UserPtr) :
    ∃ new, (guac_client_remove_user w user).trace = w.trace ++ new ∧
      ∀ e ∈ new, is_socket_write e = false := by
  unfold guac_client_remove_user
  simp only [emit_users, emit_client, emit_trace, remove_user_unlink_trace]
  cases (w.users user).leave_handler with
  | some fn =>
    exact ⟨[Event.mutex_lock, Event.leave_handler HandlerOf.user fn user, Event.mutex_unlock],
      by simp, by simp [is_socket_write]⟩
  | none =>
    cases w.client.leave_handler with
    | some fn =>
      exact ⟨[Event.mutex_lock, Event.leave_handler HandlerOf.client fn user,
        Event.mutex_unlock], by simp, by simp [is_socket_write]⟩
    | none => exact ⟨[Event.mutex_lock, Event.mutex_unlock], by simp, by simp [is_socket_write]⟩

theorem client_log_effect (w : World) (level : guac_client_log_level) (format : String) :
    (vguac_client_log w level format).users = w.users ∧
      (vguac_client_log w level format).client = w.client ∧
      ∃ new, (vguac_client_log w level format).trace = w.trace ++ new ∧
        ∀ e ∈ new, is_socket_write e = false := by
  unfold vguac_client_log
  cases w.client.log_handler with
  | none => exact ⟨rfl, rfl, [], by simp, by simp⟩
  | some fn => exact ⟨rfl, rfl, [Event.log_handler fn level format], rfl, by simp [is_socket_write]⟩

theorem suspend_user_effect (w : World) (user : UserPtr) :
    (∀ v, ((guac_client_suspend_user w user).users v).state =
        (if v = user then guac_user_state.GUAC_USER_SUSPENDED else (w.users v).state) ∧
      ((guac_client_suspend_user w user).users v).socket = (w.users v).socket) ∧
      (guac_client_suspend_user w user).client = w.client ∧
      ∃ new, (guac_client_suspend_user w user).trace = w.trace ++ new ∧
        ∀ e ∈ new, is_socket_write e = false := by
  obtain ⟨hlu, hlc, lnew, hltr, hlq⟩ :=
    client_log_effect w guac_client_log_level.GUAC_LOG_DEBUG "Suspending user"
  unfold guac_client_suspend_user guac_user_log
  generalize vguac_client_log w guac_client_log_level.GUAC_LOG_DEBUG "Suspending user" = w1
    at hlu hlc hltr ⊢
  simp only [emit_users, emit_client, emit_trace, set_user_users, set_user_client,
    set_user_trace, Function.update_same]
  have hq : ∀ tail : List Event, (∀ e ∈ tail, is_socket_write e = false) →
      ∀ e ∈ lnew ++ tail, is_socket_write e = false := by
    intro tail ht e he
    rcases List.mem_append.mp he with h | h
    · exact hlq e h
    · exact ht e h
  cases hu : (w1.users user).suspend_handler with
  | some fn =>
    refine ⟨?_, hlc, lnew ++ [Event.instruction_begin w1.client.socket,
      Event.instruction_end w1.client.socket, Event.suspend_handler HandlerOf.user fn user],
      by simp [hltr], hq _ (by simp [is_socket_write])⟩
    intro v
    by_cases hv : v = user
    · subst hv; simp [hlu]
    · simp [hv, Function.update_noteq hv, hlu]
  | none =>
    cases hc : w1.client.suspend_handler with
    | some fn =>
      refine ⟨?_, hlc, lnew ++ [Event.instruction_begin w1.client.socket,
        Event.instruction_end w1.client.socket, Event.suspend_handler HandlerOf.client fn user],
        by simp [hltr], hq _ (by simp [is_socket_write])⟩
      intro v
      by_cases hv : v = user
      · subst hv; simp [hlu]
      · simp [hv, Function.update_noteq hv, hlu]
    | none =>
      refine ⟨?_, hlc, lnew ++ [Event.instruction_begin w1.client.socket,
        Event.instruction_end w1.client.socket], by simp [hltr],
        hq _ (by simp [is_socket_write])⟩
      intro v
      by_cases hv : v = user
      · subst hv; simp [hlu]
      · simp [hv, Function.update_noteq hv, hlu]

theorem resume_user_effect (w : World) (user : UserPtr) :
    (∀ v, ((guac_client_resume_user w user).users v).state =
        (if v = user then guac_user_state.GUAC_USER_RUNNING else (w.users v).state) ∧
      ((guac_client_resume_user w user).users v).socket = (w.users v).socket) ∧
      (guac_client_resume_user w user).client = w.client ∧
      ∃ new, (guac_client_resume_user w user).trace = w.trace ++ new ∧
        ∀ e ∈ new, is_socket_write e = false := by
  obtain ⟨hlu, hlc, lnew, hltr, hlq⟩ :=
    client_log_effect w guac_client_log_level.GUAC_LOG_DEBUG "Resuming user"
  unfold guac_client_resume_user guac_user_log
  generalize vguac_client_log w guac_client_log_level.GUAC_LOG_DEBUG "Resuming user" = w1
    at hlu hlc hltr ⊢
  simp only [emit_users, emit_client, emit_trace, set_user_users, set_user_client,
    set_user_trace, Function.update_same]
  have hq : ∀ tail : List Event, (∀ e ∈ tail, is_socket_write e = false) →
      ∀ e ∈ lnew ++ tail, is_socket_write e = false := by
    intro tail ht e he
    rcases List.mem_append.mp he with h | h
    · exact hlq e h
    · exact ht e h
  cases hu : (w1.users user).resume_handler with
  | some fn =>
    refine ⟨?_, hlc, lnew ++ [Event.instruction_begin w1.client.socket,
      Event.instruction_end w1.client.socket, Event.resume_handler HandlerOf.user fn user],
      by simp [hltr], hq _ (by simp [is_socket_write])⟩
    intro v
    by_cases hv : v = user
    · subst hv; simp [hlu]
    · simp [hv, Function.update_noteq hv, hlu]
  | none =>
    cases hc : w1.client.resume_handler with
    | some fn =>
      refine ⟨?_, hlc, lnew ++ [Event.instruction_begin w1.client.socket,
        Event.instruction_end w1.client.socket, Event.resume_handler HandlerOf.client fn user],
        by simp [hltr], hq _ (by simp [is_socket_write])⟩
      intro v
      by_cases hv : v = user
      · subst hv; simp [hlu]
      · simp [hv, Function.update_noteq hv, hlu]
    | none =>
      refine ⟨?_, hlc, lnew ++ [Event.instruction_begin w1.client.socket,
        Event.instruction_end w1.client.socket], by simp [hltr],
        hq _ (by simp [is_socket_write])⟩
      intro v
      by_cases hv : v = user
      · subst hv; simp [hlu]
      · simp [hv, Function.update_noteq hv, hlu]

theorem client_step_quiet (env : Env) (fuel : Nat) (socket : SocketPtr) (u : UserPtr)
    (w w1 : World) (op : ClientOp) (hop : op ≠ ClientOp.resume_user u)
    (h : client_step env fuel w op = some w1) (hP : SuspendedApart socket u w) :
    SuspendedApart socket u w1 ∧ ∃ new, w1.trace = w.trace ++ new ∧ NoWriteTo socket new := by
  cases op with
  | broadcast_write buf count =>
    simp only [client_step] at h
    cases hb : __guac_socket_broadcast_write_handler env fuel w buf count with
    | none => simp [hb] at h
    | some r =>
      simp only [hb, Option.map_some', Option.some.injEq] at h
      subst h
      obtain ⟨h1, _, h2⟩ := broadcast_write_quiet env fuel socket u w buf count r hb hP
      exact ⟨h1, h2⟩
  | add_user user argc argv =>
    simp only [client_step, Option.some.injEq] at h
    subst h
    obtain ⟨new, htr, hq⟩ := add_user_trace env w user argc argv
    have hst := add_user_state env w user argc argv
    exact ⟨⟨by rw [(hst u).1]; exact hP.1, fun v hv => by rw [(hst v).2]; exact hP.2 v hv⟩,
      new, htr, NoWriteTo_of_quiet _ _ hq⟩
  | remove_user user =>
    simp only [client_step, Option.some.injEq] at h
    subst h
    obtain ⟨new, htr, hq⟩ := remove_user_trace w user
    have hst := remove_user_state w user
    exact ⟨⟨by rw [(hst u).1]; exact hP.1, fun v hv => by rw [(hst v).2]; exact hP.2 v hv⟩,
      new, htr, NoWriteTo_of_quiet _ _ hq⟩
  | end_frame now =>
    simp only [client_step, guac_client_end_frame, guac_protocol_send_sync] at h
    cases hb : __guac_socket_broadcast_write_handler env fuel
        { w with client := { w.client with last_sent_timestamp := now } }
        (env.encode_sync now) (env.encode_sync now).length with
    | none => simp [hb] at h
    | some r =>
      simp only [hb, Option.map_some', Option.some.injEq] at h
      subst h
      obtain ⟨h1, _, h2⟩ := broadcast_write_quiet env fuel socket u _ _ _ r hb hP
      exact ⟨h1, h2⟩
  | abort status format =>
    simp only [client_step, vguac_client_abort] at h
    by_cases hrun : w.client.state = guac_client_state.GUAC_CLIENT_RUNNING
    · rw [if_pos hrun] at h
      obtain ⟨hlu, _, lnew, hltr, hlq⟩ :=
        client_log_effect w guac_client_log_level.GUAC_LOG_ERROR format
      have hP0 : SuspendedApart socket u
          (vguac_client_log w guac_client_log_level.GUAC_LOG_ERROR format) := by
        unfold SuspendedApart
        rw [hlu]
        exact hP
      simp only [guac_protocol_send_error] at h
      cases hb : __guac_socket_broadcast_write_handler env fuel
          (vguac_client_log w guac_client_log_level.GUAC_LOG_ERROR format)
          (env.encode_error "Aborted. See logs." status)
          (env.encode_error "Aborted. See logs." status).length with
      | none => simp [hb] at h
      | some r =>
        simp only [hb, Option.map_some', Option.some.injEq] at h
        subst h
        obtain ⟨h1, _, new, htr, hnew⟩ := broadcast_write_quiet env fuel socket u _ _ _ r hb hP0
        refine ⟨h1, (lnew ++ new) ++ [Event.socket_flush r.2.client.socket], ?_, ?_⟩
        · simp [guac_client_stop, guac_socket_flush, htr, hltr]
        · exact NoWriteTo_append _ _ _
            (NoWriteTo_append _ _ _ (NoWriteTo_of_quiet _ _ hlq) hnew)
            (NoWriteTo_of_quiet _ _ (by simp [is_socket_write]))
    · rw [if_neg hrun, Option.some.injEq] at h
      subst h
      exact ⟨hP, [], by simp, fun _ he => by cases he⟩
  | suspend_user user =>
    simp only [client_step, Option.some.injEq] at h
    subst h
    obtain ⟨hst, _, new, htr, hq⟩ := suspend_user_effect w user
    refine ⟨⟨?_, fun v hv => by rw [(hst v).2]; exact hP.2 v hv⟩, new, htr,
      NoWriteTo_of_quiet _ _ hq⟩
    rw [(hst u).1]
    split
    · rfl
    · exact hP.1
  | resume_user user =>
    simp only [client_step, Option.some.injEq] at h
    subst h
    have hne : u ≠ user := by
      rintro rfl
      exact hop rfl
    obtain ⟨hst, _, new, htr, hq⟩ := resume_user_effect w user
    refine ⟨⟨?_, fun v hv => by rw [(hst v).2]; exact hP.2 v hv⟩, new, htr,
      NoWriteTo_of_quiet _ _ hq⟩
    rw [(hst u).1, if_neg hne]
    exact hP.1
  | stop =>
    simp only [client_step, Option.some.injEq] at h
    subst h
    exact ⟨hP, [], by simp [guac_client_stop], fun _ he => by cases he⟩

theorem client_run_quiet (env : Env) (fuel : Nat) (socket : SocketPtr) (u : UserPtr) :
    ∀ (ops : List ClientOp) (w w1 : World), ClientOp.resume_user u ∉ ops →
      client_run env fuel w ops = some w1 → SuspendedApart socket u w →
      SuspendedApart socket u w1 ∧
        ∃ new, w1.trace = w.trace ++ new ∧ NoWriteTo socket new := by
  intro ops
  induction ops with
  | nil =>
    intro w w1 _ h hP
    simp only [client_run, Option.some.injEq] at h
    subst h
    exact ⟨hP, [], by simp, fun _ he => by cases he⟩
  | cons op ops ih =>
    intro w w1 hno h hP
    simp only [client_run] at h
    cases hs : client_step env fuel w op with
    | none => simp [hs] at h
    | some w2 =>
      simp only [hs] at h
      have hop : op ≠ ClientOp.resume_user u := fun e => hno (by simp [e])
      obtain ⟨hP2, new2, htr2, hnew2⟩ := client_step_quiet env fuel socket u w w2 op hop hs hP
      obtain ⟨hP1, new1, htr1, hnew1⟩ :=
        ih w2 w1 (fun hm => hno (List.mem_cons_of_mem _ hm)) h hP2
      exact ⟨hP1, new2 ++ new1, by rw [htr1, htr2, List.append_assoc],
        NoWriteTo_append _ _ _ hnew2 hnew1⟩

/-- C9: let `u` be suspended by `guac_client_suspend_user`, its socket being
private (no other user has it).  Whatever sequence of broadcast writes,
`add_user`, `remove_user`, `end_frame`, `abort`, `stop`, and suspensions and
resumptions of users follows, as long as it holds no `resume_user` of `u`:
when the sequence has run, `u` is still suspended and none of the calls made
since the suspension is a `guac_socket_write` on the socket of `u`. -/
theorem C9_suspended_user_gets_no_broadcast (env : Env) (fuel : Nat) (w w1 : World)
    (u : UserPtr) (ops : List ClientOp)
    (hpriv : ∀ v, v ≠ u → (w.users v).socket ≠ (w.users u).socket)
    (hnores : ClientOp.resume_user u ∉ ops)
    (hrun : client_run env fuel (guac_client_suspend_user w u) ops = some w1) :
    (w1.users u).state = guac_user_state.GUAC_USER_SUSPENDED ∧
      ∃ new, w1.trace = (guac_client_suspend_user w u).trace ++ new ∧
        NoWriteTo (w.users u).socket new := by
  obtain ⟨hst, _, _⟩ := suspend_user_effect w u
  have hP : SuspendedApart (w.users u).socket u (guac_client_suspend_user w u) :=
    ⟨by rw [(hst u).1, if_pos rfl], fun v hv => by rw [(hst v).2]; exact hpriv v hv⟩
  obtain ⟨hP1, hnew⟩ :=
    client_run_quiet env fuel (w.users u).socket u ops _ w1 hnores hrun hP
  exact ⟨hP1.1, hnew⟩

theorem three_users_sockets (v : UserPtr) : (three_users_world.users v).socket = 100 + v := by
  simp only [three_users_world, user_run, List.foldl, user_step]
  rw [(add_user_state _ _ _ _ _ v).2, (add_user_state _ _ _ _ _ v).2,
    (add_user_state _ _ _ _ _ v).2]
  rfl

/-- C9 at a concrete input: users 1, 2, 3 are connected, user 2 is suspended;
then two broadcast writes, a join, a leave, an end of frame, the suspension and
resumption of user 3 and an abort take place. -/
theorem C9_suspended_user_witness :
    (∀ v, v ≠ 2 → (three_users_world.users v).socket ≠ (three_users_world.users 2).socket) ∧
      ClientOp.resume_user 2 ∉ quiet_ops ∧
      ∃ w1, client_run calm_env 4 (guac_client_suspend_user three_users_world 2) quiet_ops
          = some w1 ∧
        (w1.users 2).state = guac_user_state.GUAC_USER_SUSPENDED ∧
        ∃ new, w1.trace = (guac_client_suspend_user three_users_world 2).trace ++ new ∧
          NoWriteTo (three_users_world.users 2).socket new := by
  have hpriv : ∀ v, v ≠ 2 →
      (three_users_world.users v).socket ≠ (three_users_world.users 2).socket := by
    intro v hv
    rw [three_users_sockets, three_users_sockets]
    intro h
    exact hv (Nat.add_left_cancel h)
  refine ⟨hpriv, by decide, ?_⟩
  cases h : client_run calm_env 4 (guac_client_suspend_user three_users_world 2) quiet_ops with
  | none =>
    have : (client_run calm_env 4 (guac_client_suspend_user three_users_world 2)
      quiet_ops).isSome = true := by decide
    rw [h] at this
    cases this
  | some w1 =>
    exact ⟨w1, rfl,
      C9_suspended_user_gets_no_broadcast calm_env 4 three_users_world w1 2 quiet_ops hpriv
        (by decide) h⟩

/-! ## A failing socket stops its user only -/

theorem write_chunk_callback_active (env : Env) (u : UserPtr) (chunk : __write_chunk)
    (w : World) (v : UserPtr) :
    ((__write_chunk_callback env u chunk w).users v).active =
      if v = u ∧ env.socket_write_result (w.users u).socket chunk.buffer chunk.length w.trace ≠ 0
      then 0 else (w.users v).active := by
  unfold __write_chunk_callback guac_socket_write guac_user_stop
  by_cases hr : env.socket_write_result (w.users u).socket chunk.buffer chunk.length w.trace = 0
  · simp [hr]
  · by_cases hv : v = u
    · subst hv; simp [hr]
    · simp [hr, hv, Function.update_noteq hv]

theorem write_chunk_callback_trace_eq (env : Env) (u : UserPtr) (chunk : __write_chunk)
    (w : World) :
    (__write_chunk_callback env u chunk w).trace =
      w.trace ++ Event.socket_write (w.users u).socket chunk.buffer chunk.length ::
        (if env.socket_write_result (w.users u).socket chunk.buffer chunk.length w.trace ≠ 0
          then [Event.user_stop u] else []) := by
  unfold __write_chunk_callback guac_socket_write guac_user_stop
  by_cases hr : env.socket_write_result (w.users u).socket chunk.buffer chunk.length w.trace = 0
  · simp [hr]
  · simp [hr]

/-- The fan-out over the users `l` when the failing sockets are those of
`fail`: every user gets the chunk, a failing one is stopped right after its
write, and the `active` flag is cleared for the failing users only. -/
theorem write_chunk_fold_failures (env : Env) (chunk : __write_chunk) (fail : SocketPtr → Bool)
    (hfail : ∀ s b c t, env.socket_write_result s b c t ≠ 0 ↔ fail s = true) :
    ∀ (l : List UserPtr) (w : World),
      (l.foldl (fun acc u => __write_chunk_callback env u chunk acc) w).trace =
          w.trace ++ l.flatMap (fun u =>
            Event.socket_write (w.users u).socket chunk.buffer chunk.length ::
              (if fail (w.users u).socket = true then [Event.user_stop u] else [])) ∧
        ∀ v, ((l.foldl (fun acc u => __write_chunk_callback env u chunk acc) w).users v).active =
          if v ∈ l ∧ fail (w.users v).socket = true then 0 else (w.users v).active := by
  intro l
  induction l with
  | nil => intro w; simp
  | cons u t ih =>
    intro w
    obtain ⟨htr, hact⟩ := ih (__write_chunk_callback env u chunk w)
    have hf := write_chunk_callback_fields env u chunk w
    have hsock : ∀ v, ((__write_chunk_callback env u chunk w).users v).socket
        = (w.users v).socket := fun v => (hf v).2.2.1
    simp only [List.foldl_cons, List.flatMap_cons]
    refine ⟨?_, ?_⟩
    · rw [htr, write_chunk_callback_trace_eq]
      simp only [hsock, hfail, List.append_assoc, List.cons_append]
    · intro v
      rw [hact v, write_chunk_callback_active, hsock]
      simp only [hfail, List.mem_cons]
      by_cases hvt : v ∈ t <;> by_cases hvu : v = u <;> by_cases hfv : fail (w.users v).socket = true
      all_goals simp [hvt, hvu, hfv]
      all_goals subst hvu
      all_goals simp [hfv]

theorem filter_stop_flatMap (sock : UserPtr → SocketPtr) (buf : List Nat) (count : Nat)
    (fail : SocketPtr → Bool) (l : List UserPtr) :
    (l.flatMap (fun u => Event.socket_write (sock u) buf count ::
        (if fail (sock u) = true then [Event.user_stop u] else []))).filter is_user_stop =
      (l.filter (fun u => fail (sock u))).map Event.user_stop := by
  induction l with
  | nil => rfl
  | cons u t ih =>
    rw [List.flatMap_cons, List.filter_append, ih]
    by_cases hf : fail (sock u) = true
    · simp [hf, is_user_stop, List.filter_cons]
    · simp [hf, is_user_stop, List.filter_cons]

theorem filter_write_flatMap (sock : UserPtr → SocketPtr) (buf : List Nat) (count : Nat)
    (fail : SocketPtr → Bool) (l : List UserPtr) :
    (l.flatMap (fun u => Event.socket_write (sock u) buf count ::
        (if fail (sock u) = true then [Event.user_stop u] else []))).filter is_socket_write =
      l.map (fun u => Event.socket_write (sock u) buf count) := by
  induction l with
  | nil => rfl
  | cons u t ih =>
    rw [List.flatMap_cons, List.filter_append, ih]
    by_cases hf : fail (sock u) = true
    · simp [hf, is_socket_write, List.filter_cons]
    · simp [hf, is_socket_write, List.filter_cons]

/-- The broadcast write on a well-formed list when the sockets of `fail` are
the failing ones: complete account of the calls made and of the `active`
flags. -/
theorem broadcast_write_failures (env : Env) (fuel : Nat) (w : World) (l : List UserPtr)
    (buf : List Nat) (count : Nat) (fail : SocketPtr → Bool)
    (hwf : WellFormed w l)
    (hfail : ∀ s b c t, env.socket_write_result s b c t ≠ 0 ↔ fail s = true)
    (hfuel : l.length ≤ fuel) :
    ∃ w1, __guac_socket_broadcast_write_handler env fuel w buf count = some (to_ssize_t count, w1) ∧
      events_since w.trace.length w1 =
        Event.mutex_lock :: (running_users w l).flatMap (fun u =>
          Event.socket_write (w.users u).socket buf count ::
            (if fail (w.users u).socket = true then [Event.user_stop u] else []))
          ++ [Event.mutex_unlock] ∧
      (∀ v, (w1.users v).active =
        if v ∈ running_users w l ∧ fail (w.users v).socket = true then 0
        else (w.users v).active) ∧
      w1.client = w.client := by
  have hchain : NextChain (emit w Event.mutex_lock).users
      (emit w Event.mutex_lock).client.__users l := NextChain_of_DList _ l none _ hwf
  have hloop := foreach_loop_spec (__write_chunk_callback env) { buffer := buf, length := count }
    (fun u d w1 v => ⟨(write_chunk_callback_fields env u d w1 v).1,
      (write_chunk_callback_fields env u d w1 v).2.1⟩)
    l _ (emit w Event.mutex_lock) fuel hchain hfuel
  obtain ⟨htr, hact⟩ :=
    write_chunk_fold_failures env { buffer := buf, length := count } fail hfail
      (running_users (emit w Event.mutex_lock) l) (emit w Event.mutex_lock)
  obtain ⟨_, hcl, _⟩ :=
    write_chunk_fold env { buffer := buf, length := count }
      (running_users (emit w Event.mutex_lock) l) (emit w Event.mutex_lock)
  refine ⟨emit ((running_users (emit w Event.mutex_lock) l).foldl
      (fun acc u => __write_chunk_callback env u { buffer := buf, length := count } acc)
      (emit w Event.mutex_lock)) Event.mutex_unlock, ?_, ?_, ?_, ?_⟩
  · unfold __guac_socket_broadcast_write_handler guac_client_foreach_user
    show Option.map _ (Option.map _ (foreach_loop (__write_chunk_callback env)
      { buffer := buf, length := count } fuel (emit w Event.mutex_lock).client.__users
      (emit w Event.mutex_lock))) = _
    rw [hloop]
    rfl
  · unfold events_since
    rw [emit_trace, htr, emit_trace]
    simp only [List.append_assoc, List.drop_left]
    rfl
  · intro v
    rw [emit_users, hact v]
    rfl
  · rw [emit_client, hcl]
    rfl

/-- C11: on a well-formed list, let the failing sockets be those of `fail`
(any subset) during one broadcast write.  The write returns; every running
member, before or after a failing one, has the chunk written once on its
socket, in list order; `guac_user_stop` is called, right after the write, on
exactly the members whose write failed, whose `active` flag becomes 0 while
that of every other user is unchanged; the client structure, hence its state
`GUAC_CLIENT_RUNNING`, is unchanged. -/
theorem C11_write_failure_is_isolated (env : Env) (fuel : Nat) (w : World) (l : List UserPtr)
    (buf : List Nat) (count : Nat) (fail : SocketPtr → Bool)
    (hwf : WellFormed w l)
    (hfail : ∀ s b c t, env.socket_write_result s b c t ≠ 0 ↔ fail s = true)
    (hfuel : l.length ≤ fuel)
    (hstate : w.client.state = guac_client_state.GUAC_CLIENT_RUNNING) :
    ∃ w1, __guac_socket_broadcast_write_handler env fuel w buf count = some (to_ssize_t count, w1) ∧
      events_since w.trace.length w1 =
        Event.mutex_lock :: (running_users w l).flatMap (fun u =>
          Event.socket_write (w.users u).socket buf count ::
            (if fail (w.users u).socket = true then [Event.user_stop u] else []))
          ++ [Event.mutex_unlock] ∧
      writes_since w.trace.length w1 =
        (running_users w l).map (fun u => Event.socket_write (w.users u).socket buf count) ∧
      (events_since w.trace.length w1).filter is_user_stop =
        ((running_users w l).filter (fun u => fail (w.users u).socket)).map Event.user_stop ∧
      (∀ v, (w1.users v).active =
        if v ∈ running_users w l ∧ fail (w.users v).socket = true then 0
        else (w.users v).active) ∧
      w1.client.state = guac_client_state.GUAC_CLIENT_RUNNING := by
  obtain ⟨w1, hret, hev, hact, hcl⟩ :=
    broadcast_write_failures env fuel w l buf count fail hwf hfail hfuel
  refine ⟨w1, hret, hev, ?_, ?_, hact, by rw [hcl]; exact hstate⟩
  · have : writes_since w.trace.length w1 =
        (events_since w.trace.length w1).filter is_socket_write := rfl
    rw [this, hev]
    simp only [List.filter_cons, List.filter_append, is_socket_write, Bool.false_eq_true,
      if_false, List.filter_nil, List.append_nil]
    exact filter_write_flatMap (fun u => (w.users u).socket) buf count fail (running_users w l)
  · rw [hev]
    simp only [List.filter_cons, List.filter_append, is_user_stop, Bool.false_eq_true,
      if_false, List.filter_nil, List.append_nil]
    exact filter_stop_flatMap (fun u => (w.users u).socket) buf count fail (running_users w l)

theorem three_users_wf : WellFormed three_users_world [3, 2, 1] := by decide

/-- C11 at a concrete input: three users, the socket of the second one (user 2,
socket 102) fails; users 3 and 1 still get the chunk and only user 2 is
stopped. -/
theorem C11_write_failure_witness :
    WellFormed three_users_world [3, 2, 1] ∧
      (∀ s b c t, flaky_env.socket_write_result s b c t ≠ 0 ↔
        (fun s : SocketPtr => decide (s = 102)) s = true) ∧
      [3, 2, 1].length ≤ 3 ∧
      three_users_world.client.state = guac_client_state.GUAC_CLIENT_RUNNING ∧
      (∃ w1, __guac_socket_broadcast_write_handler flaky_env 3 three_users_world chunk_1 4 =
          some (to_ssize_t 4, w1) ∧
        events_since three_users_world.trace.length w1 =
          Event.mutex_lock :: (running_users three_users_world [3, 2, 1]).flatMap (fun u =>
            Event.socket_write (three_users_world.users u).socket chunk_1 4 ::
              (if (fun s : SocketPtr => decide (s = 102)) (three_users_world.users u).socket = true
                then [Event.user_stop u] else []))
            ++ [Event.mutex_unlock] ∧
        writes_since three_users_world.trace.length w1 =
          (running_users three_users_world [3, 2, 1]).map
            (fun u => Event.socket_write (three_users_world.users u).socket chunk_1 4) ∧
        (events_since three_users_world.trace.length w1).filter is_user_stop =
          ((running_users three_users_world [3, 2, 1]).filter
            (fun u => (fun s : SocketPtr => decide (s = 102))
              (three_users_world.users u).socket)).map Event.user_stop ∧
        (∀ v, (w1.users v).active =
          if v ∈ running_users three_users_world [3, 2, 1] ∧
              (fun s : SocketPtr => decide (s = 102)) (three_users_world.users v).socket = true
          then 0 else (three_users_world.users v).active) ∧
        w1.client.state = guac_client_state.GUAC_CLIENT_RUNNING) ∧
      (client_run flaky_env 3 three_users_world [ClientOp.broadcast_write chunk_1 4]).map
          (fun w => events_since three_users_world.trace.length w) =
        some [Event.mutex_lock, Event.socket_write 103 chunk_1 4,
          Event.socket_write 102 chunk_1 4, Event.user_stop 2,
          Event.socket_write 101 chunk_1 4, Event.mutex_unlock] := by
  have hfail : ∀ s b c t, flaky_env.socket_write_result s b c t ≠ 0 ↔
      (fun s : SocketPtr => decide (s = 102)) s = true := by
    intro s b c t
    by_cases h : s = 102 <;> simp [flaky_env, h]
  exact ⟨three_users_wf, hfail, by decide, rfl,
    C11_write_failure_is_isolated flaky_env 3 three_users_world [3, 2, 1] chunk_1 4
      (fun s => decide (s = 102)) three_users_wf hfail (by decide) rfl,
    by decide⟩

/-! ## A stopped user stays in the list until it is removed -/

theorem write_chunk_fold_stopped (env : Env) (chunk : __write_chunk) :
    ∀ (l : List UserPtr) (w : World),
      ∃ new, (l.foldl (fun acc u => __write_chunk_callback env u chunk acc) w).trace =
          w.trace ++ new ∧
        (∀ v, Event.user_stop v ∈ new →
          v ∈ l ∧
            ((l.foldl (fun acc u => __write_chunk_callback env u chunk acc) w).users v).active
              = 0) ∧
        ∀ v, (w.users v).active = 0 →
          ((l.foldl (fun acc u => __write_chunk_callback env u chunk acc) w).users v).active
            = 0 := by
  intro l
  induction l with
  | nil => intro w; exact ⟨[], by simp, ⟨fun v hv => (by cases hv), fun v hv => hv⟩⟩
  | cons u t ih =>
    intro w
    obtain ⟨new, htr, hstop, hmono⟩ := ih (__write_chunk_callback env u chunk w)
    have hact := write_chunk_callback_active env u chunk w
    have hmono0 : ∀ v, (w.users v).active = 0 →
        ((__write_chunk_callback env u chunk w).users v).active = 0 := by
      intro v hv
      rw [hact v]
      split
      · rfl
      · exact hv
    simp only [List.foldl_cons]
    refine ⟨Event.socket_write (w.users u).socket chunk.buffer chunk.length ::
        (if env.socket_write_result (w.users u).socket chunk.buffer chunk.length w.trace ≠ 0
          then [Event.user_stop u] else []) ++ new, ?_, ?_, ?_⟩
    · rw [htr, write_chunk_callback_trace_eq]
      simp
    · intro v hv
      simp only [List.cons_append, List.mem_cons, List.mem_append] at hv
      rcases hv with h | h | h
      · cases h
      · by_cases hr : env.socket_write_result (w.users u).socket chunk.buffer chunk.length
            w.trace ≠ 0
        · rw [if_pos hr, List.mem_singleton] at h
          injection h with hvu
          subst hvu
          refine ⟨List.mem_cons_self _ _, hmono v ?_⟩
          rw [hact v, if_pos ⟨rfl, hr⟩]
        · rw [if_neg hr] at h
          cases h
      · exact ⟨List.mem_cons_of_mem _ (hstop v h).1, (hstop v h).2⟩
    · intro v hv
      exact hmono v (hmono0 v hv)

/-- Whatever the sockets answer, a broadcast write on a well-formed list leaves
the list as it is; a user on which `guac_user_stop` was called is a running
member whose `active` flag is now 0. -/
theorem broadcast_write_stops (env : Env) (fuel : Nat) (w : World) (l : List UserPtr)
    (buf : List Nat) (count : Nat) (hwf : WellFormed w l) (hfuel : l.length ≤ fuel) :
    ∃ w1, __guac_socket_broadcast_write_handler env fuel w buf count = some (to_ssize_t count, w1) ∧
      (∀ v, Event.user_stop v ∈ events_since w.trace.length w1 →
        v ∈ running_users w l ∧ (w1.users v).active = 0) ∧
      WellFormed w1 l ∧
      ∀ v, (w1.users v).state = (w.users v).state ∧ (w1.users v).socket = (w.users v).socket := by
  obtain ⟨w1, hret, _, hwf1, _, hst⟩ := broadcast_write_spec env fuel w l buf count hwf hfuel
  refine ⟨w1, hret, ?_, hwf1, hst⟩
  have hchain : NextChain (emit w Event.mutex_lock).users
      (emit w Event.mutex_lock).client.__users l := NextChain_of_DList _ l none _ hwf
  have hloop := foreach_loop_spec (__write_chunk_callback env) { buffer := buf, length := count }
    (fun u d w1 v => ⟨(write_chunk_callback_fields env u d w1 v).1,
      (write_chunk_callback_fields env u d w1 v).2.1⟩)
    l _ (emit w Event.mutex_lock) fuel hchain hfuel
  have hret2 : __guac_socket_broadcast_write_handler env fuel w buf count =
      some (to_ssize_t count, emit ((running_users (emit w Event.mutex_lock) l).foldl
        (fun acc u => __write_chunk_callback env u { buffer := buf, length := count } acc)
        (emit w Event.mutex_lock)) Event.mutex_unlock) := by
    unfold __guac_socket_broadcast_write_handler guac_client_foreach_user
    show Option.map _ (Option.map _ (foreach_loop (__write_chunk_callback env)
      { buffer := buf, length := count } fuel (emit w Event.mutex_lock).client.__users
      (emit w Event.mutex_lock))) = _
    rw [hloop]
    rfl
  rw [hret] at hret2
  have hw1 := congrArg Prod.snd (Option.some.inj hret2)
  simp only at hw1
  obtain ⟨new, htr, hstop, _⟩ :=
    write_chunk_fold_stopped env { buffer := buf, length := count }
      (running_users (emit w Event.mutex_lock) l) (emit w Event.mutex_lock)
  intro v hv
  rw [hw1] at hv ⊢
  unfold events_since at hv
  rw [emit_trace, htr, emit_trace] at hv
  simp only [List.append_assoc, List.drop_left, List.mem_append, List.mem_cons,
    List.mem_singleton, List.not_mem_nil, or_false] at hv
  rcases hv with h | h | h
  · cases h
  · exact ⟨(hstop v h).1, (hstop v h).2⟩
  · cases h

/-- C12 (the claim fails on the code): three running users, the socket of user 2
fails on the first broadcast write and works afterwards.  The first write stops
user 2, which clears its `active` flag and leaves its state running; the second
broadcast write is then performed on the sockets of all three users, that of
user 2 (socket 102) included. -/
theorem C12_stopped_user_is_written_again :
    (client_run flaky_once_env 3 three_users_world [ClientOp.broadcast_write chunk_1 4]).map
        (fun w => (events_since three_users_world.trace.length w, (w.users 2).active,
          (w.users 2).state)) =
      some ([Event.mutex_lock, Event.socket_write 103 chunk_1 4,
          Event.socket_write 102 chunk_1 4, Event.user_stop 2,
          Event.socket_write 101 chunk_1 4, Event.mutex_unlock], 0,
        guac_user_state.GUAC_USER_RUNNING) ∧
      (client_run flaky_once_env 3 three_users_world
          [ClientOp.broadcast_write chunk_1 4, ClientOp.broadcast_write chunk_2 4]).map
        (fun w => writes_since (three_users_world.trace.length + 6) w) =
      some [Event.socket_write 103 chunk_2 4, Event.socket_write 102 chunk_2 4,
        Event.socket_write 101 chunk_2 4] := by
  decide

/-- C12 as amended: after a broadcast write on a well-formed list, a user that
was stopped because its socket returned an error has `active` equal to 0 but is
still a running member of the list.  A subsequent broadcast write therefore
returns and is performed on the sockets of all running members, the stopped
ones included; once a member `v` has been taken out with
`guac_client_remove_user`, a broadcast write is performed on the sockets of the
remaining running members only. -/
theorem C12_stopped_user_stays_until_removed (env : Env) (fuel : Nat) (w : World)
    (l : List UserPtr) (buf1 buf2 : List Nat) (count1 count2 : Nat)
    (hwf : WellFormed w l) (hfuel : l.length ≤ fuel) :
    ∃ w1, __guac_socket_broadcast_write_handler env fuel w buf1 count1 =
        some (to_ssize_t count1, w1) ∧
      (∀ v, Event.user_stop v ∈ events_since w.trace.length w1 →
        v ∈ running_users w l ∧ (w1.users v).active = 0 ∧
          (w1.users v).state = guac_user_state.GUAC_USER_RUNNING) ∧
      (∃ w2, __guac_socket_broadcast_write_handler env fuel w1 buf2 count2 =
          some (to_ssize_t count2, w2) ∧
        writes_since w1.trace.length w2 =
          (running_users w l).map
            (fun u => Event.socket_write (w.users u).socket buf2 count2)) ∧
      ∀ v ∈ l, v ∉ l.erase v ∧
        ∃ w3, __guac_socket_broadcast_write_handler env fuel (guac_client_remove_user w1 v)
            buf2 count2 = some (to_ssize_t count2, w3) ∧
          writes_since (guac_client_remove_user w1 v).trace.length w3 =
            (running_users w (l.erase v)).map
              (fun u => Event.socket_write (w.users u).socket buf2 count2) := by
  obtain ⟨w1, hret, hstop, hwf1, hst⟩ := broadcast_write_stops env fuel w l buf1 count1 hwf hfuel
  have hrun1 : ∀ l0, running_users w1 l0 = running_users w l0 := fun l0 =>
    running_users_congr w w1 l0 (fun v => (hst v).1)
  refine ⟨w1, hret, ?_, ?_, ?_⟩
  · intro v hv
    obtain ⟨hmem, hact⟩ := hstop v hv
    refine ⟨hmem, hact, ?_⟩
    rw [(hst v).1]
    exact ((mem_running_users w l v).mp hmem).2
  · obtain ⟨w2, hret2, hw2, _, _, _⟩ := broadcast_write_spec env fuel w1 l buf2 count2 hwf1 hfuel
    refine ⟨w2, hret2, ?_⟩
    rw [hw2, hrun1]
    apply List.map_congr_left
    intro u _
    rw [(hst u).2]
  · intro v hv
    have hnd : l.Nodup := DList_nodup _ _ _ _ hwf
    refine ⟨fun h => ((hnd.mem_erase_iff).mp h).1 rfl, ?_⟩
    have hwfR := remove_user_wf w1 v l hwf1 hv
    have hstR := remove_user_state w1 v
    obtain ⟨w3, hret3, hw3, _, _, _⟩ :=
      broadcast_write_spec env fuel (guac_client_remove_user w1 v) (l.erase v) buf2 count2 hwfR
        (le_trans (List.length_erase_le v l) hfuel)
    refine ⟨w3, hret3, ?_⟩
    rw [hw3, running_users_congr w (guac_client_remove_user w1 v) (l.erase v)
      (fun u => (hstR u).1.trans (hst u).1)]
    apply List.map_congr_left
    intro u _
    rw [(hstR u).2, (hst u).2]

/-- C12 as amended, at a concrete input: users 3, 2, 1, the socket of user 2
fails on the first broadcast write only. -/
theorem C12_stopped_user_witness :
    WellFormed three_users_world [3, 2, 1] ∧ [3, 2, 1].length ≤ 3 ∧
      ∃ w1, __guac_socket_broadcast_write_handler flaky_once_env 3 three_users_world chunk_1 4 =
          some (to_ssize_t 4, w1) ∧
        (∀ v, Event.user_stop v ∈ events_since three_users_world.trace.length w1 →
          v ∈ running_users three_users_world [3, 2, 1] ∧ (w1.users v).active = 0 ∧
            (w1.users v).state = guac_user_state.GUAC_USER_RUNNING) ∧
        (∃ w2, __guac_socket_broadcast_write_handler flaky_once_env 3 w1 chunk_2 4 =
            some (to_ssize_t 4, w2) ∧
          writes_since w1.trace.length w2 =
            (running_users three_users_world [3, 2, 1]).map
              (fun u => Event.socket_write (three_users_world.users u).socket chunk_2 4)) ∧
        ∀ v ∈ [3, 2, 1], v ∉ [3, 2, 1].erase v ∧
          ∃ w3, __guac_socket_broadcast_write_handler flaky_once_env 3
              (guac_client_remove_user w1 v) chunk_2 4 = some (to_ssize_t 4, w3) ∧
            writes_since (guac_client_remove_user w1 v).trace.length w3 =
              (running_users three_users_world ([3, 2, 1].erase v)).map
                (fun u => Event.socket_write (three_users_world.users u).socket chunk_2 4) :=
  ⟨three_users_wf, by decide,
    C12_stopped_user_stays_until_removed flaky_once_env 3 three_users_world [3, 2, 1]
      chunk_1 chunk_2 4 4 three_users_wf (by decide)⟩

/-! ## The value the broadcast write returns -/

theorem to_ssize_t_of_lt (count : Nat) (h : count < 9223372036854775808) :
    to_ssize_t count = (count : Int) := by
  unfold to_ssize_t
  omega

/-- The write handler of the broadcast socket returns `count` as an `ssize_t`
whenever it returns, whatever the list, the fuel and the answers of the user
sockets. -/
theorem broadcast_write_retval (env : Env) (fuel : Nat) (w : World) (buf : List Nat)
    (count : Nat) (r : Int × World)
    (h : __guac_socket_broadcast_write_handler env fuel w buf count = some r) :
    r.1 = to_ssize_t count := by
  unfold __guac_socket_broadcast_write_handler at h
  cases hf : guac_client_foreach_user fuel w (__write_chunk_callback env)
      { buffer := buf, length := count } with
  | none => simp [hf] at h
  | some w2 =>
    simp only [hf, Option.map_some', Option.some.injEq] at h
    rw [← h]

/-- Claim C13, as stated, fails for a count that does not fit an `ssize_t`: on
a fresh client with no users the handler, called with the count 2^63, returns
-2^63, which is not the count (and is negative, the way a failure is
reported). -/
theorem C13_broadcast_write_of_huge_count :
    (__guac_socket_broadcast_write_handler calm_env 0 fresh_world []
        9223372036854775808).map (fun r => r.1) = some (-9223372036854775808) ∧
      (-9223372036854775808 : Int) ≠ ((9223372036854775808 : Nat) : Int) ∧
      (__guac_socket_broadcast_write_handler calm_env 3 three_users_world chunk_1
        18446744073709551615).map (fun r => r.1) = some (-1) := by
  decide

/-- Claim C13, amended.  The write handler of the broadcast socket cannot fail
because of its users.  On a well-formed user list `l` (the empty list
included), with fuel for every member and whatever the sockets of the users
answer (all of them may fail), it returns, and the value is `count` converted
to `ssize_t`; whenever it returns at all, on any list and with any fuel, that
is the value.  For every count below 2^63 this value is exactly `count`. -/
theorem C13_broadcast_write_returns_count_as_ssize_t (env : Env) (fuel : Nat) (w : World)
    (l : List UserPtr) (buf : List Nat) (count : Nat)
    (hwf : WellFormed w l) (hfuel : l.length ≤ fuel) :
    (∃ w1, __guac_socket_broadcast_write_handler env fuel w buf count =
        some (to_ssize_t count, w1)) ∧
      (∀ (fuel0 : Nat) (w0 : World) (r : Int × World),
        __guac_socket_broadcast_write_handler env fuel0 w0 buf count = some r →
          r.1 = to_ssize_t count) ∧
      (count < 9223372036854775808 →
        (∃ w1, __guac_socket_broadcast_write_handler env fuel w buf count =
          some ((count : Int), w1)) ∧
        ∀ (fuel0 : Nat) (w0 : World) (r : Int × World),
          __guac_socket_broadcast_write_handler env fuel0 w0 buf count = some r →
            r.1 = (count : Int)) := by
  obtain ⟨w1, hret, _⟩ := broadcast_write_spec env fuel w l buf count hwf hfuel
  refine ⟨⟨w1, hret⟩, fun fuel0 w0 r h => broadcast_write_retval env fuel0 w0 buf count r h, ?_⟩
  intro hlt
  have hc := to_ssize_t_of_lt count hlt
  refine ⟨⟨w1, ?_⟩, ?_⟩
  · rw [hret, hc]
  · intro fuel0 w0 r h
    rw [broadcast_write_retval env fuel0 w0 buf count r h, hc]

/-- C13 (amended) at a concrete input: three users whose socket writes all
fail, and the empty list of a fresh client with no fuel at all. -/
theorem C13_broadcast_write_witness :
    WellFormed three_users_world [3, 2, 1] ∧ [3, 2, 1].length ≤ 3 ∧
      ((∃ w1, __guac_socket_broadcast_write_handler
            { calm_env with socket_write_result := fun _ _ _ _ => -1 } 3 three_users_world
            chunk_1 4 = some (to_ssize_t 4, w1)) ∧
        (∀ (fuel0 : Nat) (w0 : World) (r : Int × World),
          __guac_socket_broadcast_write_handler
              { calm_env with socket_write_result := fun _ _ _ _ => -1 } fuel0 w0 chunk_1 4
            = some r → r.1 = to_ssize_t 4) ∧
        ((4 : Nat) < 9223372036854775808 →
          (∃ w1, __guac_socket_broadcast_write_handler
              { calm_env with socket_write_result := fun _ _ _ _ => -1 } 3 three_users_world
              chunk_1 4 = some (((4 : Nat) : Int), w1)) ∧
          ∀ (fuel0 : Nat) (w0 : World) (r : Int × World),
            __guac_socket_broadcast_write_handler
                { calm_env with socket_write_result := fun _ _ _ _ => -1 } fuel0 w0 chunk_1 4
              = some r → r.1 = ((4 : Nat) : Int))) ∧
      (__guac_socket_broadcast_write_handler
          { calm_env with socket_write_result := fun _ _ _ _ => -1 } 3 three_users_world
          chunk_1 4).map (fun r => r.1) = some 4 ∧
      (__guac_socket_broadcast_write_handler calm_env 0 fresh_world chunk_1 4).map
        (fun r => r.1) = some 4 :=
  ⟨three_users_wf, by decide,
    C13_broadcast_write_returns_count_as_ssize_t
      { calm_env with socket_write_result := fun _ _ _ _ => -1 }
      3 three_users_world [3, 2, 1] chunk_1 4 three_users_wf (by decide),
    by decide, by decide⟩
/-! ## Suspending and resuming: the exact effect -/

theorem client_log_trace (w : World) (level : guac_client_log_level) (format : String) :
    (vguac_client_log w level format).trace = w.trace ++ log_events w level format ∧
      (vguac_client_log w level format).users = w.users ∧
      (vguac_client_log w level format).client = w.client := by
  unfold vguac_client_log log_events
  cases w.client.log_handler with
  | none => simp
  | some fn => exact ⟨rfl, rfl, rfl⟩

theorem suspend_user_exact (w : World) (user : UserPtr) :
    (guac_client_suspend_user w user).trace =
        w.trace ++ (log_events w guac_client_log_level.GUAC_LOG_DEBUG "Suspending user" ++
          [Event.instruction_begin w.client.socket, Event.instruction_end w.client.socket] ++
          spec_handler_calls Event.suspend_handler (w.users user).suspend_handler
            w.client.suspend_handler user) ∧
      (guac_client_suspend_user w user).users =
        Function.update w.users user
          { w.users user with state := guac_user_state.GUAC_USER_SUSPENDED } ∧
      (guac_client_suspend_user w user).client = w.client := by
  obtain ⟨hltr, hlu, hlc⟩ :=
    client_log_trace w guac_client_log_level.GUAC_LOG_DEBUG "Suspending user"
  unfold guac_client_suspend_user guac_user_log
  generalize vguac_client_log w guac_client_log_level.GUAC_LOG_DEBUG "Suspending user" = w1
    at hltr hlu hlc ⊢
  simp only [emit_users, emit_client, emit_trace, set_user_users, set_user_client,
    set_user_trace, Function.update_same, hlu, hlc, hltr]
  unfold spec_handler_calls spec_fallback_handler
  cases hs : (w.users user).suspend_handler with
  | some fn => simp [hlu, hlc, hltr, hs]
  | none =>
    cases hc : w.client.suspend_handler with
    | some fn => simp [hlu, hlc, hltr, hs, hc]
    | none => simp [hlu, hlc, hltr, hs, hc]

theorem resume_user_exact (w : World) (user : UserPtr) :
    (guac_client_resume_user w user).trace =
        w.trace ++ (log_events w guac_client_log_level.GUAC_LOG_DEBUG "Resuming user" ++
          [Event.instruction_begin w.client.socket, Event.instruction_end w.client.socket] ++
          spec_handler_calls Event.resume_handler (w.users user).resume_handler
            w.client.resume_handler user) ∧
      (guac_client_resume_user w user).users =
        Function.update w.users user
          { w.users user with state := guac_user_state.GUAC_USER_RUNNING } ∧
      (guac_client_resume_user w user).client = w.client := by
  obtain ⟨hltr, hlu, hlc⟩ :=
    client_log_trace w guac_client_log_level.GUAC_LOG_DEBUG "Resuming user"
  unfold guac_client_resume_user guac_user_log
  generalize vguac_client_log w guac_client_log_level.GUAC_LOG_DEBUG "Resuming user" = w1
    at hltr hlu hlc ⊢
  simp only [emit_users, emit_client, emit_trace, set_user_users, set_user_client,
    set_user_trace, Function.update_same, hlu, hlc, hltr]
  unfold spec_handler_calls spec_fallback_handler
  cases hs : (w.users user).resume_handler with
  | some fn => simp [hlu, hlc, hltr, hs]
  | none =>
    cases hc : w.client.resume_handler with
    | some fn => simp [hlu, hlc, hltr, hs, hc]
    | none => simp [hlu, hlc, hltr, hs, hc]

theorem remove_user_exact (w : World) (user : UserPtr) :
    (guac_client_remove_user w user).trace =
      w.trace ++ ([Event.mutex_lock] ++
        spec_handler_calls Event.leave_handler (w.users user).leave_handler
          w.client.leave_handler user ++ [Event.mutex_unlock]) := by
  unfold guac_client_remove_user spec_handler_calls spec_fallback_handler
  simp only [emit_users, emit_client, emit_trace, remove_user_unlink_trace]
  cases (w.users user).leave_handler with
  | some fn => simp
  | none =>
    cases w.client.leave_handler with
    | some fn => simp
    | none => simp

theorem filter_handler_log_events (w : World) (level : guac_client_log_level)
    (format : String) : (log_events w level format).filter is_user_handler = [] := by
  unfold log_events
  cases w.client.log_handler <;> simp [is_user_handler]

theorem filter_handler_suspend_calls (of_user of_client : Option FnPtr) (user : UserPtr) :
    (spec_handler_calls Event.suspend_handler of_user of_client user).filter is_user_handler =
      spec_handler_calls Event.suspend_handler of_user of_client user := by
  unfold spec_handler_calls spec_fallback_handler
  cases of_user <;> cases of_client <;> simp [is_user_handler]

theorem filter_handler_resume_calls (of_user of_client : Option FnPtr) (user : UserPtr) :
    (spec_handler_calls Event.resume_handler of_user of_client user).filter is_user_handler =
      spec_handler_calls Event.resume_handler of_user of_client user := by
  unfold spec_handler_calls spec_fallback_handler
  cases of_user <;> cases of_client <;> simp [is_user_handler]

theorem filter_handler_leave_calls (of_user of_client : Option FnPtr) (user : UserPtr) :
    (spec_handler_calls Event.leave_handler of_user of_client user).filter is_user_handler =
      spec_handler_calls Event.leave_handler of_user of_client user := by
  unfold spec_handler_calls spec_fallback_handler
  cases of_user <;> cases of_client <;> simp [is_user_handler]

theorem spec_handler_calls_length (mk : HandlerOf → FnPtr → UserPtr → Event)
    (of_user of_client : Option FnPtr) (user : UserPtr) :
    (spec_handler_calls mk of_user of_client user).length ≤ 1 := by
  unfold spec_handler_calls spec_fallback_handler
  cases of_user <;> cases of_client <;> simp

theorem suspend_user_handler_calls (w : World) (user : UserPtr) :
    handler_calls_since w.trace.length (guac_client_suspend_user w user) =
      spec_handler_calls Event.suspend_handler (w.users user).suspend_handler
        w.client.suspend_handler user := by
  unfold handler_calls_since
  rw [(suspend_user_exact w user).1, List.drop_left]
  simp only [List.filter_append, filter_handler_log_events, filter_handler_suspend_calls]
  simp [is_user_handler]

theorem resume_user_handler_calls (w : World) (user : UserPtr) :
    handler_calls_since w.trace.length (guac_client_resume_user w user) =
      spec_handler_calls Event.resume_handler (w.users user).resume_handler
        w.client.resume_handler user := by
  unfold handler_calls_since
  rw [(resume_user_exact w user).1, List.drop_left]
  simp only [List.filter_append, filter_handler_log_events, filter_handler_resume_calls]
  simp [is_user_handler]

theorem remove_user_handler_calls (w : World) (user : UserPtr) :
    handler_calls_since w.trace.length (guac_client_remove_user w user) =
      spec_handler_calls Event.leave_handler (w.users user).leave_handler
        w.client.leave_handler user := by
  unfold handler_calls_since
  rw [remove_user_exact w user, List.drop_left]
  simp only [List.filter_append, filter_handler_leave_calls]
  simp [is_user_handler]

theorem handler_calls_since_append (n : Nat) (w1 w2 : World) (x : List Event)
    (hn : n ≤ w1.trace.length) (h : w2.trace = w1.trace ++ x) :
    handler_calls_since n w2 =
      handler_calls_since n w1 ++ handler_calls_since w1.trace.length w2 := by
  unfold handler_calls_since
  rw [h, List.drop_append_of_le_length hn, List.filter_append, List.drop_left]

/-- C19: in `guac_client_remove_user`, `guac_client_suspend_user` and
`guac_client_resume_user` the handler invocations made by one call are those of
the fallback rule of the specification: the user's own leave / suspend / resume
handler if it is set, else the client's handler of the same kind if it is set,
else none.  So at most one handler is invoked per call, and when the user's
handler is set the only invocation is that of the user's handler. -/
theorem C19_handler_fallback (w : World) (user : UserPtr) :
    (handler_calls_since w.trace.length (guac_client_remove_user w user) =
        spec_handler_calls Event.leave_handler (w.users user).leave_handler
          w.client.leave_handler user ∧
      handler_calls_since w.trace.length (guac_client_suspend_user w user) =
        spec_handler_calls Event.suspend_handler (w.users user).suspend_handler
          w.client.suspend_handler user ∧
      handler_calls_since w.trace.length (guac_client_resume_user w user) =
        spec_handler_calls Event.resume_handler (w.users user).resume_handler
          w.client.resume_handler user) ∧
      ((handler_calls_since w.trace.length (guac_client_remove_user w user)).length ≤ 1 ∧
        (handler_calls_since w.trace.length (guac_client_suspend_user w user)).length ≤ 1 ∧
        (handler_calls_since w.trace.length (guac_client_resume_user w user)).length ≤ 1) ∧
      (∀ fn, (w.users user).leave_handler = some fn →
        handler_calls_since w.trace.length (guac_client_remove_user w user) =
          [Event.leave_handler HandlerOf.user fn user]) ∧
      (∀ fn, (w.users user).suspend_handler = some fn →
        handler_calls_since w.trace.length (guac_client_suspend_user w user) =
          [Event.suspend_handler HandlerOf.user fn user]) ∧
      (∀ fn, (w.users user).resume_handler = some fn →
        handler_calls_since w.trace.length (guac_client_resume_user w user) =
          [Event.resume_handler HandlerOf.user fn user]) := by
  rw [remove_user_handler_calls, suspend_user_handler_calls, resume_user_handler_calls]
  refine ⟨⟨rfl, rfl, rfl⟩, ⟨spec_handler_calls_length _ _ _ _, spec_handler_calls_length _ _ _ _,
    spec_handler_calls_length _ _ _ _⟩, ?_, ?_, ?_⟩
  · intro fn h
    rw [h]
    rfl
  · intro fn h
    rw [h]
    rfl
  · intro fn h
    rw [h]
    rfl

theorem suspend_keeps_handlers (w : World) (user v : UserPtr) :
    ((guac_client_suspend_user w user).users v).resume_handler = (w.users v).resume_handler ∧
      ((guac_client_suspend_user w user).users v).suspend_handler
        = (w.users v).suspend_handler := by
  rw [(suspend_user_exact w user).2.1]
  by_cases hv : v = user
  · subst hv; simp
  · simp [Function.update_noteq hv]

theorem resume_keeps_handlers (w : World) (user v : UserPtr) :
    ((guac_client_resume_user w user).users v).resume_handler = (w.users v).resume_handler ∧
      ((guac_client_resume_user w user).users v).suspend_handler
        = (w.users v).suspend_handler := by
  rw [(resume_user_exact w user).2.1]
  by_cases hv : v = user
  · subst hv; simp
  · simp [Function.update_noteq hv]

/-- C17: whatever the prior state of the user, `guac_client_suspend_user`
immediately followed by `guac_client_resume_user` leaves its state equal to
`GUAC_USER_RUNNING`; when a suspend handler and a resume handler are installed
(on the user, or else on the client) the handler invocations of the two calls
are exactly two: the suspend handler once, then the resume handler once. -/
theorem C17_suspend_then_resume (w : World) (user : UserPtr) (src1 src2 : HandlerOf)
    (fn1 fn2 : FnPtr)
    (hs : spec_fallback_handler (w.users user).suspend_handler w.client.suspend_handler
      = some (src1, fn1))
    (hr : spec_fallback_handler (w.users user).resume_handler w.client.resume_handler
      = some (src2, fn2)) :
    ((guac_client_resume_user (guac_client_suspend_user w user) user).users user).state =
        guac_user_state.GUAC_USER_RUNNING ∧
      handler_calls_since w.trace.length
          (guac_client_resume_user (guac_client_suspend_user w user) user) =
        [Event.suspend_handler src1 fn1 user, Event.resume_handler src2 fn2 user] := by
  refine ⟨?_, ?_⟩
  · rw [(resume_user_exact _ user).2.1]
    simp
  · rw [handler_calls_since_append w.trace.length (guac_client_suspend_user w user) _ _
      (by rw [(suspend_user_exact w user).1]; simp) (resume_user_exact _ user).1,
      suspend_user_handler_calls, resume_user_handler_calls,
      (suspend_keeps_handlers w user user).1, (suspend_user_exact w user).2.2]
    simp [spec_handler_calls, hs, hr]

/-- C17 at a concrete input: user 1 of `lagging_world`, whose own resume handler
is 61 and whose client has the suspend handler 60. -/
theorem C17_suspend_then_resume_witness :
    spec_fallback_handler (lagging_world.users 1).suspend_handler
        lagging_world.client.suspend_handler = some (HandlerOf.client, 60) ∧
      spec_fallback_handler (lagging_world.users 1).resume_handler
        lagging_world.client.resume_handler = some (HandlerOf.user, 61) ∧
      ((guac_client_resume_user (guac_client_suspend_user lagging_world 1) 1).users 1).state =
        guac_user_state.GUAC_USER_RUNNING ∧
      handler_calls_since lagging_world.trace.length
          (guac_client_resume_user (guac_client_suspend_user lagging_world 1) 1) =
        [Event.suspend_handler HandlerOf.client 60 1, Event.resume_handler HandlerOf.user 61 1] :=
  ⟨rfl, rfl, C17_suspend_then_resume lagging_world 1 HandlerOf.client HandlerOf.user 60 61 rfl rfl⟩

theorem repeat_suspend_spec (user : UserPtr) :
    ∀ (k : Nat) (w : World),
      (repeat_call guac_client_suspend_user user (k + 1) w).users =
          (guac_client_suspend_user w user).users ∧
        (repeat_call guac_client_suspend_user user (k + 1) w).client = w.client ∧
        (∃ x, (repeat_call guac_client_suspend_user user (k + 1) w).trace = w.trace ++ x) ∧
        handler_calls_since w.trace.length (repeat_call guac_client_suspend_user user (k + 1) w) =
          (List.replicate (k + 1)
            (spec_handler_calls Event.suspend_handler (w.users user).suspend_handler
              w.client.suspend_handler user)).flatten := by
  intro k
  induction k with
  | zero =>
    intro w
    refine ⟨rfl, (suspend_user_exact w user).2.2, ⟨_, (suspend_user_exact w user).1⟩, ?_⟩
    show handler_calls_since w.trace.length (guac_client_suspend_user w user) = _
    rw [suspend_user_handler_calls]
    simp
  | succ k ih =>
    intro w
    obtain ⟨hu, hc, ⟨x, hx⟩, hcalls⟩ := ih (guac_client_suspend_user w user)
    have hex := suspend_user_exact w user
    have hrep : repeat_call guac_client_suspend_user user (k + 1 + 1) w =
        repeat_call guac_client_suspend_user user (k + 1) (guac_client_suspend_user w user) := rfl
    rw [hrep]
    refine ⟨?_, hc.trans hex.2.2, ⟨_, by rw [hx, hex.1, List.append_assoc]⟩, ?_⟩
    · rw [hu, (suspend_user_exact _ user).2.1, hex.2.1]
      simp
    · rw [handler_calls_since_append w.trace.length (guac_client_suspend_user w user) _ x
        (by rw [hex.1]; simp) hx, hcalls, suspend_user_handler_calls,
        (suspend_keeps_handlers w user user).2, hex.2.2]
      rw [List.replicate_succ (n := k + 1), List.flatten_cons]

theorem repeat_resume_spec (user : UserPtr) :
    ∀ (k : Nat) (w : World),
      (repeat_call guac_client_resume_user user (k + 1) w).users =
          (guac_client_resume_user w user).users ∧
        (repeat_call guac_client_resume_user user (k + 1) w).client = w.client ∧
        (∃ x, (repeat_call guac_client_resume_user user (k + 1) w).trace = w.trace ++ x) ∧
        handler_calls_since w.trace.length (repeat_call guac_client_resume_user user (k + 1) w) =
          (List.replicate (k + 1)
            (spec_handler_calls Event.resume_handler (w.users user).resume_handler
              w.client.resume_handler user)).flatten := by
  intro k
  induction k with
  | zero =>
    intro w
    refine ⟨rfl, (resume_user_exact w user).2.2, ⟨_, (resume_user_exact w user).1⟩, ?_⟩
    show handler_calls_since w.trace.length (guac_client_resume_user w user) = _
    rw [resume_user_handler_calls]
    simp
  | succ k ih =>
    intro w
    obtain ⟨hu, hc, ⟨x, hx⟩, hcalls⟩ := ih (guac_client_resume_user w user)
    have hex := resume_user_exact w user
    have hrep : repeat_call guac_client_resume_user user (k + 1 + 1) w =
        repeat_call guac_client_resume_user user (k + 1) (guac_client_resume_user w user) := rfl
    rw [hrep]
    refine ⟨?_, hc.trans hex.2.2, ⟨_, by rw [hx, hex.1, List.append_assoc]⟩, ?_⟩
    · rw [hu, (resume_user_exact _ user).2.1, hex.2.1]
      simp
    · rw [handler_calls_since_append w.trace.length (guac_client_resume_user w user) _ x
        (by rw [hex.1]; simp) hx, hcalls, resume_user_handler_calls,
        (resume_keeps_handlers w user user).1, hex.2.2]
      rw [List.replicate_succ (n := k + 1), List.flatten_cons]

/-- C18: calling `guac_client_suspend_user` (`guac_client_resume_user`) `k ≥ 1`
times in a row leaves the user heap exactly as one call does, the user being
suspended (running), while the handler invocations are `k` repetitions of what
one call invokes: when a suspend (resume) handler is installed on the user or
else on the client, it is invoked `k` times, once per call, also in the calls
that find the user already in the target state. -/
theorem C18_state_idempotent_handler_repeated (w : World) (user : UserPtr) (k : Nat)
    (hk : 1 ≤ k) :
    ((repeat_call guac_client_suspend_user user k w).users =
          (guac_client_suspend_user w user).users ∧
        ((repeat_call guac_client_suspend_user user k w).users user).state =
          guac_user_state.GUAC_USER_SUSPENDED ∧
        handler_calls_since w.trace.length (repeat_call guac_client_suspend_user user k w) =
          (List.replicate k
            (spec_handler_calls Event.suspend_handler (w.users user).suspend_handler
              w.client.suspend_handler user)).flatten ∧
        ∀ src fn, spec_fallback_handler (w.users user).suspend_handler
            w.client.suspend_handler = some (src, fn) →
          handler_calls_since w.trace.length (repeat_call guac_client_suspend_user user k w) =
            List.replicate k (Event.suspend_handler src fn user)) ∧
      ((repeat_call guac_client_resume_user user k w).users =
          (guac_client_resume_user w user).users ∧
        ((repeat_call guac_client_resume_user user k w).users user).state =
          guac_user_state.GUAC_USER_RUNNING ∧
        handler_calls_since w.trace.length (repeat_call guac_client_resume_user user k w) =
          (List.replicate k
            (spec_handler_calls Event.resume_handler (w.users user).resume_handler
              w.client.resume_handler user)).flatten ∧
        ∀ src fn, spec_fallback_handler (w.users user).resume_handler
            w.client.resume_handler = some (src, fn) →
          handler_calls_since w.trace.length (repeat_call guac_client_resume_user user k w) =
            List.replicate k (Event.resume_handler src fn user)) := by
  obtain ⟨j, rfl⟩ : ∃ j, k = j + 1 := ⟨k - 1, by omega⟩
  obtain ⟨hu1, _, _, hc1⟩ := repeat_suspend_spec user j w
  obtain ⟨hu2, _, _, hc2⟩ := repeat_resume_spec user j w
  refine ⟨⟨hu1, ?_, hc1, ?_⟩, ⟨hu2, ?_, hc2, ?_⟩⟩
  · rw [hu1, (suspend_user_exact w user).2.1]
    simp
  · intro src fn h
    rw [hc1]
    simp only [spec_handler_calls, h]
    induction (j + 1) with
    | zero => rfl
    | succ n ih => rw [List.replicate_succ, List.flatten_cons, ih]; rfl
  · rw [hu2, (resume_user_exact w user).2.1]
    simp
  · intro src fn h
    rw [hc2]
    simp only [spec_handler_calls, h]
    induction (j + 1) with
    | zero => rfl
    | succ n ih => rw [List.replicate_succ, List.flatten_cons, ih]; rfl

/-- C18 at a concrete input: three suspensions, then three resumptions, of user
1 of `lagging_world`; the client's suspend handler 60 and the user's resume
handler 61 are invoked three times each. -/
theorem C18_state_idempotent_witness :
    1 ≤ 3 ∧
      (((repeat_call guac_client_suspend_user 1 3 lagging_world).users =
            (guac_client_suspend_user lagging_world 1).users ∧
          ((repeat_call guac_client_suspend_user 1 3 lagging_world).users 1).state =
            guac_user_state.GUAC_USER_SUSPENDED ∧
          handler_calls_since lagging_world.trace.length
              (repeat_call guac_client_suspend_user 1 3 lagging_world) =
            (List.replicate 3
              (spec_handler_calls Event.suspend_handler (lagging_world.users 1).suspend_handler
                lagging_world.client.suspend_handler 1)).flatten ∧
          ∀ src fn, spec_fallback_handler (lagging_world.users 1).suspend_handler
              lagging_world.client.suspend_handler = some (src, fn) →
            handler_calls_since lagging_world.trace.length
                (repeat_call guac_client_suspend_user 1 3 lagging_world) =
              List.replicate 3 (Event.suspend_handler src fn 1)) ∧
        ((repeat_call guac_client_resume_user 1 3 lagging_world).users =
            (guac_client_resume_user lagging_world 1).users ∧
          ((repeat_call guac_client_resume_user 1 3 lagging_world).users 1).state =
            guac_user_state.GUAC_USER_RUNNING ∧
          handler_calls_since lagging_world.trace.length
              (repeat_call guac_client_resume_user 1 3 lagging_world) =
            (List.replicate 3
              (spec_handler_calls Event.resume_handler (lagging_world.users 1).resume_handler
                lagging_world.client.resume_handler 1)).flatten ∧
          ∀ src fn, spec_fallback_handler (lagging_world.users 1).resume_handler
              lagging_world.client.resume_handler = some (src, fn) →
            handler_calls_since lagging_world.trace.length
                (repeat_call guac_client_resume_user 1 3 lagging_world) =
              List.replicate 3 (Event.resume_handler src fn 1))) ∧
      handler_calls_since lagging_world.trace.length
          (repeat_call guac_client_suspend_user 1 3 lagging_world) =
        [Event.suspend_handler HandlerOf.client 60 1, Event.suspend_handler HandlerOf.client 60 1,
          Event.suspend_handler HandlerOf.client 60 1] ∧
      handler_calls_since lagging_world.trace.length
          (repeat_call guac_client_resume_user 1 3 lagging_world) =
        [Event.resume_handler HandlerOf.user 61 1, Event.resume_handler HandlerOf.user 61 1,
          Event.resume_handler HandlerOf.user 61 1] :=
  ⟨by decide, C18_state_idempotent_handler_repeated lagging_world 1 3 (by decide),
    by decide, by decide⟩

/-! ## Lag control -/

theorem to_int32_of_range (x : Int) (h1 : -2147483648 ≤ x) (h2 : x < 2147483648) :
    to_int32 x = x := by
  unfold to_int32
  omega

/-- The frame handlers suspend a running user whose lag is at least the
threshold and fits an `int`. -/
theorem frame_handler_suspends (w : World) (user : UserPtr) (timestamp threshold : Int)
    (hrun : (w.users user).state = guac_user_state.GUAC_USER_RUNNING)
    (hlag : threshold ≤
      (w.users user).last_sent_timestamp - (w.users user).last_received_timestamp)
    (hfit : (w.users user).last_sent_timestamp - (w.users user).last_received_timestamp
      < 2147483648)
    (hthr : -2147483648 ≤ threshold) :
    guac_vnc_user_frame_handler threshold w user timestamp =
        (0, guac_client_suspend_user w user) ∧
      (threshold = GUAC_RDP_LAG_THRESHOLD →
        guac_rdp_user_frame_handler w user timestamp = (0, guac_client_suspend_user w user)) := by
  have h32 := to_int32_of_range _ (le_trans hthr hlag) hfit
  refine ⟨?_, ?_⟩
  · unfold guac_vnc_user_frame_handler
    simp only [h32]
    rw [if_pos ⟨hrun, hlag⟩]
  · intro ht
    unfold guac_rdp_user_frame_handler
    simp only [h32]
    rw [if_pos ⟨hrun, ht ▸ hlag⟩]

/-- The frame handlers do nothing when the user is already suspended, or when
the lag, as an `int`, is below the threshold. -/
theorem frame_handler_idle (w : World) (user : UserPtr) (timestamp threshold : Int)
    (h : (w.users user).state = guac_user_state.GUAC_USER_SUSPENDED ∨
      to_int32 ((w.users user).last_sent_timestamp - (w.users user).last_received_timestamp)
        < threshold) :
    guac_vnc_user_frame_handler threshold w user timestamp = (0, w) ∧
      (threshold = GUAC_RDP_LAG_THRESHOLD →
        guac_rdp_user_frame_handler w user timestamp = (0, w)) := by
  have hneg : ¬ ((w.users user).state = guac_user_state.GUAC_USER_RUNNING ∧
      to_int32 ((w.users user).last_sent_timestamp - (w.users user).last_received_timestamp)
        ≥ threshold) := by
    rintro ⟨h1, h2⟩
    rcases h with h | h
    · rw [h] at h1
      cases h1
    · omega
  refine ⟨?_, ?_⟩
  · unfold guac_vnc_user_frame_handler
    simp only []
    rw [if_neg hneg]
  · intro ht
    unfold guac_rdp_user_frame_handler
    simp only []
    rw [if_neg (ht ▸ hneg)]

/-- The sync handlers do nothing when the user is running or when the sync
timestamp differs from `last_sent_timestamp`. -/
theorem sync_handler_idle (w : World) (user : UserPtr) (timestamp : Int)
    (h : (w.users user).state = guac_user_state.GUAC_USER_RUNNING ∨
      (w.users user).last_sent_timestamp ≠ timestamp) :
    guac_rdp_user_sync_handler w user timestamp = (0, w) ∧
      guac_vnc_user_sync_handler w user timestamp = (0, w) := by
  have hneg : ¬ ((w.users user).state = guac_user_state.GUAC_USER_SUSPENDED ∧
      (w.users user).last_sent_timestamp = timestamp) := by
    rintro ⟨h1, h2⟩
    rcases h with h | h
    · rw [h] at h1
      cases h1
    · exact h h2
  unfold guac_rdp_user_sync_handler guac_vnc_user_sync_handler
  rw [if_neg hneg]
  exact ⟨rfl, rfl⟩

/-- C14 (the code at the failing input): at the scenario S4 (running, sent 1000,
received 400) both frame handlers suspend the user and the suspend handler is
invoked once.  But for a running user with `last_sent_timestamp` 2147483648 and
`last_received_timestamp` 0 the lag 2147483648 is far above the threshold 500,
while `int lag` holds -2147483648: both frame handlers leave the user running
and invoke nothing. -/
theorem C14_frame_handler_misses_large_lag :
    (((guac_rdp_user_frame_handler lagging_world 1 1000).2.users 1).state =
          guac_user_state.GUAC_USER_SUSPENDED ∧
        handler_calls_since 0 (guac_rdp_user_frame_handler lagging_world 1 1000).2 =
          [Event.suspend_handler HandlerOf.client 60 1]) ∧
      (((lag_world 2147483648 0).users 1).state = guac_user_state.GUAC_USER_RUNNING ∧
        GUAC_RDP_LAG_THRESHOLD ≤ ((lag_world 2147483648 0).users 1).last_sent_timestamp -
          ((lag_world 2147483648 0).users 1).last_received_timestamp ∧
        to_int32 (((lag_world 2147483648 0).users 1).last_sent_timestamp -
          ((lag_world 2147483648 0).users 1).last_received_timestamp) = -2147483648 ∧
        ((guac_rdp_user_frame_handler (lag_world 2147483648 0) 1 2147483648).2.users 1).state =
          guac_user_state.GUAC_USER_RUNNING ∧
        (guac_rdp_user_frame_handler (lag_world 2147483648 0) 1 2147483648).2.trace = [] ∧
        ((guac_vnc_user_frame_handler 500 (lag_world 2147483648 0) 1 2147483648).2.users 1).state =
          guac_user_state.GUAC_USER_RUNNING ∧
        (guac_vnc_user_frame_handler 500 (lag_world 2147483648 0) 1 2147483648).2.trace = []) := by
  decide

/-- C15: for a suspended user the sync handlers of both back-ends return 0,
and when the timestamp equals `last_sent_timestamp` they leave the user running
and make exactly the handler invocation of one `guac_client_resume_user`: the
resume handler of the user, else that of the client, once.  They return 0 in
every other situation as well. -/
theorem C15_sync_handler_resumes (w : World) (user : UserPtr) (timestamp : Int)
    (hs : (w.users user).state = guac_user_state.GUAC_USER_SUSPENDED) :
    ((guac_rdp_user_sync_handler w user timestamp).1 = 0 ∧
        (guac_vnc_user_sync_handler w user timestamp).1 = 0) ∧
      (timestamp = (w.users user).last_sent_timestamp →
        ((guac_rdp_user_sync_handler w user timestamp).2.users user).state =
            guac_user_state.GUAC_USER_RUNNING ∧
          handler_calls_since w.trace.length (guac_rdp_user_sync_handler w user timestamp).2 =
            spec_handler_calls Event.resume_handler (w.users user).resume_handler
              w.client.resume_handler user ∧
          ((guac_vnc_user_sync_handler w user timestamp).2.users user).state =
            guac_user_state.GUAC_USER_RUNNING ∧
          handler_calls_since w.trace.length (guac_vnc_user_sync_handler w user timestamp).2 =
            spec_handler_calls Event.resume_handler (w.users user).resume_handler
              w.client.resume_handler user) ∧
      ∀ (w0 : World) (u0 : UserPtr) (t0 : Int),
        (guac_rdp_user_sync_handler w0 u0 t0).1 = 0 ∧
          (guac_vnc_user_sync_handler w0 u0 t0).1 = 0 := by
  have hret : ∀ (w0 : World) (u0 : UserPtr) (t0 : Int),
      (guac_rdp_user_sync_handler w0 u0 t0).1 = 0 ∧
        (guac_vnc_user_sync_handler w0 u0 t0).1 = 0 := by
    intro w0 u0 t0
    unfold guac_rdp_user_sync_handler guac_vnc_user_sync_handler
    constructor <;> split <;> rfl
  refine ⟨hret w user timestamp, ?_, hret⟩
  intro ht
  have hr : guac_rdp_user_sync_handler w user timestamp = (0, guac_client_resume_user w user) := by
    unfold guac_rdp_user_sync_handler
    rw [if_pos ⟨hs, ht.symm⟩]
  have hv : guac_vnc_user_sync_handler w user timestamp = (0, guac_client_resume_user w user) := by
    unfold guac_vnc_user_sync_handler
    rw [if_pos ⟨hs, ht.symm⟩]
  rw [hr, hv]
  have hstate : ((guac_client_resume_user w user).users user).state =
      guac_user_state.GUAC_USER_RUNNING := by
    rw [(resume_user_exact w user).2.1]
    simp
  exact ⟨hstate, resume_user_handler_calls w user, hstate, resume_user_handler_calls w user⟩

/-- C15 at the scenario S5: user 1, suspended with `last_sent_timestamp` 1000,
receives the sync 1000; its own resume handler 61 is invoked once. -/
theorem C15_sync_handler_witness :
    ((guac_client_suspend_user lagging_world 1).users 1).state =
        guac_user_state.GUAC_USER_SUSPENDED ∧
      (((guac_rdp_user_sync_handler (guac_client_suspend_user lagging_world 1) 1 1000).1 = 0 ∧
          (guac_vnc_user_sync_handler (guac_client_suspend_user lagging_world 1) 1 1000).1 = 0) ∧
        ((1000 : Int) = ((guac_client_suspend_user lagging_world 1).users 1).last_sent_timestamp →
          ((guac_rdp_user_sync_handler (guac_client_suspend_user lagging_world 1) 1
              1000).2.users 1).state = guac_user_state.GUAC_USER_RUNNING ∧
            handler_calls_since (guac_client_suspend_user lagging_world 1).trace.length
                (guac_rdp_user_sync_handler (guac_client_suspend_user lagging_world 1) 1 1000).2 =
              spec_handler_calls Event.resume_handler
                ((guac_client_suspend_user lagging_world 1).users 1).resume_handler
                (guac_client_suspend_user lagging_world 1).client.resume_handler 1 ∧
            ((guac_vnc_user_sync_handler (guac_client_suspend_user lagging_world 1) 1
              1000).2.users 1).state = guac_user_state.GUAC_USER_RUNNING ∧
            handler_calls_since (guac_client_suspend_user lagging_world 1).trace.length
                (guac_vnc_user_sync_handler (guac_client_suspend_user lagging_world 1) 1 1000).2 =
              spec_handler_calls Event.resume_handler
                ((guac_client_suspend_user lagging_world 1).users 1).resume_handler
                (guac_client_suspend_user lagging_world 1).client.resume_handler 1) ∧
        ∀ (w0 : World) (u0 : UserPtr) (t0 : Int),
          (guac_rdp_user_sync_handler w0 u0 t0).1 = 0 ∧
            (guac_vnc_user_sync_handler w0 u0 t0).1 = 0) ∧
      handler_calls_since (guac_client_suspend_user lagging_world 1).trace.length
          (guac_rdp_user_sync_handler (guac_client_suspend_user lagging_world 1) 1 1000).2 =
        [Event.resume_handler HandlerOf.user 61 1] :=
  ⟨by decide, C15_sync_handler_resumes (guac_client_suspend_user lagging_world 1) 1 1000
    (by decide), by decide⟩

/-- Claim C16.  Let the user satisfy the Viewer invariant of the specification
(`last_sent_timestamp ≥ last_received_timestamp - drift`, the drift bounded by
the lag threshold), the threshold being an `int`.  Then the frame handlers of
both back-ends return 0 and leave the whole memory as it is (no state changes,
no handler is invoked) when the user is already suspended or when the lag is
below the threshold; and the sync handlers return 0 and leave the whole memory
as it is when the user is running or when the timestamp differs from
`last_sent_timestamp`, by however little. -/
theorem C16_lag_transitions_are_edge_triggered (w : World) (user : UserPtr)
    (timestamp threshold : Int) (hthr : threshold ≤ 2147483648)
    (hdrift : (w.users user).last_received_timestamp - (w.users user).last_sent_timestamp
      ≤ threshold) :
    (((w.users user).state = guac_user_state.GUAC_USER_SUSPENDED ∨
        (w.users user).last_sent_timestamp - (w.users user).last_received_timestamp
          < threshold) →
      guac_vnc_user_frame_handler threshold w user timestamp = (0, w) ∧
        (threshold = GUAC_RDP_LAG_THRESHOLD →
          guac_rdp_user_frame_handler w user timestamp = (0, w))) ∧
      (((w.users user).state = guac_user_state.GUAC_USER_RUNNING ∨
          (w.users user).last_sent_timestamp ≠ timestamp) →
        guac_rdp_user_sync_handler w user timestamp = (0, w) ∧
          guac_vnc_user_sync_handler w user timestamp = (0, w)) := by
  refine ⟨?_, sync_handler_idle w user timestamp⟩
  intro h
  apply frame_handler_idle
  rcases h with h | h
  · exact Or.inl h
  · right
    rw [to_int32_of_range _ (by omega) (by omega)]
    exact h

/-- C16 at concrete inputs: a running user with lag 100 is left alone by the
frame handlers (threshold 500), and, the witness of the claim, a suspended
user with `last_sent_timestamp` 1000 is left suspended by the sync 900. -/
theorem C16_lag_transitions_witness :
    (500 : Int) ≤ 2147483648 ∧
      ((lag_world 1000 900).users 1).last_received_timestamp -
        ((lag_world 1000 900).users 1).last_sent_timestamp ≤ 500 ∧
      ((guac_client_suspend_user lagging_world 1).users 1).last_received_timestamp -
        ((guac_client_suspend_user lagging_world 1).users 1).last_sent_timestamp ≤ 500 ∧
      (guac_vnc_user_frame_handler 500 (lag_world 1000 900) 1 1000 = (0, lag_world 1000 900) ∧
        ((500 : Int) = GUAC_RDP_LAG_THRESHOLD →
          guac_rdp_user_frame_handler (lag_world 1000 900) 1 1000 = (0, lag_world 1000 900))) ∧
      (guac_rdp_user_sync_handler (guac_client_suspend_user lagging_world 1) 1 900 =
          (0, guac_client_suspend_user lagging_world 1) ∧
        guac_vnc_user_sync_handler (guac_client_suspend_user lagging_world 1) 1 900 =
          (0, guac_client_suspend_user lagging_world 1)) ∧
      ((guac_client_suspend_user lagging_world 1).users 1).state =
        guac_user_state.GUAC_USER_SUSPENDED ∧
      ((guac_client_suspend_user lagging_world 1).users 1).last_sent_timestamp = 1000 ∧
      ((guac_rdp_user_sync_handler (guac_client_suspend_user lagging_world 1) 1 900).2.users
        1).state = guac_user_state.GUAC_USER_SUSPENDED :=
  ⟨by decide, by decide, by decide,
    (C16_lag_transitions_are_edge_triggered (lag_world 1000 900) 1 1000 500 (by decide)
      (by decide)).1 (Or.inr (by decide)),
    (C16_lag_transitions_are_edge_triggered (guac_client_suspend_user lagging_world 1) 1 900 500
      (by decide) (by decide)).2 (Or.inr (by decide)),
    by decide, by decide, by decide⟩

/-- Outside the drift bound of the Viewer invariant the narrowing to `int`
shows: for a running user with `last_sent_timestamp` 1000 and
`last_received_timestamp` 4294967696 (a reply more than 2^32 ms ahead of the
last frame) the lag is -4294966696 while `int lag` holds 600, and both frame
handlers suspend the user.  The scenario S5 (suspended, sent 1000, sync 900:
nothing happens) is evaluated alongside. -/
theorem frame_handler_outside_drift_bound :
    (((guac_rdp_user_sync_handler (guac_client_suspend_user lagging_world 1) 1 900).2.users
          1).state = guac_user_state.GUAC_USER_SUSPENDED ∧
        (guac_rdp_user_sync_handler (guac_client_suspend_user lagging_world 1) 1 900).2.trace =
          (guac_client_suspend_user lagging_world 1).trace) ∧
      (((lag_world 1000 4294967696).users 1).state = guac_user_state.GUAC_USER_RUNNING ∧
        ((lag_world 1000 4294967696).users 1).last_sent_timestamp -
          ((lag_world 1000 4294967696).users 1).last_received_timestamp = -4294966696 ∧
        to_int32 (((lag_world 1000 4294967696).users 1).last_sent_timestamp -
          ((lag_world 1000 4294967696).users 1).last_received_timestamp) = 600 ∧
        ((guac_rdp_user_frame_handler (lag_world 1000 4294967696) 1 1000).2.users 1).state =
          guac_user_state.GUAC_USER_SUSPENDED ∧
        handler_calls_since 0 (guac_rdp_user_frame_handler (lag_world 1000 4294967696) 1 1000).2 =
          [Event.suspend_handler HandlerOf.client 60 1] ∧
        ((guac_vnc_user_frame_handler 500 (lag_world 1000 4294967696) 1 1000).2.users 1).state =
          guac_user_state.GUAC_USER_SUSPENDED ∧
        handler_calls_since 0
            (guac_vnc_user_frame_handler 500 (lag_world 1000 4294967696) 1 1000).2 =
          [Event.suspend_handler HandlerOf.client 60 1]) := by
  decide

/-! ## The client state only moves from running to stopping -/

theorem foreach_loop_state {δ : Type} (callback : UserPtr → δ → World → World) (data : δ)
    (hcb : ∀ u d w, (callback u d w).client.state = w.client.state) :
    ∀ (fuel : Nat) (cur : Option UserPtr) (w w1 : World),
      foreach_loop callback data fuel cur w = some w1 → w1.client.state = w.client.state := by
  intro fuel
  induction fuel with
  | zero =>
    intro cur w w1 h
    cases cur with
    | none =>
      simp only [foreach_loop, Option.some.injEq] at h
      rw [← h]
    | some c => simp [foreach_loop] at h
  | succ k ih =>
    intro cur w w1 h
    cases cur with
    | none =>
      simp only [foreach_loop, Option.some.injEq] at h
      rw [← h]
    | some c =>
      simp only [foreach_loop] at h
      by_cases hrun : (w.users c).state = guac_user_state.GUAC_USER_RUNNING
      · rw [if_pos hrun] at h
        rw [ih _ _ w1 h, hcb]
      · rw [if_neg hrun] at h
        exact ih _ _ w1 h

theorem foreach_user_state {δ : Type} (callback : UserPtr → δ → World → World) (data : δ)
    (hcb : ∀ u d w, (callback u d w).client.state = w.client.state) (fuel : Nat)
    (w w1 : World) (h : guac_client_foreach_user fuel w callback data = some w1) :
    w1.client.state = w.client.state := by
  unfold guac_client_foreach_user at h
  cases hl : foreach_loop callback data fuel (emit w Event.mutex_lock).client.__users
      (emit w Event.mutex_lock) with
  | none =>
    have : foreach_loop callback data fuel w.client.__users (emit w Event.mutex_lock) = none := hl
    simp [this] at h
  | some w2 =>
    have hl1 : foreach_loop callback data fuel w.client.__users (emit w Event.mutex_lock)
      = some w2 := hl
    simp only [emit_client, hl1, Option.map_some', Option.some.injEq] at h
    rw [← h, emit_client, foreach_loop_state callback data hcb fuel _ _ w2 hl]
    rfl

theorem broadcast_write_state (env : Env) (fuel : Nat) (w : World) (buf : List Nat)
    (count : Nat) (r : Int × World)
    (h : __guac_socket_broadcast_write_handler env fuel w buf count = some r) :
    r.2.client.state = w.client.state := by
  unfold __guac_socket_broadcast_write_handler at h
  cases hf : guac_client_foreach_user fuel w (__write_chunk_callback env)
      { buffer := buf, length := count } with
  | none => simp [hf] at h
  | some w2 =>
    simp only [hf, Option.map_some', Option.some.injEq] at h
    rw [← h]
    exact foreach_user_state (__write_chunk_callback env) _
      (fun u d w0 => by rw [write_chunk_callback_client]) fuel w w2 hf

theorem add_user_client_state (env : Env) (w : World) (user : UserPtr) (argc : Int)
    (argv : List String) :
    (guac_client_add_user env w user argc argv).2.client.state = w.client.state := by
  by_cases h : (guac_client_add_user env w user argc argv).1 = 0
  · rw [(add_user_accepted env w user argc argv h).1]
  · rw [(add_user_refused env w user argc argv h).2]

theorem remove_user_client_state (w : World) (user : UserPtr) :
    (guac_client_remove_user w user).client.state = w.client.state := by
  obtain ⟨w2, _, hc, hshape⟩ := remove_user_shape w user
  rw [hshape, emit_client, remove_user_unlink_client, ← hc]

/-- One call on the client leaves `client->state` as it is or sets it to
`GUAC_CLIENT_STOPPING`. -/
theorem client_step_state (env : Env) (fuel : Nat) (w w1 : World) (op : ClientOp)
    (h : client_step env fuel w op = some w1) :
    w1.client.state = w.client.state ∨
      w1.client.state = guac_client_state.GUAC_CLIENT_STOPPING := by
  cases op with
  | broadcast_write buf count =>
    simp only [client_step] at h
    cases hb : __guac_socket_broadcast_write_handler env fuel w buf count with
    | none => simp [hb] at h
    | some r =>
      simp only [hb, Option.map_some', Option.some.injEq] at h
      rw [← h]
      exact Or.inl (broadcast_write_state env fuel w buf count r hb)
  | add_user user argc argv =>
    simp only [client_step, Option.some.injEq] at h
    rw [← h]
    exact Or.inl (add_user_client_state env w user argc argv)
  | remove_user user =>
    simp only [client_step, Option.some.injEq] at h
    rw [← h]
    exact Or.inl (remove_user_client_state w user)
  | end_frame now =>
    simp only [client_step, guac_client_end_frame, guac_protocol_send_sync] at h
    cases hb : __guac_socket_broadcast_write_handler env fuel
        { w with client := { w.client with last_sent_timestamp := now } }
        (env.encode_sync now) (env.encode_sync now).length with
    | none => simp [hb] at h
    | some r =>
      simp only [hb, Option.map_some', Option.some.injEq] at h
      rw [← h]
      have hst := broadcast_write_state env fuel _ _ _ r hb
      exact Or.inl hst
  | abort status format =>
    simp only [client_step, vguac_client_abort] at h
    by_cases hrun : w.client.state = guac_client_state.GUAC_CLIENT_RUNNING
    · rw [if_pos hrun] at h
      simp only [guac_protocol_send_error] at h
      cases hb : __guac_socket_broadcast_write_handler env fuel
          (vguac_client_log w guac_client_log_level.GUAC_LOG_ERROR format)
          (env.encode_error "Aborted. See logs." status)
          (env.encode_error "Aborted. See logs." status).length with
      | none => simp [hb] at h
      | some r =>
        simp only [hb, Option.map_some', Option.some.injEq] at h
        rw [← h]
        exact Or.inr rfl
    · rw [if_neg hrun, Option.some.injEq] at h
      rw [← h]
      exact Or.inl rfl
  | suspend_user user =>
    simp only [client_step, Option.some.injEq] at h
    rw [← h, (suspend_user_exact w user).2.2]
    exact Or.inl rfl
  | resume_user user =>
    simp only [client_step, Option.some.injEq] at h
    rw [← h, (resume_user_exact w user).2.2]
    exact Or.inl rfl
  | stop =>
    simp only [client_step, Option.some.injEq] at h
    rw [← h]
    exact Or.inr rfl

theorem session_step_state (env : Env) (fuel : Nat) (w w1 : World) (op : SessionOp)
    (hcb : CallbacksKeepState [op]) (h : session_step env fuel w op = some w1) :
    w1.client.state = w.client.state ∨
      w1.client.state = guac_client_state.GUAC_CLIENT_STOPPING := by
  cases op with
  | call op => exact client_step_state env fuel w w1 op h
  | foreach_user callback data =>
    exact Or.inl (foreach_user_state callback data
      (hcb callback data (List.mem_singleton.mpr rfl)) fuel w w1 h)
  | alloc_layer =>
    simp only [session_step, Option.some.injEq] at h
    rw [← h]
    exact Or.inl rfl
  | free_layer layer =>
    simp only [session_step, Option.some.injEq] at h
    rw [← h]
    exact Or.inl rfl
  | alloc_buffer =>
    simp only [session_step, Option.some.injEq] at h
    rw [← h]
    exact Or.inl rfl
  | free_buffer layer =>
    simp only [session_step, Option.some.injEq] at h
    rw [← h]
    exact Or.inl rfl

theorem session_run_state (env : Env) (fuel : Nat) :
    ∀ (ops : List SessionOp) (w w1 : World), CallbacksKeepState ops →
      session_run env fuel w ops = some w1 →
      w1.client.state = w.client.state ∨
        w1.client.state = guac_client_state.GUAC_CLIENT_STOPPING := by
  intro ops
  induction ops with
  | nil =>
    intro w w1 _ h
    simp only [session_run, Option.some.injEq] at h
    rw [← h]
    exact Or.inl rfl
  | cons op ops ih =>
    intro w w1 hcb h
    simp only [session_run] at h
    cases hs : session_step env fuel w op with
    | none => simp [hs] at h
    | some w2 =>
      simp only [hs] at h
      have h1 := session_step_state env fuel w w2 op
        (fun cb d hm => hcb cb d (by
          rw [List.mem_singleton] at hm
          rw [hm]
          exact List.mem_cons_self _ _)) hs
      have h2 := ih w2 w1 (fun cb d hm => hcb cb d (List.mem_cons_of_mem _ hm)) h
      rcases h2 with h2 | h2
      · rcases h1 with h1 | h1
        · exact Or.inl (h2.trans h1)
        · exact Or.inr (h2.trans h1)
      · exact Or.inr h2

/-- C20: let `client->state` be `GUAC_CLIENT_STOPPING`.  After any sequence of
operations of `client.c` (stop, abort, `add_user`, `remove_user`,
`suspend_user`, `resume_user`, `foreach_user`, `end_frame`, allocation and
release of layers and buffers, broadcast writes), the state is still
`GUAC_CLIENT_STOPPING`: no operation sets it back to `GUAC_CLIENT_RUNNING`.
More generally a sequence leaves the state as it found it or stopping.  The
callbacks given to `guac_client_foreach_user` are assumed not to write
`client->state`. -/
theorem C20_client_state_is_monotone (env : Env) (fuel : Nat) (w w1 : World)
    (ops : List SessionOp) (hcb : CallbacksKeepState ops)
    (hrun : session_run env fuel w ops = some w1) :
    (w.client.state = guac_client_state.GUAC_CLIENT_STOPPING →
        w1.client.state = guac_client_state.GUAC_CLIENT_STOPPING) ∧
      (w1.client.state = w.client.state ∨
        w1.client.state = guac_client_state.GUAC_CLIENT_STOPPING) := by
  have h := session_run_state env fuel ops w w1 hcb hrun
  refine ⟨?_, h⟩
  intro hstop
  rcases h with h | h
  · exact h.trans hstop
  · exact h

theorem every_kind_callbacks : CallbacksKeepState every_kind_ops := by
  intro callback data hmem u d w
  simp only [every_kind_ops, List.mem_cons, List.mem_singleton, SessionOp.foreach_user.injEq,
    List.not_mem_nil, or_false, false_or, reduceCtorEq] at hmem
  rw [hmem.1]
  rfl

/-- C20 at a concrete input: a stopped client on which one operation of every
kind is then performed. -/
theorem C20_client_state_witness :
    CallbacksKeepState every_kind_ops ∧
      ∃ w1, session_run calm_env 3 (guac_client_stop fresh_world) every_kind_ops = some w1 ∧
        ((guac_client_stop fresh_world).client.state = guac_client_state.GUAC_CLIENT_STOPPING →
          w1.client.state = guac_client_state.GUAC_CLIENT_STOPPING) ∧
        (w1.client.state = (guac_client_stop fresh_world).client.state ∨
          w1.client.state = guac_client_state.GUAC_CLIENT_STOPPING) := by
  refine ⟨every_kind_callbacks, ?_⟩
  cases h : session_run calm_env 3 (guac_client_stop fresh_world) every_kind_ops with
  | none =>
    have : (session_run calm_env 3 (guac_client_stop fresh_world) every_kind_ops).isSome
        = true := by decide
    rw [h] at this
    cases this
  | some w1 =>
    exact ⟨w1, rfl,
      C20_client_state_is_monotone calm_env 3 (guac_client_stop fresh_world) w1 every_kind_ops
        every_kind_callbacks h⟩


/-! ## The exact shape of one fan-out -/

/-- The events the callback makes over the users `l`: writes on user sockets
and stops of users only, with one write per user, in order. -/
theorem write_chunk_fold_events (env : Env) (chunk : __write_chunk) :
    ∀ (l : List UserPtr) (w : World),
      ∃ inner, (l.foldl (fun acc u => __write_chunk_callback env u chunk acc) w).trace =
          w.trace ++ inner ∧
        (∀ e ∈ inner, is_socket_write e = true ∨ is_user_stop e = true) ∧
        inner.filter is_socket_write =
          l.map (fun u => Event.socket_write (w.users u).socket chunk.buffer chunk.length) := by
  intro l
  induction l with
  | nil => intro w; exact ⟨[], by simp, (fun e he => (by cases he)), rfl⟩
  | cons u t ih =>
    intro w
    obtain ⟨inner, htr, hev, hfil⟩ := ih (__write_chunk_callback env u chunk w)
    have hf := write_chunk_callback_fields env u chunk w
    have hone := write_chunk_callback_trace_eq env u chunk w
    simp only [List.foldl_cons]
    refine ⟨Event.socket_write (w.users u).socket chunk.buffer chunk.length ::
      ((if env.socket_write_result (w.users u).socket chunk.buffer chunk.length w.trace ≠ 0
          then [Event.user_stop u] else []) ++ inner), ?_, ?_, ?_⟩
    · rw [htr, hone]
      simp
    · intro e he
      rcases List.mem_cons.mp he with h | h
      · left; rw [h]; rfl
      · rcases List.mem_append.mp h with h1 | h1
        · right
          by_cases hr :
              env.socket_write_result (w.users u).socket chunk.buffer chunk.length w.trace = 0
          · simp [hr] at h1
          · simp [hr] at h1
            rw [h1]; rfl
        · exact hev e h1
    · have hstop : (if env.socket_write_result (w.users u).socket chunk.buffer chunk.length
          w.trace ≠ 0 then [Event.user_stop u] else []).filter is_socket_write = [] := by
        by_cases hr :
            env.socket_write_result (w.users u).socket chunk.buffer chunk.length w.trace = 0
        · simp [hr]
        · simp [hr, is_socket_write]
      rw [List.filter_cons, List.filter_append, hstop, hfil]
      simp only [is_socket_write, if_true, List.nil_append, List.map_cons]
      congr 1
      apply List.map_congr_left
      intro v _
      rw [(hf v).2.2.1]

/-- One broadcast write on a well-formed list, event by event: the users lock
is taken, every running user gets the chunk once (a user whose write failed is
stopped right after it), the lock is released; the client is not changed. -/
theorem broadcast_write_shape (env : Env) (fuel : Nat) (w : World) (l : List UserPtr)
    (buf : List Nat) (count : Nat) (hwf : WellFormed w l) (hfuel : l.length ≤ fuel) :
    ∃ w1 inner,
      __guac_socket_broadcast_write_handler env fuel w buf count = some (to_ssize_t count, w1) ∧
      w1.trace = w.trace ++ (Event.mutex_lock :: inner ++ [Event.mutex_unlock]) ∧
      (∀ e ∈ inner, is_socket_write e = true ∨ is_user_stop e = true) ∧
      inner.filter is_socket_write =
        (running_users w l).map (fun u => Event.socket_write (w.users u).socket buf count) ∧
      WellFormed w1 l ∧ w1.client = w.client ∧
      ∀ v, (w1.users v).state = (w.users v).state ∧ (w1.users v).socket = (w.users v).socket := by
  obtain ⟨w1, hret, _, hwf1, hcl, hst⟩ := broadcast_write_spec env fuel w l buf count hwf hfuel
  have hchain : NextChain (emit w Event.mutex_lock).users
      (emit w Event.mutex_lock).client.__users l := NextChain_of_DList _ l none _ hwf
  have hloop := foreach_loop_spec (__write_chunk_callback env) { buffer := buf, length := count }
    (fun u d w1 v => ⟨(write_chunk_callback_fields env u d w1 v).1,
      (write_chunk_callback_fields env u d w1 v).2.1⟩)
    l _ (emit w Event.mutex_lock) fuel hchain hfuel
  obtain ⟨inner, htr, hev, hfil⟩ :=
    write_chunk_fold_events env { buffer := buf, length := count }
      (running_users (emit w Event.mutex_lock) l) (emit w Event.mutex_lock)
  have hret2 : __guac_socket_broadcast_write_handler env fuel w buf count =
      some (to_ssize_t count, emit ((running_users (emit w Event.mutex_lock) l).foldl
        (fun acc u => __write_chunk_callback env u { buffer := buf, length := count } acc)
        (emit w Event.mutex_lock)) Event.mutex_unlock) := by
    unfold __guac_socket_broadcast_write_handler guac_client_foreach_user
    show Option.map _ (Option.map _ (foreach_loop (__write_chunk_callback env)
      { buffer := buf, length := count } fuel (emit w Event.mutex_lock).client.__users
      (emit w Event.mutex_lock))) = _
    rw [hloop]
    rfl
  have hw1 : w1 = emit ((running_users (emit w Event.mutex_lock) l).foldl
        (fun acc u => __write_chunk_callback env u { buffer := buf, length := count } acc)
        (emit w Event.mutex_lock)) Event.mutex_unlock := by
    rw [hret] at hret2
    injection hret2 with h
    injection h
  refine ⟨w1, inner, hret, ?_, hev, ?_, hwf1, hcl, hst⟩
  · rw [hw1, emit_trace, htr, emit_trace]
    simp
  · rw [hfil]
    rfl

/-! ## Abort and stop -/

/-- An abort of a running client, event by event: the log handler (if set),
one fan-out of the encoded error, the flush of the broadcast socket; only the
state of the client changes. -/
theorem abort_running_shape (env : Env) (fuel : Nat) (w : World) (l : List UserPtr)
    (status : Int) (format : String)
    (hrun : w.client.state = guac_client_state.GUAC_CLIENT_RUNNING)
    (hwf : WellFormed w l) (hfuel : l.length ≤ fuel) :
    ∃ w1 inner, vguac_client_abort env fuel w status format = some w1 ∧
      w1.trace = w.trace ++
        (log_events w guac_client_log_level.GUAC_LOG_ERROR format ++
          (Event.mutex_lock :: inner ++ [Event.mutex_unlock]) ++
          [Event.socket_flush w.client.socket]) ∧
      (∀ e ∈ inner, is_socket_write e = true ∨ is_user_stop e = true) ∧
      inner.filter is_socket_write =
        (running_users w l).map (fun u => Event.socket_write (w.users u).socket
          (env.encode_error "Aborted. See logs." status)
          (env.encode_error "Aborted. See logs." status).length) ∧
      w1.client = { w.client with state := guac_client_state.GUAC_CLIENT_STOPPING } ∧
      WellFormed w1 l ∧
      ∀ v, (w1.users v).state = (w.users v).state ∧ (w1.users v).socket = (w.users v).socket := by
  obtain ⟨hltr, hlus, hlcl⟩ := client_log_trace w guac_client_log_level.GUAC_LOG_ERROR format
  have hwfl : WellFormed (vguac_client_log w guac_client_log_level.GUAC_LOG_ERROR format) l := by
    unfold WellFormed at hwf ⊢
    rw [hlus, hlcl]
    exact hwf
  obtain ⟨w1, inner, hret, htr, hev, hfil, hwf1, hcl, hst⟩ :=
    broadcast_write_shape env fuel _ l (env.encode_error "Aborted. See logs." status)
      (env.encode_error "Aborted. See logs." status).length hwfl hfuel
  refine ⟨guac_client_stop (guac_socket_flush w1 w1.client.socket), inner, ?_, ?_, hev, ?_, ?_,
    ?_, ?_⟩
  · unfold vguac_client_abort guac_protocol_send_error
    simp only [hrun, if_true, hret, Option.map_some']
  · unfold guac_client_stop guac_socket_flush
    simp only [emit_trace, htr, hltr, hcl, hlcl, List.append_assoc]
  · rw [hfil]
    unfold running_users
    rw [hlus]
  · unfold guac_client_stop guac_socket_flush
    simp only [emit_client, hcl, hlcl]
  · unfold WellFormed at hwf1 ⊢
    exact hwf1
  · intro v
    have h := hst v
    rw [hlus] at h
    exact h

/-- An abort of a client that is stopping does nothing at all. -/
theorem abort_stopping (env : Env) (fuel : Nat) (w : World) (status : Int) (format : String)
    (hstop : w.client.state = guac_client_state.GUAC_CLIENT_STOPPING) :
    vguac_client_abort env fuel w status format = some w := by
  unfold vguac_client_abort
  simp [hstop]

/-- Whatever an abort returns is a stopping client. -/
theorem abort_result_stopping (env : Env) (fuel : Nat) (w w1 : World) (status : Int)
    (format : String) (hstop : w.client.state = guac_client_state.GUAC_CLIENT_STOPPING ∨
      w.client.state = guac_client_state.GUAC_CLIENT_RUNNING)
    (h : vguac_client_abort env fuel w status format = some w1) :
    w1.client.state = guac_client_state.GUAC_CLIENT_STOPPING := by
  rcases hstop with hs | hr
  · rw [abort_stopping env fuel w status format hs] at h
    injection h with h
    rw [← h]; exact hs
  · unfold vguac_client_abort at h
    simp only [hr, if_true] at h
    cases hsend : guac_protocol_send_error env fuel
        (vguac_client_log w guac_client_log_level.GUAC_LOG_ERROR format)
        "Aborted. See logs." status with
    | none => simp [hsend] at h
    | some r =>
      simp only [hsend, Option.some.injEq] at h
      rw [← h]
      rfl

theorem client_state_cases (s : guac_client_state) :
    s = guac_client_state.GUAC_CLIENT_STOPPING ∨ s = guac_client_state.GUAC_CLIENT_RUNNING := by
  cases s
  · right; rfl
  · left; rfl

/-- A run of aborts on a stopping client leaves it as it is. -/
theorem abort_run_stopping (env : Env) (fuel : Nat) :
    ∀ (aborts : List (Int × String)) (w : World),
      w.client.state = guac_client_state.GUAC_CLIENT_STOPPING →
      client_run env fuel w (aborts.map (fun p => ClientOp.abort p.1 p.2)) = some w := by
  intro aborts
  induction aborts with
  | nil => intro w _; rfl
  | cons p rest ih =>
    intro w hs
    simp only [List.map_cons, client_run, client_step, abort_stopping env fuel w p.1 p.2 hs]
    exact ih w hs

theorem busy_world_wf : WellFormed busy_world [3, 2, 1] := by decide

/-- Claim C21.  On a running client with a well-formed user list,
`vguac_client_abort` returns, and what it did is, in this order: the message is
handed to the log handler at error level (if one is set), the users lock is
taken and the encoded error instruction carrying `status` is written once to
every running user (one fan-out of the broadcast socket, a user being stopped
right after a failed write), the lock is released, the broadcast socket is
flushed; in the world returned the only field of the client that changed is
`state`, now `GUAC_CLIENT_STOPPING`. -/
theorem C21_abort_logs_sends_flushes_stops (env : Env) (fuel : Nat) (w : World)
    (l : List UserPtr) (status : Int) (format : String)
    (hrun : w.client.state = guac_client_state.GUAC_CLIENT_RUNNING)
    (hwf : WellFormed w l) (hfuel : l.length ≤ fuel) :
    ∃ w1 inner, vguac_client_abort env fuel w status format = some w1 ∧
      events_since w.trace.length w1 =
        log_events w guac_client_log_level.GUAC_LOG_ERROR format ++
          (Event.mutex_lock :: inner ++ [Event.mutex_unlock]) ++
          [Event.socket_flush w.client.socket] ∧
      (∀ e ∈ inner, is_socket_write e = true ∨ is_user_stop e = true) ∧
      inner.filter is_socket_write =
        (running_users w l).map (fun u => Event.socket_write (w.users u).socket
          (env.encode_error "Aborted. See logs." status)
          (env.encode_error "Aborted. See logs." status).length) ∧
      w1.client = { w.client with state := guac_client_state.GUAC_CLIENT_STOPPING } ∧
      w1.client.state = guac_client_state.GUAC_CLIENT_STOPPING := by
  obtain ⟨w1, inner, hret, htr, hev, hfil, hcl, _, _⟩ :=
    abort_running_shape env fuel w l status format hrun hwf hfuel
  refine ⟨w1, inner, hret, ?_, hev, hfil, hcl, ?_⟩
  · unfold events_since
    rw [htr, List.drop_left]
  · rw [hcl]

/-- C21 at a concrete input: three users, a log handler at 70; the abort with
status 519 logs, writes the error to the sockets 103, 102 and 101, flushes the
broadcast socket 0 and leaves the client stopping. -/
theorem C21_abort_witness :
    busy_world.client.state = guac_client_state.GUAC_CLIENT_RUNNING ∧
      WellFormed busy_world [3, 2, 1] ∧ [3, 2, 1].length ≤ 3 ∧
      (∃ w1 inner, vguac_client_abort calm_env 3 busy_world 519 "boom" = some w1 ∧
        events_since busy_world.trace.length w1 =
          log_events busy_world guac_client_log_level.GUAC_LOG_ERROR "boom" ++
            (Event.mutex_lock :: inner ++ [Event.mutex_unlock]) ++
            [Event.socket_flush busy_world.client.socket] ∧
        (∀ e ∈ inner, is_socket_write e = true ∨ is_user_stop e = true) ∧
        inner.filter is_socket_write =
          (running_users busy_world [3, 2, 1]).map (fun u =>
            Event.socket_write (busy_world.users u).socket
              (calm_env.encode_error "Aborted. See logs." 519)
              (calm_env.encode_error "Aborted. See logs." 519).length) ∧
        w1.client =
          { busy_world.client with state := guac_client_state.GUAC_CLIENT_STOPPING } ∧
        w1.client.state = guac_client_state.GUAC_CLIENT_STOPPING) ∧
      (vguac_client_abort calm_env 3 busy_world 519 "boom").map
          (events_since busy_world.trace.length) =
        some [Event.log_handler 70 guac_client_log_level.GUAC_LOG_ERROR "boom",
          Event.mutex_lock, Event.socket_write 103 [101, 519] 2,
          Event.socket_write 102 [101, 519] 2, Event.socket_write 101 [101, 519] 2,
          Event.mutex_unlock, Event.socket_flush 0] :=
  ⟨by decide, busy_world_wf, by decide,
    C21_abort_logs_sends_flushes_stops calm_env 3 busy_world [3, 2, 1] 519 "boom" (by decide)
      busy_world_wf (by decide),
    by decide⟩

/-- Claim C22.  `guac_client_stop` twice is `guac_client_stop` once; an abort
of a client that is stopping (here: after a stop, or after any abort that
returned) returns the world it was given, so it logs nothing, sends nothing,
flushes nothing and changes no field; a run of aborts is its first abort; and
on a well-formed list a run of aborts returns, having taken the users lock for
a fan-out at most once (at most one error instruction). -/
theorem C22_stop_and_abort_idempotent (env : Env) (fuel : Nat) (w : World)
    (l : List UserPtr) (aborts : List (Int × String))
    (hwf : WellFormed w l) (hfuel : l.length ≤ fuel) :
    guac_client_stop (guac_client_stop w) = guac_client_stop w ∧
      (∀ status format,
        vguac_client_abort env fuel (guac_client_stop w) status format =
          some (guac_client_stop w)) ∧
      (∀ status format w1, vguac_client_abort env fuel w status format = some w1 →
        ∀ status2 format2, vguac_client_abort env fuel w1 status2 format2 = some w1) ∧
      (∀ (p : Int × String) (rest : List (Int × String)), client_run env fuel w ((p :: rest).map (fun q => ClientOp.abort q.1 q.2)) =
        vguac_client_abort env fuel w p.1 p.2) ∧
      ∃ w2, client_run env fuel w (aborts.map (fun q => ClientOp.abort q.1 q.2)) = some w2 ∧
        (events_since w.trace.length w2).count Event.mutex_lock ≤ 1 ∧
        (w.client.state = guac_client_state.GUAC_CLIENT_STOPPING → w2 = w) := by
  have hfirst : ∀ (p : Int × String) (rest : List (Int × String)),
      client_run env fuel w ((p :: rest).map (fun q => ClientOp.abort q.1 q.2)) =
        vguac_client_abort env fuel w p.1 p.2 := by
    intro p rest
    simp only [List.map_cons, client_run, client_step]
    cases ha : vguac_client_abort env fuel w p.1 p.2 with
    | none => rfl
    | some w1 =>
      exact abort_run_stopping env fuel rest w1
        (abort_result_stopping env fuel w w1 p.1 p.2 (client_state_cases _) ha)
  refine ⟨rfl, ?_, ?_, hfirst, ?_⟩
  · intro status format
    exact abort_stopping env fuel _ status format rfl
  · intro status format w1 h status2 format2
    exact abort_stopping env fuel w1 status2 format2
      (abort_result_stopping env fuel w w1 status format (client_state_cases _) h)
  · cases aborts with
    | nil =>
      refine ⟨w, rfl, ?_, fun _ => rfl⟩
      simp [events_since]
    | cons p rest =>
      rw [hfirst p rest]
      rcases client_state_cases w.client.state with hs | hr
      · refine ⟨w, abort_stopping env fuel w p.1 p.2 hs, ?_, fun _ => rfl⟩
        simp [events_since]
      · obtain ⟨w1, inner, hret, htr, hev, _, _, _, _⟩ :=
          abort_running_shape env fuel w l p.1 p.2 hr hwf hfuel
        refine ⟨w1, hret, ?_, ?_⟩
        · have hinner : inner.count Event.mutex_lock = 0 := by
            rw [List.count_eq_zero]
            intro hmem
            rcases hev _ hmem with h | h
            · simp [is_socket_write] at h
            · simp [is_user_stop] at h
          have hlog : (log_events w guac_client_log_level.GUAC_LOG_ERROR p.2).count
              Event.mutex_lock = 0 := by
            unfold log_events
            cases w.client.log_handler with
            | none => rfl
            | some fn => simp
          unfold events_since
          rw [htr, List.drop_left]
          simp only [List.count_append, List.count_cons, List.count_nil, hinner, hlog]
          simp
        · intro hs
          rw [hr] at hs
          cases hs

/-- C22 at a concrete input: three aborts in a row on the running client with
three users make the events of the first abort only, and a fourth abort on the
result changes nothing. -/
theorem C22_stop_and_abort_witness :
    WellFormed busy_world [3, 2, 1] ∧ [3, 2, 1].length ≤ 3 ∧
      (guac_client_stop (guac_client_stop busy_world) = guac_client_stop busy_world ∧
        (∀ status format,
          vguac_client_abort calm_env 3 (guac_client_stop busy_world) status format =
            some (guac_client_stop busy_world)) ∧
        (∀ status format w1, vguac_client_abort calm_env 3 busy_world status format = some w1 →
          ∀ status2 format2, vguac_client_abort calm_env 3 w1 status2 format2 = some w1) ∧
        (∀ (p : Int × String) (rest : List (Int × String)),
          client_run calm_env 3 busy_world
              ((p :: rest).map (fun q => ClientOp.abort q.1 q.2)) =
            vguac_client_abort calm_env 3 busy_world p.1 p.2) ∧
        ∃ w2, client_run calm_env 3 busy_world
              ([((519 : Int), "boom"), (520, "again"), (521, "more")].map
                (fun q => ClientOp.abort q.1 q.2)) = some w2 ∧
          (events_since busy_world.trace.length w2).count Event.mutex_lock ≤ 1 ∧
          (busy_world.client.state = guac_client_state.GUAC_CLIENT_STOPPING →
            w2 = busy_world)) ∧
      (client_run calm_env 3 busy_world
          [ClientOp.abort 519 "boom", ClientOp.abort 520 "again", ClientOp.abort 521 "more"]).map
          (events_since busy_world.trace.length) =
        some [Event.log_handler 70 guac_client_log_level.GUAC_LOG_ERROR "boom",
          Event.mutex_lock, Event.socket_write 103 [101, 519] 2,
          Event.socket_write 102 [101, 519] 2, Event.socket_write 101 [101, 519] 2,
          Event.mutex_unlock, Event.socket_flush 0] :=
  ⟨busy_world_wf, by decide,
    C22_stop_and_abort_idempotent calm_env 3 busy_world [3, 2, 1]
      [((519 : Int), "boom"), (520, "again"), (521, "more")] busy_world_wf (by decide),
    by decide⟩

/-- Claim C23.  Two aborts of the same running client with the same status and
different log messages both return, and the writes they make on the user
sockets are the same list: for every running user, in list order, the encoding
of the error instruction with the fixed text `Aborted. See logs.` and the
status as it was passed in. -/
theorem C23_abort_bytes_ignore_the_message (env : Env) (fuel : Nat) (w : World)
    (l : List UserPtr) (status : Int) (format1 format2 : String)
    (hrun : w.client.state = guac_client_state.GUAC_CLIENT_RUNNING)
    (hwf : WellFormed w l) (hfuel : l.length ≤ fuel) :
    ∃ w1 w2, vguac_client_abort env fuel w status format1 = some w1 ∧
      vguac_client_abort env fuel w status format2 = some w2 ∧
      writes_since w.trace.length w1 = writes_since w.trace.length w2 ∧
      writes_since w.trace.length w1 =
        (running_users w l).map (fun u => Event.socket_write (w.users u).socket
          (env.encode_error "Aborted. See logs." status)
          (env.encode_error "Aborted. See logs." status).length) := by
  have hwrites : ∀ format w1 inner,
      w1.trace = w.trace ++
        (log_events w guac_client_log_level.GUAC_LOG_ERROR format ++
          (Event.mutex_lock :: inner ++ [Event.mutex_unlock]) ++
          [Event.socket_flush w.client.socket]) →
      writes_since w.trace.length w1 = inner.filter is_socket_write := by
    intro format w1 inner htr
    unfold writes_since
    rw [htr, List.drop_left]
    have hlog : (log_events w guac_client_log_level.GUAC_LOG_ERROR format).filter
        is_socket_write = [] := by
      unfold log_events
      cases w.client.log_handler with
      | none => rfl
      | some fn => simp [is_socket_write]
    simp [List.filter_append, hlog, is_socket_write, List.filter_cons]
  obtain ⟨w1, inner1, hret1, htr1, _, hfil1, _, _, _⟩ :=
    abort_running_shape env fuel w l status format1 hrun hwf hfuel
  obtain ⟨w2, inner2, hret2, htr2, _, hfil2, _, _, _⟩ :=
    abort_running_shape env fuel w l status format2 hrun hwf hfuel
  refine ⟨w1, w2, hret1, hret2, ?_, ?_⟩
  · rw [hwrites format1 w1 inner1 htr1, hwrites format2 w2 inner2 htr2, hfil1, hfil2]
  · rw [hwrites format1 w1 inner1 htr1, hfil1]

/-- C23 at a concrete input: the aborts with the messages `disk full` and
`password of admin rejected` write the same bytes to the three users. -/
theorem C23_abort_bytes_witness :
    busy_world.client.state = guac_client_state.GUAC_CLIENT_RUNNING ∧
      WellFormed busy_world [3, 2, 1] ∧ [3, 2, 1].length ≤ 3 ∧
      (∃ w1 w2, vguac_client_abort calm_env 3 busy_world 519 "disk full" = some w1 ∧
        vguac_client_abort calm_env 3 busy_world 519 "password of admin rejected" = some w2 ∧
        writes_since busy_world.trace.length w1 = writes_since busy_world.trace.length w2 ∧
        writes_since busy_world.trace.length w1 =
          (running_users busy_world [3, 2, 1]).map (fun u =>
            Event.socket_write (busy_world.users u).socket
              (calm_env.encode_error "Aborted. See logs." 519)
              (calm_env.encode_error "Aborted. See logs." 519).length)) ∧
      (vguac_client_abort calm_env 3 busy_world 519 "password of admin rejected").map
          (writes_since busy_world.trace.length) =
        some [Event.socket_write 103 [101, 519] 2, Event.socket_write 102 [101, 519] 2,
          Event.socket_write 101 [101, 519] 2] :=
  ⟨by decide, busy_world_wf, by decide,
    C23_abort_bytes_ignore_the_message calm_env 3 busy_world [3, 2, 1] 519 "disk full"
      "password of admin rejected" (by decide) busy_world_wf (by decide),
    by decide⟩

/-! ## End of frame -/

/-- Claim C24.  On a well-formed user list `guac_client_end_frame` returns; it
has stored the current time `now` in `last_sent_timestamp` (no other field of
the client changes), made exactly one fan-out on the broadcast socket (lock,
one write per running user, unlock), and the instruction written is the sync
instruction encoded from the value found in `last_sent_timestamp`; the value
returned is the result of that send, unchanged: zero when the send reports
zero, the non-zero result of the send otherwise. -/
theorem C24_end_frame_sends_one_sync (env : Env) (fuel : Nat) (w : World) (l : List UserPtr)
    (now : Int) (hwf : WellFormed w l) (hfuel : l.length ≤ fuel) :
    ∃ ret w1 inner, guac_client_end_frame env fuel w now = some (ret, w1) ∧
      w1.client = { w.client with last_sent_timestamp := now } ∧
      w1.client.last_sent_timestamp = now ∧
      events_since w.trace.length w1 = Event.mutex_lock :: inner ++ [Event.mutex_unlock] ∧
      (∀ e ∈ inner, is_socket_write e = true ∨ is_user_stop e = true) ∧
      inner.filter is_socket_write =
        (running_users w l).map (fun u => Event.socket_write (w.users u).socket
          (env.encode_sync w1.client.last_sent_timestamp)
          (env.encode_sync w1.client.last_sent_timestamp).length) ∧
      guac_protocol_send_sync env fuel
          { w with client := { w.client with last_sent_timestamp := now } } now =
        some (ret, w1) ∧
      ret = env.send_result (env.encode_sync now) w1.trace ∧
      (env.send_result (env.encode_sync now) w1.trace = 0 → ret = 0) ∧
      (env.send_result (env.encode_sync now) w1.trace ≠ 0 → ret ≠ 0) := by
  have hwf0 : WellFormed { w with client := { w.client with last_sent_timestamp := now } } l := by
    unfold WellFormed at hwf ⊢
    exact hwf
  obtain ⟨w1, inner, hret, htr, hev, hfil, _, hcl, _⟩ :=
    broadcast_write_shape env fuel _ l (env.encode_sync now) (env.encode_sync now).length
      hwf0 hfuel
  have hsend : guac_protocol_send_sync env fuel
      { w with client := { w.client with last_sent_timestamp := now } } now =
        some (env.send_result (env.encode_sync now) w1.trace, w1) := by
    unfold guac_protocol_send_sync
    simp only [hret, Option.map_some']
  have hts : w1.client.last_sent_timestamp = now := by rw [hcl]
  refine ⟨env.send_result (env.encode_sync now) w1.trace, w1, inner, ?_, hcl, hts, ?_, hev, ?_,
    hsend, rfl, fun h => h, fun h => h⟩
  · unfold guac_client_end_frame
    exact hsend
  · unfold events_since
    rw [htr]
    exact List.drop_left _ _
  · rw [hfil, hts]
    rfl

/-- C24 at a concrete input: three users, the current time is 7.  When the send
reports 3 the call returns 3, when it reports 0 the call returns 0; both times
the sync instruction carrying 7 is written once to each user and 7 is stored. -/
theorem C24_end_frame_witness :
    WellFormed three_users_world [3, 2, 1] ∧ [3, 2, 1].length ≤ 3 ∧
      (∃ ret w1 inner, guac_client_end_frame failing_send_env 3 three_users_world 7 =
          some (ret, w1) ∧
        w1.client = { three_users_world.client with last_sent_timestamp := 7 } ∧
        w1.client.last_sent_timestamp = 7 ∧
        events_since three_users_world.trace.length w1 =
          Event.mutex_lock :: inner ++ [Event.mutex_unlock] ∧
        (∀ e ∈ inner, is_socket_write e = true ∨ is_user_stop e = true) ∧
        inner.filter is_socket_write =
          (running_users three_users_world [3, 2, 1]).map (fun u =>
            Event.socket_write (three_users_world.users u).socket
              (failing_send_env.encode_sync w1.client.last_sent_timestamp)
              (failing_send_env.encode_sync w1.client.last_sent_timestamp).length) ∧
        guac_protocol_send_sync failing_send_env 3
            { three_users_world with
              client := { three_users_world.client with last_sent_timestamp := 7 } } 7 =
          some (ret, w1) ∧
        ret = failing_send_env.send_result (failing_send_env.encode_sync 7) w1.trace ∧
        (failing_send_env.send_result (failing_send_env.encode_sync 7) w1.trace = 0 → ret = 0) ∧
        (failing_send_env.send_result (failing_send_env.encode_sync 7) w1.trace ≠ 0 →
          ret ≠ 0)) ∧
      (guac_client_end_frame failing_send_env 3 three_users_world 7).map
          (fun r => (r.1, r.2.client.last_sent_timestamp,
            events_since three_users_world.trace.length r.2)) =
        some (3, 7, [Event.mutex_lock, Event.socket_write 103 [115, 7] 2,
          Event.socket_write 102 [115, 7] 2, Event.socket_write 101 [115, 7] 2,
          Event.mutex_unlock]) ∧
      (guac_client_end_frame calm_env 3 three_users_world 7).map (fun r => r.1) = some 0 :=
  ⟨three_users_wf, by decide,
    C24_end_frame_sends_one_sync failing_send_env 3 three_users_world [3, 2, 1] 7
      three_users_wf (by decide),
    by decide, by decide⟩

/-! ## The effect of a removal -/

/-- On a well-formed list `guac_client_foreach_user` returns, having called the
callback on the running members in list order between lock and unlock. -/
theorem foreach_user_visits {δ : Type} (w : World) (l : List UserPtr)
    (callback : UserPtr → δ → World → World) (data : δ) (fuel : Nat)
    (hwf : WellFormed w l)
    (hframe : ∀ u d w1 v, ((callback u d w1).users v).__next = (w1.users v).__next ∧
      ((callback u d w1).users v).state = (w1.users v).state)
    (hfuel : l.length ≤ fuel) :
    guac_client_foreach_user fuel w callback data =
      some (emit ((running_users w l).foldl (fun acc u => callback u data acc)
        (emit w Event.mutex_lock)) Event.mutex_unlock) := by
  unfold guac_client_foreach_user
  have hchain : NextChain (emit w Event.mutex_lock).users
      (emit w Event.mutex_lock).client.__users l := NextChain_of_DList _ l none _ hwf
  show Option.map (fun w2 => emit w2 Event.mutex_unlock)
      (foreach_loop callback data fuel (emit w Event.mutex_lock).client.__users
        (emit w Event.mutex_lock)) = _
  rw [foreach_loop_spec callback data hframe l _ (emit w Event.mutex_lock) fuel hchain hfuel]
  rfl

/-- Claim C25.  Removing a member `u` of a well-formed list `l` leaves the
well-formed list `l.erase u`: this is `l` with `u` filtered out, so the other
users stay, in the same relative order, and `u` is not in it; no user state
changes; a later `guac_client_foreach_user` calls the callback on the running
users of `l.erase u` only, hence never on `u`; `connected_users` is one less. -/
theorem C25_remove_user_deletes_exactly_that_user {δ : Type} (w : World) (l : List UserPtr)
    (u : UserPtr) (callback : UserPtr → δ → World → World) (data : δ) (fuel : Nat)
    (hwf : WellFormed w l) (hmem : u ∈ l)
    (hframe : ∀ u d w1 v, ((callback u d w1).users v).__next = (w1.users v).__next ∧
      ((callback u d w1).users v).state = (w1.users v).state)
    (hfuel : l.length ≤ fuel) :
    WellFormed (guac_client_remove_user w u) (l.erase u) ∧
      l.erase u = l.filter (fun v => decide (v ≠ u)) ∧
      u ∉ l.erase u ∧
      (∀ v, v ≠ u → (v ∈ l.erase u ↔ v ∈ l)) ∧
      (l.erase u).length + 1 = l.length ∧
      (∀ v, ((guac_client_remove_user w u).users v).state = (w.users v).state) ∧
      guac_client_foreach_user fuel (guac_client_remove_user w u) callback data =
        some (emit ((running_users w (l.erase u)).foldl (fun acc v => callback v data acc)
          (emit (guac_client_remove_user w u) Event.mutex_lock)) Event.mutex_unlock) ∧
      u ∉ running_users w (l.erase u) ∧
      (guac_client_remove_user w u).client.connected_users = w.client.connected_users - 1 := by
  have hnodup : l.Nodup := DList_nodup _ _ _ _ hwf
  have hwf1 := remove_user_wf w u l hwf hmem
  have hfilter : l.erase u = l.filter (fun v => decide (v ≠ u)) := by
    rw [List.Nodup.erase_eq_filter hnodup]
    apply List.filter_congr
    intro v _
    by_cases hv : v = u
    · simp [hv]
    · simp [hv]
  have hnot : u ∉ l.erase u := by
    rw [hfilter]
    simp
  have hlen : (l.erase u).length + 1 = l.length := by
    rw [List.length_erase_of_mem hmem]
    have : 0 < l.length := List.length_pos_of_mem hmem
    omega
  refine ⟨hwf1, hfilter, hnot, ?_, hlen, fun v => (remove_user_state w u v).1, ?_, ?_,
    remove_user_count w u⟩
  · intro v hv
    rw [hfilter]
    simp [hv]
  · have h := foreach_user_visits (guac_client_remove_user w u) (l.erase u) callback data fuel
      hwf1 hframe (by omega)
    rw [running_users_congr w (guac_client_remove_user w u) (l.erase u)
      (fun v => (remove_user_state w u v).1)] at h
    exact h
  · intro h
    exact hnot ((mem_running_users w (l.erase u) u).mp h).1

/-- C25 at a concrete input: user 2 is removed from the list 3, 2, 1; the list
is then 3, 1, the callback is called for 3 and 1, and the counter goes from 3
to 2. -/
theorem C25_remove_user_witness :
    WellFormed three_users_world [3, 2, 1] ∧ (2 : UserPtr) ∈ [3, 2, 1] ∧
      (∀ (u : UserPtr) (d : Nat) (w1 : World) (v : UserPtr),
        ((recording_callback 9 u d w1).users v).__next = (w1.users v).__next ∧
          ((recording_callback 9 u d w1).users v).state = (w1.users v).state) ∧
      [3, 2, 1].length ≤ 3 ∧
      (WellFormed (guac_client_remove_user three_users_world 2) ([3, 2, 1].erase 2) ∧
        [3, 2, 1].erase 2 = [3, 2, 1].filter (fun v => decide (v ≠ 2)) ∧
        2 ∉ [3, 2, 1].erase 2 ∧
        (∀ v, v ≠ 2 → (v ∈ [3, 2, 1].erase 2 ↔ v ∈ [3, 2, 1])) ∧
        ([3, 2, 1].erase 2).length + 1 = [3, 2, 1].length ∧
        (∀ v, ((guac_client_remove_user three_users_world 2).users v).state =
          (three_users_world.users v).state) ∧
        guac_client_foreach_user 3 (guac_client_remove_user three_users_world 2)
            (recording_callback 9) 77 =
          some (emit ((running_users three_users_world ([3, 2, 1].erase 2)).foldl
            (fun acc v => recording_callback 9 v 77 acc)
            (emit (guac_client_remove_user three_users_world 2) Event.mutex_lock))
            Event.mutex_unlock) ∧
        2 ∉ running_users three_users_world ([3, 2, 1].erase 2) ∧
        (guac_client_remove_user three_users_world 2).client.connected_users =
          three_users_world.client.connected_users - 1) ∧
      ((guac_client_foreach_user 3 (guac_client_remove_user three_users_world 2)
          (recording_callback 9) 77).map
          (events_since (guac_client_remove_user three_users_world 2).trace.length) =
        some [Event.mutex_lock, Event.user_callback 9 3 77, Event.user_callback 9 1 77,
          Event.mutex_unlock]) ∧
      three_users_world.client.connected_users = 3 ∧
      (guac_client_remove_user three_users_world 2).client.connected_users = 2 :=
  ⟨three_users_wf, by decide, fun _ _ _ _ => ⟨rfl, rfl⟩, by decide,
    C25_remove_user_deletes_exactly_that_user three_users_world [3, 2, 1] 2
      (recording_callback 9) 77 3 three_users_wf (by decide) (fun _ _ _ _ => ⟨rfl, rfl⟩)
      (by decide),
    by decide, by decide, by decide⟩

/-! ## Freeing the client -/

theorem remove_user_unlink_leave (w : World) (user v : UserPtr) :
    ((remove_user_unlink w user).users v).leave_handler = (w.users v).leave_handler := by
  unfold remove_user_unlink
  cases hp : (w.users user).__prev with
  | none =>
    cases hn : (w.users user).__next with
    | none => simp [hn]
    | some n =>
      by_cases hv : v = n
      · subst hv; simp [hn]
      · simp [hn, Function.update_noteq hv]
  | some q =>
    simp only [set_user_users, set_user_client]
    split
    · rename_i n hn
      by_cases hvn : v = n
      · subst hvn
        by_cases hq : v = q
        · subst hq; simp
        · simp [Function.update_noteq hq]
      · by_cases hq : v = q
        · subst hq; simp [Function.update_noteq hvn]
        · simp [Function.update_noteq hvn, Function.update_noteq hq]
    · by_cases hq : v = q
      · subst hq; simp
      · simp [Function.update_noteq hq]

/-- A removal changes only the head pointer and the counter of the client, and
no leave handler of a user. -/
theorem remove_user_keeps (w : World) (user : UserPtr) :
    (guac_client_remove_user w user).client =
        { w.client with
          __users := (guac_client_remove_user w user).client.__users,
          connected_users := w.client.connected_users - 1 } ∧
      ∀ v, ((guac_client_remove_user w user).users v).leave_handler =
        (w.users v).leave_handler := by
  obtain ⟨w2, hu, hc, hshape⟩ := remove_user_shape w user
  rw [hshape]
  simp [remove_user_unlink_client, remove_user_unlink_leave, hu, hc]

/-- The events of the removals of the users `l`, one after the other. -/
theorem remove_fold_spec :
    ∀ (l : List UserPtr) (w : World),
      (l.foldl guac_client_remove_user w).trace =
          w.trace ++ l.flatMap (fun u => [Event.mutex_lock] ++
            spec_handler_calls Event.leave_handler (w.users u).leave_handler
              w.client.leave_handler u ++ [Event.mutex_unlock]) ∧
        (l.foldl guac_client_remove_user w).client =
          { w.client with
            __users := (l.foldl guac_client_remove_user w).client.__users,
            connected_users := w.client.connected_users - (l.length : Int) } ∧
        ∀ v, ((l.foldl guac_client_remove_user w).users v).leave_handler =
          (w.users v).leave_handler := by
  intro l
  induction l with
  | nil => intro w; simp
  | cons u t ih =>
    intro w
    obtain ⟨htr, hcl, hlv⟩ := ih (guac_client_remove_user w u)
    obtain ⟨hc1, hl1⟩ := remove_user_keeps w u
    have hcl_leave : (guac_client_remove_user w u).client.leave_handler =
        w.client.leave_handler := by rw [hc1]
    simp only [List.foldl_cons, List.flatMap_cons]
    refine ⟨?_, ?_, fun v => (hlv v).trans (hl1 v)⟩
    · rw [htr, remove_user_exact w u, hcl_leave]
      simp only [hl1, List.append_assoc]
    · rw [hcl, hc1]
      simp only [List.length_cons, Nat.cast_add, Nat.cast_one]
      congr 1
      omega

/-- The drain loop on a well-formed list: with fuel for every member it
returns after removing the members in list order, each one while it is the
head. -/
theorem free_drain_spec :
    ∀ (l : List UserPtr) (w : World) (fuel : Nat), WellFormed w l → l.length ≤ fuel →
      free_drain fuel w = some (l.foldl guac_client_remove_user w) := by
  intro l
  induction l with
  | nil =>
    intro w fuel hwf _
    have h0 : w.client.__users = none := hwf
    cases fuel <;> simp [free_drain, h0]
  | cons u t ih =>
    intro w fuel hwf hfuel
    have hhead : w.client.__users = some u := hwf.1
    have hwf1 := remove_user_wf w u (u :: t) hwf (List.mem_cons_self u t)
    rw [List.erase_cons_head] at hwf1
    cases fuel with
    | zero => simp at hfuel
    | succ f =>
      simp only [free_drain, hhead, List.foldl_cons]
      exact ih _ f hwf1 (by simpa using hfuel)

/-- After `k` removals the list holds the users not yet removed, so the next
removal takes the head. -/
theorem free_drain_wf :
    ∀ (l : List UserPtr) (w : World), WellFormed w l → ∀ k, k ≤ l.length →
      WellFormed ((l.take k).foldl guac_client_remove_user w) (l.drop k) := by
  intro l
  induction l with
  | nil =>
    intro w hwf k _
    simpa using hwf
  | cons u t ih =>
    intro w hwf k hk
    cases k with
    | zero => simpa using hwf
    | succ j =>
      have hwf1 := remove_user_wf w u (u :: t) hwf (List.mem_cons_self u t)
      rw [List.erase_cons_head] at hwf1
      simp only [List.take_succ_cons, List.foldl_cons, List.drop_succ_cons]
      exact ih _ hwf1 j (by simpa using hk)

/-- What `guac_client_free` does once the users are gone: the free handler (if
set), the two pools, the plugin (if loaded, with an error logged when `dlclose`
fails), the lock, the client itself. -/
theorem client_free_shape (free_result dlclose_result : Int) (fuel : Nat) (w : World)
    (l : List UserPtr) (hwf : WellFormed w l) (hfuel : l.length ≤ fuel) :
    ∃ w2, guac_client_free free_result dlclose_result fuel w = some w2 ∧
      w2.trace = (l.foldl guac_client_remove_user w).trace ++
        ((match w.client.free_handler with
          | some fn => [Event.free_handler fn]
          | none => []) ++
        [Event.pool_free w.client.__buffer_pool, Event.pool_free w.client.__layer_pool] ++
        (match w.client.__plugin_handle with
          | some handle => Event.dlclose handle ::
            (if dlclose_result ≠ 0 then
              log_events w guac_client_log_level.GUAC_LOG_ERROR "Unable to close plugin: %s"
            else [])
          | none => []) ++
        [Event.mutex_destroy, Event.client_free]) := by
  obtain ⟨_, hcl, _⟩ := remove_fold_spec l w
  have hfree : (l.foldl guac_client_remove_user w).client.free_handler =
      w.client.free_handler := by rw [hcl]
  have hbuf : (l.foldl guac_client_remove_user w).client.__buffer_pool =
      w.client.__buffer_pool := by rw [hcl]
  have hlay : (l.foldl guac_client_remove_user w).client.__layer_pool =
      w.client.__layer_pool := by rw [hcl]
  have hplug : (l.foldl guac_client_remove_user w).client.__plugin_handle =
      w.client.__plugin_handle := by rw [hcl]
  have hlog : (l.foldl guac_client_remove_user w).client.log_handler =
      w.client.log_handler := by rw [hcl]
  unfold guac_client_free
  rw [free_drain_spec l w fuel hwf hfuel]
  refine ⟨_, rfl, ?_⟩
  generalize l.foldl guac_client_remove_user w = w1 at hfree hbuf hlay hplug hlog ⊢
  unfold log_events vguac_client_log
  cases hf : w.client.free_handler <;> cases hp : w.client.__plugin_handle <;>
    cases hl : w.client.log_handler <;> by_cases hd : dlclose_result = 0 <;>
    simp [hf, hp, hl, hd, hfree, hbuf, hlay, hplug, hlog, emit]

theorem filter_handler_removals (of_user : UserPtr → Option FnPtr) (of_client : Option FnPtr)
    (l : List UserPtr) :
    (l.flatMap (fun u => [Event.mutex_lock] ++
        spec_handler_calls Event.leave_handler (of_user u) of_client u ++
        [Event.mutex_unlock])).filter is_user_handler =
      l.flatMap (fun u => spec_handler_calls Event.leave_handler (of_user u) of_client u) := by
  induction l with
  | nil => rfl
  | cons u t ih =>
    rw [List.flatMap_cons, List.flatMap_cons, List.filter_append, ih, List.filter_append,
      List.filter_append, filter_handler_leave_calls]
    simp [is_user_handler]

/-- Claim C26.  On a well-formed list of `n` users the drain loop of
`guac_client_free` returns after `n` calls of `guac_client_remove_user`, made
on the users in list order, each one while it is the head of the list (after
`k` calls the list holds the users after the first `k`); the list is then
empty, every user's leave handler (its own, else the client's) has been invoked
once in that order, and `connected_users` is `n` less.  `guac_client_free`
then returns, having invoked the free handler (if set) once, before releasing
the pools, the plugin, the lock and the client; the value the free handler
returned makes no difference to the result. -/
theorem C26_free_drains_users_then_frees (free_result dlclose_result : Int) (fuel : Nat)
    (w : World) (l : List UserPtr) (hwf : WellFormed w l) (hfuel : l.length ≤ fuel) :
    free_drain fuel w = some (l.foldl guac_client_remove_user w) ∧
      (∀ k, k ≤ l.length →
        WellFormed ((l.take k).foldl guac_client_remove_user w) (l.drop k)) ∧
      (l.foldl guac_client_remove_user w).client.__users = none ∧
      events_since w.trace.length (l.foldl guac_client_remove_user w) =
        l.flatMap (fun u => [Event.mutex_lock] ++
          spec_handler_calls Event.leave_handler (w.users u).leave_handler
            w.client.leave_handler u ++ [Event.mutex_unlock]) ∧
      handler_calls_since w.trace.length (l.foldl guac_client_remove_user w) =
        l.flatMap (fun u => spec_handler_calls Event.leave_handler (w.users u).leave_handler
          w.client.leave_handler u) ∧
      (l.foldl guac_client_remove_user w).client.connected_users =
        w.client.connected_users - (l.length : Int) ∧
      ∃ w2, guac_client_free free_result dlclose_result fuel w = some w2 ∧
        events_since (l.foldl guac_client_remove_user w).trace.length w2 =
          (match w.client.free_handler with
            | some fn => [Event.free_handler fn]
            | none => []) ++
          [Event.pool_free w.client.__buffer_pool, Event.pool_free w.client.__layer_pool] ++
          (match w.client.__plugin_handle with
            | some handle => Event.dlclose handle ::
              (if dlclose_result ≠ 0 then
                log_events w guac_client_log_level.GUAC_LOG_ERROR "Unable to close plugin: %s"
              else [])
            | none => []) ++
          [Event.mutex_destroy, Event.client_free] ∧
        ∀ other_result, guac_client_free other_result dlclose_result fuel w = some w2 := by
  obtain ⟨htr, hcl, _⟩ := remove_fold_spec l w
  obtain ⟨w2, hret, htr2⟩ := client_free_shape free_result dlclose_result fuel w l hwf hfuel
  have hend := free_drain_wf l w hwf l.length (le_refl _)
  rw [List.take_length, List.drop_length] at hend
  refine ⟨free_drain_spec l w fuel hwf hfuel, free_drain_wf l w hwf, hend, ?_, ?_, ?_,
    w2, hret, ?_, ?_⟩
  · unfold events_since
    rw [htr, List.drop_left]
  · unfold handler_calls_since
    rw [htr, List.drop_left]
    exact filter_handler_removals (fun u => (w.users u).leave_handler) w.client.leave_handler l
  · rw [hcl]
  · unfold events_since
    rw [htr2, List.drop_left]
  · intro other_result
    rw [← hret]
    rfl

/-- C26 at a concrete input: three users (user 2 with a leave handler of its
own), a free handler that reports the failure 5 and a plugin whose `dlclose`
fails: three removals, then the free handler, the pools, the plugin, the lock
and the client. -/
theorem C26_free_witness :
    WellFormed busy_world [3, 2, 1] ∧ [3, 2, 1].length ≤ 3 ∧
      (free_drain 3 busy_world = some ([3, 2, 1].foldl guac_client_remove_user busy_world) ∧
        (∀ k, k ≤ [3, 2, 1].length →
          WellFormed (([3, 2, 1].take k).foldl guac_client_remove_user busy_world)
            ([3, 2, 1].drop k)) ∧
        ([3, 2, 1].foldl guac_client_remove_user busy_world).client.__users = none ∧
        events_since busy_world.trace.length
            ([3, 2, 1].foldl guac_client_remove_user busy_world) =
          [3, 2, 1].flatMap (fun u => [Event.mutex_lock] ++
            spec_handler_calls Event.leave_handler (busy_world.users u).leave_handler
              busy_world.client.leave_handler u ++ [Event.mutex_unlock]) ∧
        handler_calls_since busy_world.trace.length
            ([3, 2, 1].foldl guac_client_remove_user busy_world) =
          [3, 2, 1].flatMap (fun u =>
            spec_handler_calls Event.leave_handler (busy_world.users u).leave_handler
              busy_world.client.leave_handler u) ∧
        ([3, 2, 1].foldl guac_client_remove_user busy_world).client.connected_users =
          busy_world.client.connected_users - (([3, 2, 1] : List UserPtr).length : Int) ∧
        ∃ w2, guac_client_free 5 1 3 busy_world = some w2 ∧
          events_since ([3, 2, 1].foldl guac_client_remove_user busy_world).trace.length w2 =
            (match busy_world.client.free_handler with
              | some fn => [Event.free_handler fn]
              | none => []) ++
            [Event.pool_free busy_world.client.__buffer_pool,
              Event.pool_free busy_world.client.__layer_pool] ++
            (match busy_world.client.__plugin_handle with
              | some handle => Event.dlclose handle ::
                (if (1 : Int) ≠ 0 then
                  log_events busy_world guac_client_log_level.GUAC_LOG_ERROR
                    "Unable to close plugin: %s"
                else [])
              | none => []) ++
            [Event.mutex_destroy, Event.client_free] ∧
          ∀ other_result, guac_client_free other_result 1 3 busy_world = some w2) ∧
      (guac_client_free 5 1 3 busy_world).map
          (fun w => (events_since busy_world.trace.length w, w.client.connected_users)) =
        some ([Event.mutex_lock, Event.leave_handler HandlerOf.client 71 3, Event.mutex_unlock,
          Event.mutex_lock, Event.leave_handler HandlerOf.user 73 2, Event.mutex_unlock,
          Event.mutex_lock, Event.leave_handler HandlerOf.client 71 1, Event.mutex_unlock,
          Event.free_handler 72, Event.pool_free { allocated := [] },
          Event.pool_free { allocated := [] }, Event.dlclose 9,
          Event.log_handler 70 guac_client_log_level.GUAC_LOG_ERROR "Unable to close plugin: %s",
          Event.mutex_destroy, Event.client_free], 0) :=
  ⟨busy_world_wf, by decide,
    C26_free_drains_users_then_frees 5 1 3 busy_world [3, 2, 1] busy_world_wf (by decide),
    by decide⟩

/-! ## Loading a plugin -/

/-- Claim C27.  The three outcomes of `guac_client_load_plugin`.  When `dlopen`
finds no library the call returns -1 with `guac_error` set to
`GUAC_STATUS_NOT_FOUND`; when the library has no `guac_client_init` it returns
-1 with `GUAC_STATUS_INTERNAL_ERROR`; in both cases the client (so `args` and
`__plugin_handle`) and the users are as before and the init function is not
called.  When the library has an init function, that function is called once,
on a client in which `args` is the empty list and `__plugin_handle` is the
handle of the library and nothing else has changed, and the call returns what
init returned and leaves what init left, assigning no error itself. -/
theorem C27_load_plugin_outcomes (p : PluginEnv) (w : World) (protocol : String) :
    (p.dlopen (protocol_lib p protocol) = none →
      (guac_client_load_plugin p w protocol).retval = -1 ∧
        (guac_client_load_plugin p w protocol).guac_error =
          some guac_status.GUAC_STATUS_NOT_FOUND ∧
        (guac_client_load_plugin p w protocol).world.client = w.client ∧
        (guac_client_load_plugin p w protocol).world.users = w.users ∧
        (guac_client_load_plugin p w protocol).world.trace =
          w.trace ++ [Event.dlopen (protocol_lib p protocol)]) ∧
      (∀ handle, p.dlopen (protocol_lib p protocol) = some handle →
        p.dlsym_init handle = none →
        (guac_client_load_plugin p w protocol).retval = -1 ∧
          (guac_client_load_plugin p w protocol).guac_error =
            some guac_status.GUAC_STATUS_INTERNAL_ERROR ∧
          (guac_client_load_plugin p w protocol).world.client = w.client ∧
          (guac_client_load_plugin p w protocol).world.users = w.users ∧
          (guac_client_load_plugin p w protocol).world.trace =
            w.trace ++ [Event.dlopen (protocol_lib p protocol),
              Event.dlsym handle "guac_client_init"]) ∧
      (∀ handle init, p.dlopen (protocol_lib p protocol) = some handle →
        p.dlsym_init handle = some init →
        ∃ w3 : World,
          w3.client = { w.client with args := [], __plugin_handle := some handle } ∧
          w3.users = w.users ∧
          w3.trace = w.trace ++ [Event.dlopen (protocol_lib p protocol),
            Event.dlsym handle "guac_client_init", Event.client_init init] ∧
          (guac_client_load_plugin p w protocol).retval = (p.client_init init w3).1 ∧
          (guac_client_load_plugin p w protocol).world = (p.client_init init w3).2 ∧
          (guac_client_load_plugin p w protocol).guac_error = none) := by
  refine ⟨?_, ?_, ?_⟩
  · intro h
    unfold guac_client_load_plugin
    simp [h, emit]
  · intro handle h hs
    unfold guac_client_load_plugin
    simp [h, hs, emit]
  · intro handle init h hs
    refine ⟨emit { emit (emit w (Event.dlopen (protocol_lib p protocol)))
        (Event.dlsym handle "guac_client_init") with
        client := { w.client with args := [], __plugin_handle := some handle } }
      (Event.client_init init), ?_, ?_, ?_, ?_, ?_, ?_⟩
    · simp [emit]
    · simp [emit]
    · simp [emit]
    · unfold guac_client_load_plugin
      simp [h, hs, emit]
    · unfold guac_client_load_plugin
      simp [h, hs, emit]
    · unfold guac_client_load_plugin
      simp [h, hs, emit]

/-- C27 at concrete inputs: `rdp` is not known to the loader, the library of
`bad` has no init function, and the library of `vnc` has the init function at
80, which returns 0 after installing two argument names. -/
theorem C27_load_plugin_witness :
    demo_plugins.dlopen (protocol_lib demo_plugins "rdp") = none ∧
      ((guac_client_load_plugin demo_plugins fresh_world "rdp").retval = -1 ∧
        (guac_client_load_plugin demo_plugins fresh_world "rdp").guac_error =
          some guac_status.GUAC_STATUS_NOT_FOUND ∧
        (guac_client_load_plugin demo_plugins fresh_world "rdp").world.client =
          fresh_world.client ∧
        (guac_client_load_plugin demo_plugins fresh_world "rdp").world.users =
          fresh_world.users ∧
        (guac_client_load_plugin demo_plugins fresh_world "rdp").world.trace =
          fresh_world.trace ++ [Event.dlopen (protocol_lib demo_plugins "rdp")]) ∧
      demo_plugins.dlopen (protocol_lib demo_plugins "bad") = some 6 ∧
      demo_plugins.dlsym_init 6 = none ∧
      ((guac_client_load_plugin demo_plugins fresh_world "bad").retval = -1 ∧
        (guac_client_load_plugin demo_plugins fresh_world "bad").guac_error =
          some guac_status.GUAC_STATUS_INTERNAL_ERROR ∧
        (guac_client_load_plugin demo_plugins fresh_world "bad").world.client =
          fresh_world.client ∧
        (guac_client_load_plugin demo_plugins fresh_world "bad").world.users =
          fresh_world.users ∧
        (guac_client_load_plugin demo_plugins fresh_world "bad").world.trace =
          fresh_world.trace ++ [Event.dlopen (protocol_lib demo_plugins "bad"),
            Event.dlsym 6 "guac_client_init"]) ∧
      demo_plugins.dlopen (protocol_lib demo_plugins "vnc") = some 5 ∧
      demo_plugins.dlsym_init 5 = some 80 ∧
      (∃ w3 : World,
        w3.client = { fresh_world.client with args := [], __plugin_handle := some 5 } ∧
        w3.users = fresh_world.users ∧
        w3.trace = fresh_world.trace ++ [Event.dlopen (protocol_lib demo_plugins "vnc"),
          Event.dlsym 5 "guac_client_init", Event.client_init 80] ∧
        (guac_client_load_plugin demo_plugins fresh_world "vnc").retval =
          (demo_plugins.client_init 80 w3).1 ∧
        (guac_client_load_plugin demo_plugins fresh_world "vnc").world =
          (demo_plugins.client_init 80 w3).2 ∧
        (guac_client_load_plugin demo_plugins fresh_world "vnc").guac_error = none) ∧
      (guac_client_load_plugin demo_plugins fresh_world "vnc").retval = 0 ∧
      (guac_client_load_plugin demo_plugins fresh_world "vnc").world.client.args =
        ["hostname", "port"] ∧
      (guac_client_load_plugin demo_plugins fresh_world "vnc").world.client.__plugin_handle =
        some 5 ∧
      (guac_client_load_plugin demo_plugins fresh_world "vnc").world.trace =
        [Event.dlopen "libguac-client-vnc.so", Event.dlsym 5 "guac_client_init",
          Event.client_init 80] :=
  ⟨by decide,
    (C27_load_plugin_outcomes demo_plugins fresh_world "rdp").1 (by decide),
    by decide, by decide,
    (C27_load_plugin_outcomes demo_plugins fresh_world "bad").2.1 6 (by decide) (by decide),
    by decide, by decide,
    (C27_load_plugin_outcomes demo_plugins fresh_world "vnc").2.2 5 80 (by decide) (by decide),
    by decide, by decide, by decide, by decide⟩

/-! ## Allocation -/

/-- Claim C28.  When `guac_client_alloc` returns a client (which it does exactly
when `malloc` and the generation of the identifier both succeed), that client
is running, its user list is empty, `connected_users` is 0, none of the free,
log, join, leave, suspend and resume handlers is set, no plugin handle is
stored, `last_sent_timestamp` is the time read during the allocation, and its
socket is the one `guac_socket_alloc` returned, whose handlers are the three
broadcast handlers and whose `data` is the address of this very client. -/
theorem C28_alloc_gives_empty_running_client (a : AllocEnv) (client : guac_client)
    (socket : guac_socket) (h : guac_client_alloc a = some (client, socket)) :
    client.state = guac_client_state.GUAC_CLIENT_RUNNING ∧
      client.__users = none ∧
      client.connected_users = 0 ∧
      client.free_handler = none ∧ client.log_handler = none ∧
      client.join_handler = none ∧ client.leave_handler = none ∧
      client.suspend_handler = none ∧ client.resume_handler = none ∧
      client.__plugin_handle = none ∧
      client.last_sent_timestamp = a.timestamp_current ∧
      client.socket = a.socket ∧
      socket.data = a.malloc ∧ (∃ address, socket.data = some address) ∧
      socket.read_handler = some SocketHandler.broadcast_read ∧
      socket.write_handler = some SocketHandler.broadcast_write ∧
      socket.select_handler = some SocketHandler.broadcast_select ∧
      ((guac_client_alloc a).isSome = true ↔
        a.malloc.isSome = true ∧ a.generated_id.isSome = true) := by
  unfold guac_client_alloc at h ⊢
  cases hm : a.malloc with
  | none => simp [hm] at h
  | some address =>
    cases hi : a.generated_id with
    | none => simp [hm, hi] at h
    | some id =>
      simp only [hm, hi, Option.some.injEq, Prod.mk.injEq] at h
      obtain ⟨hc, hs⟩ := h
      subst hc
      subst hs
      simp

/-- C28 at a concrete input: `malloc` returns the address 4096, the current
time is 1234 and `guac_socket_alloc` returns the socket 55. -/
theorem C28_alloc_witness :
    ∃ client socket,
      guac_client_alloc
          { malloc := some 4096, generated_id := some "$a1", timestamp_current := 1234,
            socket := 55, GUAC_BUFFER_POOL_INITIAL_SIZE := 1024 } = some (client, socket) ∧
        (client.state = guac_client_state.GUAC_CLIENT_RUNNING ∧
          client.__users = none ∧
          client.connected_users = 0 ∧
          client.free_handler = none ∧ client.log_handler = none ∧
          client.join_handler = none ∧ client.leave_handler = none ∧
          client.suspend_handler = none ∧ client.resume_handler = none ∧
          client.__plugin_handle = none ∧
          client.last_sent_timestamp = 1234 ∧
          client.socket = 55 ∧
          socket.data = some 4096 ∧ (∃ address, socket.data = some address) ∧
          socket.read_handler = some SocketHandler.broadcast_read ∧
          socket.write_handler = some SocketHandler.broadcast_write ∧
          socket.select_handler = some SocketHandler.broadcast_select ∧
          ((guac_client_alloc
              { malloc := some 4096, generated_id := some "$a1", timestamp_current := 1234,
                socket := 55, GUAC_BUFFER_POOL_INITIAL_SIZE := 1024 }).isSome = true ↔
            (some 4096 : Option Nat).isSome = true ∧
              (some "$a1" : Option String).isSome = true)) :=
  ⟨_, _, rfl,
    C28_alloc_gives_empty_running_client
      { malloc := some 4096, generated_id := some "$a1", timestamp_current := 1234,
        socket := 55, GUAC_BUFFER_POOL_INITIAL_SIZE := 1024 } _ _ rfl⟩

/-! ## Which operations take the users lock -/

theorem add_user_exact (env : Env) (w : World) (user : UserPtr) (argc : Int)
    (argv : List String) :
    (guac_client_add_user env w user argc argv).2.trace =
      w.trace ++ ([Event.mutex_lock] ++
        (match w.client.join_handler with
          | some fn => [Event.join_handler fn user argc argv]
          | none => []) ++ [Event.mutex_unlock]) := by
  unfold guac_client_add_user
  cases hj : w.client.join_handler with
  | none => simp [hj, add_user_link_trace]
  | some fn =>
    by_cases h : env.join_result fn user argc argv (w.trace ++ [Event.mutex_lock]) = 0
    · simp [hj, h, add_user_link_trace]
    · simp [hj, h]

theorem filter_mutex_log_events (w : World) (level : guac_client_log_level)
    (format : String) : (log_events w level format).filter is_mutex_event = [] := by
  unfold log_events
  cases w.client.log_handler <;> simp [is_mutex_event]

theorem filter_mutex_suspend_calls (of_user of_client : Option FnPtr) (user : UserPtr) :
    (spec_handler_calls Event.suspend_handler of_user of_client user).filter is_mutex_event
      = [] := by
  unfold spec_handler_calls spec_fallback_handler
  cases of_user <;> cases of_client <;> simp [is_mutex_event]

theorem filter_mutex_resume_calls (of_user of_client : Option FnPtr) (user : UserPtr) :
    (spec_handler_calls Event.resume_handler of_user of_client user).filter is_mutex_event
      = [] := by
  unfold spec_handler_calls spec_fallback_handler
  cases of_user <;> cases of_client <;> simp [is_mutex_event]

/-- Claim C29, as stated, fails for `guac_client_suspend_user` and
`guac_client_resume_user`: on the client with the users 3, 2, 1 the suspension
of user 2 changes the state of user 2 from running to suspended without any
`pthread_mutex_lock`, and so does the resumption of the suspended user 2,
whereas the removal of user 2 takes the lock first and releases it last. -/
theorem C29_suspend_and_resume_take_no_lock :
    Event.mutex_lock ∉ events_since three_users_world.trace.length
        (guac_client_suspend_user three_users_world 2) ∧
      (three_users_world.users 2).state = guac_user_state.GUAC_USER_RUNNING ∧
      ((guac_client_suspend_user three_users_world 2).users 2).state =
        guac_user_state.GUAC_USER_SUSPENDED ∧
      Event.mutex_lock ∉ events_since trio_world.trace.length
        (guac_client_resume_user trio_world 2) ∧
      (trio_world.users 2).state = guac_user_state.GUAC_USER_SUSPENDED ∧
      ((guac_client_resume_user trio_world 2).users 2).state =
        guac_user_state.GUAC_USER_RUNNING ∧
      events_since three_users_world.trace.length
          (guac_client_suspend_user three_users_world 2) =
        [Event.instruction_begin 0, Event.instruction_end 0] ∧
      events_since three_users_world.trace.length
          (guac_client_remove_user three_users_world 2) =
        [Event.mutex_lock, Event.mutex_unlock] := by
  decide

/-! ## The handler called on suspension -/

/-- Claim C30, as stated, fails.  User 1 has no suspend handler of its own; the
client has the suspend handler 60 and the resume handler 62.  Suspending user 1
calls the suspend handler 60 of the client and no resume handler, where the
claim has the resume handler of the client called.  On a client that has the
resume handler 62 only, suspending user 1 calls no handler at all.  When the
user has a suspend handler of its own (63), that one is called, as the claim
says. -/
theorem C30_suspend_falls_back_to_client_suspend_handler :
    (lagging_world.users 1).suspend_handler = none ∧
      lagging_world.client.suspend_handler = some 60 ∧
      lagging_world.client.resume_handler = some 62 ∧
      handler_calls_since lagging_world.trace.length
          (guac_client_suspend_user lagging_world 1) =
        [Event.suspend_handler HandlerOf.client 60 1] ∧
      Event.resume_handler HandlerOf.client 62 1 ∉
        events_since lagging_world.trace.length (guac_client_suspend_user lagging_world 1) ∧
      handler_calls_since lagging_world.trace.length
          (guac_client_suspend_user
            { lagging_world with
              client := { lagging_world.client with suspend_handler := none } } 1) = [] ∧
      handler_calls_since lagging_world.trace.length
          (guac_client_suspend_user
            (set_user lagging_world 1 (fun u => { u with suspend_handler := some 63 })) 1) =
        [Event.suspend_handler HandlerOf.user 63 1] := by
  decide

/-- Claim C30, amended.  If the user being suspended has a suspend handler,
that handler is called, once, and nothing else; otherwise the suspend handler
of the client is called, once, if the client has one, and no handler if it has
none.  No resume handler, of the user or of the client, is ever called by
`guac_client_suspend_user`. -/
theorem C30_suspend_calls_the_suspend_handler (w : World) (user : UserPtr) :
    (∀ fn, (w.users user).suspend_handler = some fn →
      handler_calls_since w.trace.length (guac_client_suspend_user w user) =
        [Event.suspend_handler HandlerOf.user fn user]) ∧
      (∀ fn, (w.users user).suspend_handler = none → w.client.suspend_handler = some fn →
        handler_calls_since w.trace.length (guac_client_suspend_user w user) =
          [Event.suspend_handler HandlerOf.client fn user]) ∧
      ((w.users user).suspend_handler = none → w.client.suspend_handler = none →
        handler_calls_since w.trace.length (guac_client_suspend_user w user) = []) ∧
      ∀ (src : HandlerOf) (fn : FnPtr) (v : UserPtr),
        Event.resume_handler src fn v ∉
          events_since w.trace.length (guac_client_suspend_user w user) := by
  have hcalls := suspend_user_handler_calls w user
  refine ⟨?_, ?_, ?_, ?_⟩
  · intro fn hs
    rw [hcalls, hs]
    rfl
  · intro fn hs hc
    rw [hcalls, hs, hc]
    rfl
  · intro hs hc
    rw [hcalls, hs, hc]
    rfl
  · intro src fn v
    unfold events_since
    rw [(suspend_user_exact w user).1, List.drop_left]
    unfold log_events spec_handler_calls spec_fallback_handler
    cases w.client.log_handler <;> cases (w.users user).suspend_handler <;>
      cases w.client.suspend_handler <;> simp

/-- C30 (amended) at concrete inputs: user 1 without a suspend handler on the
client with the suspend handler 60, and user 1 with the suspend handler 63 of
its own. -/
theorem C30_suspend_handler_witness :
    handler_calls_since lagging_world.trace.length (guac_client_suspend_user lagging_world 1) =
        [Event.suspend_handler HandlerOf.client 60 1] ∧
      handler_calls_since
          (set_user lagging_world 1 (fun u => { u with suspend_handler := some 63 })).trace.length
          (guac_client_suspend_user
            (set_user lagging_world 1 (fun u => { u with suspend_handler := some 63 })) 1) =
        [Event.suspend_handler HandlerOf.user 63 1] ∧
      Event.resume_handler HandlerOf.client 62 1 ∉
        events_since lagging_world.trace.length (guac_client_suspend_user lagging_world 1) :=
  ⟨(C30_suspend_calls_the_suspend_handler lagging_world 1).2.1 60 (by decide) (by decide),
    (C30_suspend_calls_the_suspend_handler
      (set_user lagging_world 1 (fun u => { u with suspend_handler := some 63 })) 1).1 63
      (by decide),
    (C30_suspend_calls_the_suspend_handler lagging_world 1).2.2.2 HandlerOf.client 62 1⟩

/-! ## The order of the statements of suspend and resume -/

/-- Executing the statements of `suspend_user_actions` is
`guac_client_suspend_user`. -/
theorem suspend_user_actions_run (w : World) (user : UserPtr) :
    run_actions w (suspend_user_actions w user) = guac_client_suspend_user w user := by
  unfold run_actions suspend_user_actions guac_client_suspend_user guac_user_log vguac_client_log
  cases hl : w.client.log_handler <;> cases hs : (w.users user).suspend_handler <;>
    cases hc : w.client.suspend_handler <;>
    simp [hl, hs, hc, run_action, emit, set_user]

/-- Executing the statements of `resume_user_actions` is
`guac_client_resume_user`. -/
theorem resume_user_actions_run (w : World) (user : UserPtr) :
    run_actions w (resume_user_actions w user) = guac_client_resume_user w user := by
  unfold run_actions resume_user_actions guac_client_resume_user guac_user_log vguac_client_log
  cases hl : w.client.log_handler <;> cases hs : (w.users user).resume_handler <;>
    cases hc : w.client.resume_handler <;>
    simp [hl, hs, hc, run_action, emit, set_user]

/-- At every point of the execution of `guac_client_suspend_user`: the state is
untouched as long as `instruction_begin` has not been called, it is suspended
once `instruction_end` has been called, and a handler has only been invoked
if `instruction_end` has been called. -/
theorem suspend_prefix (w : World) (user : UserPtr) (k : Nat) :
    (Event.instruction_begin w.client.socket ∉
        events_since w.trace.length (run_actions w ((suspend_user_actions w user).take k)) →
      ((run_actions w ((suspend_user_actions w user).take k)).users user).state =
        (w.users user).state) ∧
    (Event.instruction_end w.client.socket ∈
        events_since w.trace.length (run_actions w ((suspend_user_actions w user).take k)) →
      ((run_actions w ((suspend_user_actions w user).take k)).users user).state =
        guac_user_state.GUAC_USER_SUSPENDED) ∧
    ((events_since w.trace.length
        (run_actions w ((suspend_user_actions w user).take k))).any is_state_handler = true →
      Event.instruction_end w.client.socket ∈
        events_since w.trace.length (run_actions w ((suspend_user_actions w user).take k))) := by
  unfold suspend_user_actions
  cases hl : w.client.log_handler <;> cases hs : (w.users user).suspend_handler <;>
    cases hc : w.client.suspend_handler <;>
    rcases k with _ | _ | _ | _ | _ | k <;>
    simp [hl, hs, hc, run_actions, run_action, emit, set_user, events_since, is_state_handler]

/-- At every point of the execution of `guac_client_resume_user`: the state is
untouched as long as `instruction_begin` has not been called, it is running
once `instruction_end` has been called, and a handler has only been invoked
if `instruction_end` has been called. -/
theorem resume_prefix (w : World) (user : UserPtr) (k : Nat) :
    (Event.instruction_begin w.client.socket ∉
        events_since w.trace.length (run_actions w ((resume_user_actions w user).take k)) →
      ((run_actions w ((resume_user_actions w user).take k)).users user).state =
        (w.users user).state) ∧
    (Event.instruction_end w.client.socket ∈
        events_since w.trace.length (run_actions w ((resume_user_actions w user).take k)) →
      ((run_actions w ((resume_user_actions w user).take k)).users user).state =
        guac_user_state.GUAC_USER_RUNNING) ∧
    ((events_since w.trace.length
        (run_actions w ((resume_user_actions w user).take k))).any is_state_handler = true →
      Event.instruction_end w.client.socket ∈
        events_since w.trace.length (run_actions w ((resume_user_actions w user).take k))) := by
  unfold resume_user_actions
  cases hl : w.client.log_handler <;> cases hs : (w.users user).resume_handler <;>
    cases hc : w.client.resume_handler <;>
    rcases k with _ | _ | _ | _ | _ | k <;>
    simp [hl, hs, hc, run_actions, run_action, emit, set_user, events_since, is_state_handler]

theorem suspend_boundary_counts (w : World) (user : UserPtr) :
    (events_since w.trace.length (guac_client_suspend_user w user)).count
        (Event.instruction_begin w.client.socket) = 1 ∧
      (events_since w.trace.length (guac_client_suspend_user w user)).count
        (Event.instruction_end w.client.socket) = 1 := by
  unfold events_since
  rw [(suspend_user_exact w user).1, List.drop_left]
  unfold log_events spec_handler_calls spec_fallback_handler
  cases hl : w.client.log_handler <;> cases hs : (w.users user).suspend_handler <;>
    cases hc : w.client.suspend_handler <;> simp [List.count_cons]

theorem resume_boundary_counts (w : World) (user : UserPtr) :
    (events_since w.trace.length (guac_client_resume_user w user)).count
        (Event.instruction_begin w.client.socket) = 1 ∧
      (events_since w.trace.length (guac_client_resume_user w user)).count
        (Event.instruction_end w.client.socket) = 1 := by
  unfold events_since
  rw [(resume_user_exact w user).1, List.drop_left]
  unfold log_events spec_handler_calls spec_fallback_handler
  cases hl : w.client.log_handler <;> cases hs : (w.users user).resume_handler <;>
    cases hc : w.client.resume_handler <;> simp [List.count_cons]

/-- Claim C31.  `guac_client_suspend_user` and `guac_client_resume_user` are
the execution of their statements in the order of the source: the log call,
then `guac_socket_instruction_begin` on the broadcast socket, the assignment
of `user->state`, `guac_socket_instruction_end` on the broadcast socket, and
only then the call of the suspend / resume handler.  So, at every point of the
execution, the state is unchanged while `instruction_begin` has not been
called, it has its new value once `instruction_end` has been called, and a
handler has been invoked only after `instruction_end`; each of the two
boundary calls is made exactly once per call. -/
theorem C31_state_changes_inside_instruction_boundary (w : World) (user : UserPtr) :
    (run_actions w (suspend_user_actions w user) = guac_client_suspend_user w user ∧
      suspend_user_actions w user =
        (log_events w guac_client_log_level.GUAC_LOG_DEBUG "Suspending user").map Action.call ++
          [Action.call (Event.instruction_begin w.client.socket),
            Action.assign_state user guac_user_state.GUAC_USER_SUSPENDED,
            Action.call (Event.instruction_end w.client.socket)] ++
          (spec_handler_calls Event.suspend_handler (w.users user).suspend_handler
            w.client.suspend_handler user).map Action.call ∧
      (∀ k,
        (Event.instruction_begin w.client.socket ∉
            events_since w.trace.length (run_actions w ((suspend_user_actions w user).take k)) →
          ((run_actions w ((suspend_user_actions w user).take k)).users user).state =
            (w.users user).state) ∧
        (Event.instruction_end w.client.socket ∈
            events_since w.trace.length (run_actions w ((suspend_user_actions w user).take k)) →
          ((run_actions w ((suspend_user_actions w user).take k)).users user).state =
            guac_user_state.GUAC_USER_SUSPENDED) ∧
        ((events_since w.trace.length
            (run_actions w ((suspend_user_actions w user).take k))).any is_state_handler = true →
          Event.instruction_end w.client.socket ∈
            events_since w.trace.length
              (run_actions w ((suspend_user_actions w user).take k)))) ∧
      (events_since w.trace.length (guac_client_suspend_user w user)).count
        (Event.instruction_begin w.client.socket) = 1 ∧
      (events_since w.trace.length (guac_client_suspend_user w user)).count
        (Event.instruction_end w.client.socket) = 1) ∧
    (run_actions w (resume_user_actions w user) = guac_client_resume_user w user ∧
      resume_user_actions w user =
        (log_events w guac_client_log_level.GUAC_LOG_DEBUG "Resuming user").map Action.call ++
          [Action.call (Event.instruction_begin w.client.socket),
            Action.assign_state user guac_user_state.GUAC_USER_RUNNING,
            Action.call (Event.instruction_end w.client.socket)] ++
          (spec_handler_calls Event.resume_handler (w.users user).resume_handler
            w.client.resume_handler user).map Action.call ∧
      (∀ k,
        (Event.instruction_begin w.client.socket ∉
            events_since w.trace.length (run_actions w ((resume_user_actions w user).take k)) →
          ((run_actions w ((resume_user_actions w user).take k)).users user).state =
            (w.users user).state) ∧
        (Event.instruction_end w.client.socket ∈
            events_since w.trace.length (run_actions w ((resume_user_actions w user).take k)) →
          ((run_actions w ((resume_user_actions w user).take k)).users user).state =
            guac_user_state.GUAC_USER_RUNNING) ∧
        ((events_since w.trace.length
            (run_actions w ((resume_user_actions w user).take k))).any is_state_handler = true →
          Event.instruction_end w.client.socket ∈
            events_since w.trace.length
              (run_actions w ((resume_user_actions w user).take k)))) ∧
      (events_since w.trace.length (guac_client_resume_user w user)).count
        (Event.instruction_begin w.client.socket) = 1 ∧
      (events_since w.trace.length (guac_client_resume_user w user)).count
        (Event.instruction_end w.client.socket) = 1) := by
  refine ⟨⟨suspend_user_actions_run w user, ?_, suspend_prefix w user,
      (suspend_boundary_counts w user).1, (suspend_boundary_counts w user).2⟩,
    ⟨resume_user_actions_run w user, ?_, resume_prefix w user,
      (resume_boundary_counts w user).1, (resume_boundary_counts w user).2⟩⟩
  · unfold suspend_user_actions log_events spec_handler_calls spec_fallback_handler
    cases hl : w.client.log_handler <;> cases hs : (w.users user).suspend_handler <;>
      cases hc : w.client.suspend_handler <;> simp
  · unfold resume_user_actions log_events spec_handler_calls spec_fallback_handler
    cases hl : w.client.log_handler <;> cases hs : (w.users user).resume_handler <;>
      cases hc : w.client.resume_handler <;> simp

/-- C31 at concrete inputs: on the client with the suspend handler 60, before
any statement of the suspension of user 1 the state is as it was, after the
third statement (`instruction_end`) it is suspended, and after the fourth (the
handler) `instruction_end` has been called; likewise for a resumption. -/
theorem C31_instruction_boundary_witness :
    run_actions lagging_world (suspend_user_actions lagging_world 1) =
        guac_client_suspend_user lagging_world 1 ∧
      ((run_actions lagging_world ((suspend_user_actions lagging_world 1).take 0)).users 1).state =
        (lagging_world.users 1).state ∧
      ((run_actions lagging_world ((suspend_user_actions lagging_world 1).take 3)).users 1).state =
        guac_user_state.GUAC_USER_SUSPENDED ∧
      Event.instruction_end lagging_world.client.socket ∈
        events_since lagging_world.trace.length
          (run_actions lagging_world ((suspend_user_actions lagging_world 1).take 4)) ∧
      ((run_actions trio_world ((resume_user_actions trio_world 2).take 3)).users 2).state =
        guac_user_state.GUAC_USER_RUNNING ∧
      suspend_user_actions lagging_world 1 =
        [Action.call (Event.instruction_begin 0),
          Action.assign_state 1 guac_user_state.GUAC_USER_SUSPENDED,
          Action.call (Event.instruction_end 0),
          Action.call (Event.suspend_handler HandlerOf.client 60 1)] :=
  ⟨(C31_state_changes_inside_instruction_boundary lagging_world 1).1.1,
    ((C31_state_changes_inside_instruction_boundary lagging_world 1).1.2.2.1 0).1 (by decide),
    ((C31_state_changes_inside_instruction_boundary lagging_world 1).1.2.2.1 3).2.1 (by decide),
    ((C31_state_changes_inside_instruction_boundary lagging_world 1).1.2.2.1 4).2.2 (by decide),
    ((C31_state_changes_inside_instruction_boundary trio_world 2).2.2.2.1 3).2.1 (by decide),
    by decide⟩

/-! ## Removing a user twice -/

theorem remove_twice_handler_calls (w : World) (user : UserPtr) :
    handler_calls_since w.trace.length
        (guac_client_remove_user (guac_client_remove_user w user) user) =
      spec_handler_calls Event.leave_handler (w.users user).leave_handler
          w.client.leave_handler user ++
        spec_handler_calls Event.leave_handler (w.users user).leave_handler
          w.client.leave_handler user := by
  obtain ⟨hc1, hl1⟩ := remove_user_keeps w user
  have hleave : (guac_client_remove_user w user).client.leave_handler =
      w.client.leave_handler := by rw [hc1]
  rw [handler_calls_since_append w.trace.length (guac_client_remove_user w user) _ _
      (by rw [remove_user_exact w user]; simp)
      (remove_user_exact (guac_client_remove_user w user) user),
    remove_user_handler_calls, remove_user_handler_calls, hl1 user, hleave]

/-- Claim C32.  Two calls of `guac_client_remove_user` on the same user always
decrement `connected_users` twice and invoke the leave handler (the user's,
else the client's) twice.  On the client with the three users 3, 2, 1 and the
counter 3, removing the head 3 twice leaves the well-formed list 2, 1 (the
head was set again, to the stale successor 2 of user 3) with the counter 1,
which is not the number of users in the list, and the leave handler 71 of the
client has been invoked twice for user 3. -/
theorem C32_remove_user_twice_breaks_the_count :
    (∀ (w : World) (user : UserPtr),
      (guac_client_remove_user (guac_client_remove_user w user) user).client.connected_users =
        w.client.connected_users - 2) ∧
      (∀ (w : World) (user : UserPtr),
        handler_calls_since w.trace.length
            (guac_client_remove_user (guac_client_remove_user w user) user) =
          spec_handler_calls Event.leave_handler (w.users user).leave_handler
              w.client.leave_handler user ++
            spec_handler_calls Event.leave_handler (w.users user).leave_handler
              w.client.leave_handler user) ∧
      WellFormed busy_world [3, 2, 1] ∧ (3 : UserPtr) ∈ [3, 2, 1] ∧
      busy_world.client.connected_users = (([3, 2, 1] : List UserPtr).length : Int) ∧
      WellFormed (guac_client_remove_user busy_world 3) [2, 1] ∧
      (guac_client_remove_user busy_world 3).client.connected_users = 2 ∧
      WellFormed (guac_client_remove_user (guac_client_remove_user busy_world 3) 3) [2, 1] ∧
      (guac_client_remove_user (guac_client_remove_user busy_world 3) 3).client.connected_users
        = 1 ∧
      (guac_client_remove_user (guac_client_remove_user busy_world 3) 3).client.connected_users
        ≠ (([2, 1] : List UserPtr).length : Int) ∧
      (guac_client_remove_user (guac_client_remove_user busy_world 3) 3).client.__users =
        ((guac_client_remove_user busy_world 3).users 3).__next ∧
      events_since busy_world.trace.length
          (guac_client_remove_user (guac_client_remove_user busy_world 3) 3) =
        [Event.mutex_lock, Event.leave_handler HandlerOf.client 71 3, Event.mutex_unlock,
          Event.mutex_lock, Event.leave_handler HandlerOf.client 71 3, Event.mutex_unlock] := by
  refine ⟨?_, remove_twice_handler_calls, by decide, by decide, by decide, by decide, by decide,
    by decide, by decide, by decide, by decide, by decide⟩
  intro w user
  rw [remove_user_count, remove_user_count]
  omega

/-! ## The join handlers of the back-ends -/

/-- The outcomes of `guac_rdp_user_join_handler`. -/
theorem rdp_join_outcomes (x : RdpEnv) (w : World) (user : UserPtr) (argc : Int)
    (argv : List String) :
    ((w.users user).owner = 0 →
      (guac_rdp_user_join_handler x w user argc argv).1 = 0 ∧
        events_since w.trace.length (guac_rdp_user_join_handler x w user argc argv).2 =
          [Event.display_dup (w.users user).socket, Event.socket_flush (w.users user).socket]) ∧
      ((w.users user).owner ≠ 0 →
        (x.guac_rdp_parse_args user argc argv ≠ 0 ∨ x.pthread_create ≠ 0) →
        (guac_rdp_user_join_handler x w user argc argv).1 = 1) ∧
      ((guac_rdp_user_join_handler x w user argc argv).1 ≠ 0 →
        (guac_rdp_user_join_handler x w user argc argv).2.users = w.users) ∧
      ((guac_rdp_user_join_handler x w user argc argv).1 = 0 →
        (guac_rdp_user_join_handler x w user argc argv).2.users =
          (rdp_install_handlers x w user).users) ∧
      ((guac_rdp_user_join_handler x w user argc argv).1 = 0 ↔
        ((w.users user).owner = 0 ∨
          (x.guac_rdp_parse_args user argc argv = 0 ∧ x.pthread_create = 0))) := by
  unfold guac_rdp_user_join_handler guac_rdp_synchronize_user guac_socket_flush guac_user_log
    vguac_client_log rdp_install_handlers
  by_cases ho : (w.users user).owner = 0 <;>
    by_cases hp : x.guac_rdp_parse_args user argc argv = 0 <;>
    by_cases ht : x.pthread_create = 0 <;>
    cases hl : w.client.log_handler <;>
    simp [ho, hp, ht, hl, emit, set_user, events_since]

/-- The outcomes of `guac_vnc_user_join_handler`. -/
theorem vnc_join_outcomes (x : VncEnv) (settings : guac_vnc_settings) (w : World)
    (user : UserPtr) (argc : Int) (argv : List String) :
    ((w.users user).owner = 0 →
      (guac_vnc_user_join_handler x settings w user argc argv).1 = 0 ∧
        (guac_vnc_user_join_handler x settings w user argc argv).2.1 = settings ∧
        events_since w.trace.length (guac_vnc_user_join_handler x settings w user argc argv).2.2 =
          [Event.surface_dup (w.users user).socket, Event.cursor_dup (w.users user).socket,
            Event.socket_flush (w.users user).socket]) ∧
      ((w.users user).owner ≠ 0 →
        ((x.guac_vnc_parse_args settings argc argv).1 ≠ 0 ∨ x.pthread_create ≠ 0) →
        (guac_vnc_user_join_handler x settings w user argc argv).1 = 1) ∧
      ((guac_vnc_user_join_handler x settings w user argc argv).1 ≠ 0 →
        (guac_vnc_user_join_handler x settings w user argc argv).2.2.users = w.users) ∧
      ((guac_vnc_user_join_handler x settings w user argc argv).1 = 0 →
        (guac_vnc_user_join_handler x settings w user argc argv).2.2.users =
          (vnc_install_handlers x (guac_vnc_user_join_handler x settings w user argc argv).2.1
            w user).users) ∧
      ((guac_vnc_user_join_handler x settings w user argc argv).1 = 0 ↔
        ((w.users user).owner = 0 ∨
          ((x.guac_vnc_parse_args settings argc argv).1 = 0 ∧ x.pthread_create = 0))) := by
  unfold guac_vnc_user_join_handler guac_vnc_synchronize_user guac_socket_flush guac_user_log
    vguac_client_log vnc_install_handlers
  by_cases ho : (w.users user).owner = 0 <;>
    by_cases hp : (x.guac_vnc_parse_args settings argc argv).1 = 0 <;>
    by_cases ht : x.pthread_create = 0 <;>
    by_cases hr : settings.read_only = 0 <;>
    by_cases hr2 : (x.guac_vnc_parse_args settings argc argv).2.read_only = 0 <;>
    cases hl : w.client.log_handler <;>
    simp [ho, hp, ht, hl, hr, hr2, emit, set_user, events_since]

/-- What the assignments at the end of `guac_rdp_user_join_handler` leave in
the user. -/
theorem rdp_install_fields (x : RdpEnv) (w : World) (user : UserPtr) :
    ((rdp_install_handlers x w user).users user).leave_handler =
        some x.guac_rdp_user_leave_handler ∧
      ((rdp_install_handlers x w user).users user).resume_handler =
        some x.guac_rdp_user_resume_handler ∧
      ((rdp_install_handlers x w user).users user).frame_handler =
        some x.guac_rdp_user_frame_handler ∧
      ((rdp_install_handlers x w user).users user).sync_handler =
        some x.guac_rdp_user_sync_handler := by
  simp [rdp_install_handlers, set_user]

/-- What the assignments at the end of `guac_vnc_user_join_handler` leave in
the user: the four management and lag handlers always, the three input
handlers only when the connection is not read-only. -/
theorem vnc_install_fields (x : VncEnv) (settings : guac_vnc_settings) (w : World)
    (user : UserPtr) :
    (((vnc_install_handlers x settings w user).users user).leave_handler =
        some x.guac_vnc_user_leave_handler ∧
      ((vnc_install_handlers x settings w user).users user).resume_handler =
        some x.guac_vnc_user_resume_handler ∧
      ((vnc_install_handlers x settings w user).users user).frame_handler =
        some x.guac_vnc_user_frame_handler ∧
      ((vnc_install_handlers x settings w user).users user).sync_handler =
        some x.guac_vnc_user_sync_handler) ∧
      (settings.read_only ≠ 0 →
        ((vnc_install_handlers x settings w user).users user).mouse_handler =
            (w.users user).mouse_handler ∧
          ((vnc_install_handlers x settings w user).users user).key_handler =
            (w.users user).key_handler ∧
          ((vnc_install_handlers x settings w user).users user).clipboard_handler =
            (w.users user).clipboard_handler) ∧
      (settings.read_only = 0 →
        ((vnc_install_handlers x settings w user).users user).mouse_handler =
            some x.guac_vnc_user_mouse_handler ∧
          ((vnc_install_handlers x settings w user).users user).key_handler =
            some x.guac_vnc_user_key_handler ∧
          ((vnc_install_handlers x settings w user).users user).clipboard_handler =
            some x.guac_vnc_clipboard_handler) := by
  by_cases hr : settings.read_only = 0 <;> simp [vnc_install_handlers, set_user, hr]

/-- When the join handler of the client returns a non-zero value,
`guac_client_add_user` returns that value and changes neither the client nor
any user. -/
theorem add_user_after_failed_join (env : Env) (w : World) (fn : FnPtr) (user : UserPtr)
    (argc : Int) (argv : List String) (ret : Int) (hjoin : w.client.join_handler = some fn)
    (hret : env.join_result fn user argc argv (w.trace ++ [Event.mutex_lock]) = ret)
    (hfail : ret ≠ 0) :
    (guac_client_add_user env w user argc argv).1 = ret ∧
      (guac_client_add_user env w user argc argv).2.client = w.client ∧
      (guac_client_add_user env w user argc argv).2.users = w.users := by
  have h1 : (guac_client_add_user env w user argc argv).1 = ret := by
    rw [add_user_retval, hjoin]
    exact hret
  obtain ⟨hu, hc⟩ := add_user_refused env w user argc argv (by rw [h1]; exact hfail)
  exact ⟨h1, hc, hu⟩

/-- Claim C33.  For the join handlers of both back-ends.  For a user that is
not the owner the handler returns 0 and its only calls are the duplication of
the display on the private socket of the user and the flush of that socket:
neither the argument parser nor `pthread_create` is called.  For an owner, if
the argument parser or `pthread_create` fails the handler returns a non-zero
value and no field of any user has changed, so no handler is installed.
Whenever the handler returns a non-zero value, a `guac_client_add_user` whose
join handler reports that value returns it and leaves the client, hence the
list, and the users as they were.  Whenever the handler returns 0 the leave,
resume, frame and sync handlers of the back-end are installed in the user. -/
theorem C33_join_handlers_connect_for_owner_only (x : RdpEnv) (y : VncEnv)
    (settings : guac_vnc_settings) (w : World) (user : UserPtr) (argc : Int)
    (argv : List String) :
    (((w.users user).owner = 0 →
        (guac_rdp_user_join_handler x w user argc argv).1 = 0 ∧
          events_since w.trace.length (guac_rdp_user_join_handler x w user argc argv).2 =
            [Event.display_dup (w.users user).socket,
              Event.socket_flush (w.users user).socket] ∧
          (events_since w.trace.length
            (guac_rdp_user_join_handler x w user argc argv).2).filter is_connect_attempt = []) ∧
      ((w.users user).owner ≠ 0 →
        (x.guac_rdp_parse_args user argc argv ≠ 0 ∨ x.pthread_create ≠ 0) →
        (guac_rdp_user_join_handler x w user argc argv).1 ≠ 0 ∧
          (guac_rdp_user_join_handler x w user argc argv).2.users = w.users) ∧
      ((guac_rdp_user_join_handler x w user argc argv).1 ≠ 0 →
        ∀ (env : Env) (w0 : World) (fn : FnPtr), w0.client.join_handler = some fn →
          env.join_result fn user argc argv (w0.trace ++ [Event.mutex_lock]) =
            (guac_rdp_user_join_handler x w user argc argv).1 →
          (guac_client_add_user env w0 user argc argv).1 =
              (guac_rdp_user_join_handler x w user argc argv).1 ∧
            (guac_client_add_user env w0 user argc argv).2.client = w0.client ∧
            (guac_client_add_user env w0 user argc argv).2.users = w0.users) ∧
      ((guac_rdp_user_join_handler x w user argc argv).1 = 0 →
        ((guac_rdp_user_join_handler x w user argc argv).2.users user).leave_handler =
            some x.guac_rdp_user_leave_handler ∧
          ((guac_rdp_user_join_handler x w user argc argv).2.users user).resume_handler =
            some x.guac_rdp_user_resume_handler ∧
          ((guac_rdp_user_join_handler x w user argc argv).2.users user).frame_handler =
            some x.guac_rdp_user_frame_handler ∧
          ((guac_rdp_user_join_handler x w user argc argv).2.users user).sync_handler =
            some x.guac_rdp_user_sync_handler)) ∧
    (((w.users user).owner = 0 →
        (guac_vnc_user_join_handler y settings w user argc argv).1 = 0 ∧
          events_since w.trace.length
              (guac_vnc_user_join_handler y settings w user argc argv).2.2 =
            [Event.surface_dup (w.users user).socket, Event.cursor_dup (w.users user).socket,
              Event.socket_flush (w.users user).socket] ∧
          (events_since w.trace.length
            (guac_vnc_user_join_handler y settings w user argc argv).2.2).filter
              is_connect_attempt = []) ∧
      ((w.users user).owner ≠ 0 →
        ((y.guac_vnc_parse_args settings argc argv).1 ≠ 0 ∨ y.pthread_create ≠ 0) →
        (guac_vnc_user_join_handler y settings w user argc argv).1 ≠ 0 ∧
          (guac_vnc_user_join_handler y settings w user argc argv).2.2.users = w.users) ∧
      ((guac_vnc_user_join_handler y settings w user argc argv).1 ≠ 0 →
        ∀ (env : Env) (w0 : World) (fn : FnPtr), w0.client.join_handler = some fn →
          env.join_result fn user argc argv (w0.trace ++ [Event.mutex_lock]) =
            (guac_vnc_user_join_handler y settings w user argc argv).1 →
          (guac_client_add_user env w0 user argc argv).1 =
              (guac_vnc_user_join_handler y settings w user argc argv).1 ∧
            (guac_client_add_user env w0 user argc argv).2.client = w0.client ∧
            (guac_client_add_user env w0 user argc argv).2.users = w0.users) ∧
      ((guac_vnc_user_join_handler y settings w user argc argv).1 = 0 →
        ((guac_vnc_user_join_handler y settings w user argc argv).2.2.users user).leave_handler =
            some y.guac_vnc_user_leave_handler ∧
          ((guac_vnc_user_join_handler y settings w user argc argv).2.2.users user).resume_handler
            = some y.guac_vnc_user_resume_handler ∧
          ((guac_vnc_user_join_handler y settings w user argc argv).2.2.users user).frame_handler
            = some y.guac_vnc_user_frame_handler ∧
          ((guac_vnc_user_join_handler y settings w user argc argv).2.2.users user).sync_handler
            = some y.guac_vnc_user_sync_handler)) := by
  obtain ⟨r1, r2, r3, r4, _⟩ := rdp_join_outcomes x w user argc argv
  obtain ⟨v1, v2, v3, v4, _⟩ := vnc_join_outcomes y settings w user argc argv
  refine ⟨⟨?_, ?_, ?_, ?_⟩, ⟨?_, ?_, ?_, ?_⟩⟩
  · intro ho
    obtain ⟨h1, h2⟩ := r1 ho
    refine ⟨h1, h2, ?_⟩
    rw [h2]
    simp [is_connect_attempt]
  · intro ho hf
    have h1 := r2 ho hf
    have hne : (guac_rdp_user_join_handler x w user argc argv).1 ≠ 0 := by rw [h1]; decide
    exact ⟨hne, r3 hne⟩
  · intro hne env w0 fn hj hret
    exact add_user_after_failed_join env w0 fn user argc argv _ hj hret hne
  · intro h0
    rw [r4 h0]
    exact rdp_install_fields x w user
  · intro ho
    obtain ⟨h1, _, h2⟩ := v1 ho
    refine ⟨h1, h2, ?_⟩
    rw [h2]
    simp [is_connect_attempt]
  · intro ho hf
    have h1 := v2 ho hf
    have hne : (guac_vnc_user_join_handler y settings w user argc argv).1 ≠ 0 := by
      rw [h1]; decide
    exact ⟨hne, v3 hne⟩
  · intro hne env w0 fn hj hret
    exact add_user_after_failed_join env w0 fn user argc argv _ hj hret hne
  · intro h0
    rw [v4 h0]
    exact (vnc_install_fields y _ w user).1

/-- C33 at concrete inputs, for the RDP back-end and the client whose owner is
user 1: user 2 joins without any attempt to connect; the owner with arguments
the parser rejects gets the value 1, no handler, and is left out of the list by
`guac_client_add_user`; the owner with good arguments gets the four
handlers.  Likewise for the VNC back-end. -/
theorem C33_join_handlers_witness :
    ((guac_rdp_user_join_handler demo_rdp owner_locked 2 1 ["bad"]).1 = 0 ∧
        events_since owner_locked.trace.length
            (guac_rdp_user_join_handler demo_rdp owner_locked 2 1 ["bad"]).2 =
          [Event.display_dup (owner_locked.users 2).socket,
            Event.socket_flush (owner_locked.users 2).socket] ∧
        (events_since owner_locked.trace.length
          (guac_rdp_user_join_handler demo_rdp owner_locked 2 1 ["bad"]).2).filter
            is_connect_attempt = []) ∧
      ((guac_rdp_user_join_handler demo_rdp owner_locked 1 1 ["bad"]).1 ≠ 0 ∧
        (guac_rdp_user_join_handler demo_rdp owner_locked 1 1 ["bad"]).2.users =
          owner_locked.users) ∧
      ((guac_client_add_user (rdp_join_env demo_rdp owner_world) owner_world 1 1 ["bad"]).1 =
          (guac_rdp_user_join_handler demo_rdp owner_locked 1 1 ["bad"]).1 ∧
        (guac_client_add_user (rdp_join_env demo_rdp owner_world) owner_world 1 1 ["bad"]).2.client
          = owner_world.client ∧
        (guac_client_add_user (rdp_join_env demo_rdp owner_world) owner_world 1 1 ["bad"]).2.users
          = owner_world.users) ∧
      (((guac_rdp_user_join_handler demo_rdp owner_locked 1 1 ["host"]).2.users 1).leave_handler
          = some demo_rdp.guac_rdp_user_leave_handler ∧
        ((guac_rdp_user_join_handler demo_rdp owner_locked 1 1 ["host"]).2.users 1).resume_handler
          = some demo_rdp.guac_rdp_user_resume_handler ∧
        ((guac_rdp_user_join_handler demo_rdp owner_locked 1 1 ["host"]).2.users 1).frame_handler
          = some demo_rdp.guac_rdp_user_frame_handler ∧
        ((guac_rdp_user_join_handler demo_rdp owner_locked 1 1 ["host"]).2.users 1).sync_handler
          = some demo_rdp.guac_rdp_user_sync_handler) ∧
      ((guac_vnc_user_join_handler demo_vnc { read_only := 0 } owner_locked 1 1 ["bad"]).1 ≠ 0 ∧
        (guac_vnc_user_join_handler demo_vnc { read_only := 0 } owner_locked 1 1 ["bad"]).2.2.users
          = owner_locked.users) ∧
      WellFormed (guac_client_add_user (rdp_join_env demo_rdp owner_world) owner_world 1 1
        ["bad"]).2 [] ∧
      WellFormed (guac_client_add_user (rdp_join_env demo_rdp owner_world) owner_world 1 1
        ["host"]).2 [1] ∧
      events_since owner_locked.trace.length
          (guac_rdp_user_join_handler demo_rdp owner_locked 1 1 ["bad"]).2 =
        [Event.parse_args 1 1 ["bad"],
          Event.log_handler 70 guac_client_log_level.GUAC_LOG_INFO
            "Badly formatted client arguments."] :=
  ⟨(C33_join_handlers_connect_for_owner_only demo_rdp demo_vnc { read_only := 0 } owner_locked
      2 1 ["bad"]).1.1 (by decide),
    (C33_join_handlers_connect_for_owner_only demo_rdp demo_vnc { read_only := 0 } owner_locked
      1 1 ["bad"]).1.2.1 (by decide) (Or.inl (by decide)),
    (C33_join_handlers_connect_for_owner_only demo_rdp demo_vnc { read_only := 0 } owner_locked
      1 1 ["bad"]).1.2.2.1 (by decide) (rdp_join_env demo_rdp owner_world) owner_world 50
      (by decide) (by decide),
    (C33_join_handlers_connect_for_owner_only demo_rdp demo_vnc { read_only := 0 } owner_locked
      1 1 ["host"]).1.2.2.2 (by decide),
    (C33_join_handlers_connect_for_owner_only demo_rdp demo_vnc { read_only := 0 } owner_locked
      1 1 ["bad"]).2.2.1 (by decide) (Or.inl (by decide)),
    by decide, by decide, by decide⟩

/-- Claim C38.  When `guac_vnc_user_join_handler` returns 0, for an owner or
not: if `read_only` of the settings, as they are after the call, is non-zero,
the mouse, key and clipboard handlers of the user are what they were before
the call (unset, for a user fresh from `guac_user_alloc`), while the leave,
resume, frame and sync handlers are installed; if `read_only` is 0 the three
input handlers are installed as well. -/
theorem C38_read_only_vnc_installs_no_input_handlers (y : VncEnv)
    (settings : guac_vnc_settings) (w : World) (user : UserPtr) (argc : Int)
    (argv : List String)
    (hret : (guac_vnc_user_join_handler y settings w user argc argv).1 = 0) :
    ((guac_vnc_user_join_handler y settings w user argc argv).2.1.read_only ≠ 0 →
        ((guac_vnc_user_join_handler y settings w user argc argv).2.2.users user).mouse_handler
            = (w.users user).mouse_handler ∧
          ((guac_vnc_user_join_handler y settings w user argc argv).2.2.users user).key_handler
            = (w.users user).key_handler ∧
          ((guac_vnc_user_join_handler y settings w user argc argv).2.2.users
            user).clipboard_handler = (w.users user).clipboard_handler ∧
          ((w.users user).mouse_handler = none → (w.users user).key_handler = none →
            (w.users user).clipboard_handler = none →
            ((guac_vnc_user_join_handler y settings w user argc argv).2.2.users
                user).mouse_handler = none ∧
              ((guac_vnc_user_join_handler y settings w user argc argv).2.2.users
                user).key_handler = none ∧
              ((guac_vnc_user_join_handler y settings w user argc argv).2.2.users
                user).clipboard_handler = none)) ∧
      (((guac_vnc_user_join_handler y settings w user argc argv).2.2.users user).leave_handler
          = some y.guac_vnc_user_leave_handler ∧
        ((guac_vnc_user_join_handler y settings w user argc argv).2.2.users user).resume_handler
          = some y.guac_vnc_user_resume_handler ∧
        ((guac_vnc_user_join_handler y settings w user argc argv).2.2.users user).frame_handler
          = some y.guac_vnc_user_frame_handler ∧
        ((guac_vnc_user_join_handler y settings w user argc argv).2.2.users user).sync_handler
          = some y.guac_vnc_user_sync_handler) ∧
      ((guac_vnc_user_join_handler y settings w user argc argv).2.1.read_only = 0 →
        ((guac_vnc_user_join_handler y settings w user argc argv).2.2.users user).mouse_handler
            = some y.guac_vnc_user_mouse_handler ∧
          ((guac_vnc_user_join_handler y settings w user argc argv).2.2.users user).key_handler
            = some y.guac_vnc_user_key_handler ∧
          ((guac_vnc_user_join_handler y settings w user argc argv).2.2.users
            user).clipboard_handler = some y.guac_vnc_clipboard_handler) ∧
      ((w.users user).owner = 0 →
        (guac_vnc_user_join_handler y settings w user argc argv).2.1 = settings) ∧
      ((w.users user).owner ≠ 0 →
        (guac_vnc_user_join_handler y settings w user argc argv).2.1 =
          (y.guac_vnc_parse_args settings argc argv).2) := by
  obtain ⟨v1, _, _, v4, _⟩ := vnc_join_outcomes y settings w user argc argv
  obtain ⟨f1, f2, f3⟩ :=
    vnc_install_fields y (guac_vnc_user_join_handler y settings w user argc argv).2.1 w user
  rw [v4 hret]
  refine ⟨?_, f1, f3, fun ho => (v1 ho).2.1, ?_⟩
  · intro hro
    obtain ⟨m, k, c⟩ := f2 hro
    refine ⟨m, k, c, ?_⟩
    intro hm hk hc
    exact ⟨m.trans hm, k.trans hk, c.trans hc⟩
  · intro ho
    unfold guac_vnc_user_join_handler
    by_cases hp : (y.guac_vnc_parse_args settings argc argv).1 = 0 <;>
      by_cases ht : y.pthread_create = 0 <;> simp [ho, hp, ht]

/-- C38 at concrete inputs: the owner connects with `read-only` set to `true`
and gets no input handler; a second user joins that read-only connection and
gets none either; on a connection that is not read-only the owner gets all
three. -/
theorem C38_read_only_vnc_witness :
    (guac_vnc_user_join_handler demo_vnc { read_only := 0 } owner_locked 1 2
        ["host", "true"]).1 = 0 ∧
      (guac_vnc_user_join_handler demo_vnc { read_only := 0 } owner_locked 1 2
        ["host", "true"]).2.1.read_only ≠ 0 ∧
      (((guac_vnc_user_join_handler demo_vnc { read_only := 0 } owner_locked 1 2
            ["host", "true"]).2.2.users 1).mouse_handler = (owner_locked.users 1).mouse_handler ∧
        ((guac_vnc_user_join_handler demo_vnc { read_only := 0 } owner_locked 1 2
            ["host", "true"]).2.2.users 1).key_handler = (owner_locked.users 1).key_handler ∧
        ((guac_vnc_user_join_handler demo_vnc { read_only := 0 } owner_locked 1 2
            ["host", "true"]).2.2.users 1).clipboard_handler =
          (owner_locked.users 1).clipboard_handler ∧
        ((owner_locked.users 1).mouse_handler = none → (owner_locked.users 1).key_handler = none →
          (owner_locked.users 1).clipboard_handler = none →
          ((guac_vnc_user_join_handler demo_vnc { read_only := 0 } owner_locked 1 2
              ["host", "true"]).2.2.users 1).mouse_handler = none ∧
            ((guac_vnc_user_join_handler demo_vnc { read_only := 0 } owner_locked 1 2
              ["host", "true"]).2.2.users 1).key_handler = none ∧
            ((guac_vnc_user_join_handler demo_vnc { read_only := 0 } owner_locked 1 2
              ["host", "true"]).2.2.users 1).clipboard_handler = none)) ∧
      (((guac_vnc_user_join_handler demo_vnc { read_only := 0 } owner_locked 1 2
            ["host", "true"]).2.2.users 1).leave_handler =
          some demo_vnc.guac_vnc_user_leave_handler ∧
        ((guac_vnc_user_join_handler demo_vnc { read_only := 0 } owner_locked 1 2
            ["host", "true"]).2.2.users 1).resume_handler =
          some demo_vnc.guac_vnc_user_resume_handler ∧
        ((guac_vnc_user_join_handler demo_vnc { read_only := 0 } owner_locked 1 2
            ["host", "true"]).2.2.users 1).frame_handler =
          some demo_vnc.guac_vnc_user_frame_handler ∧
        ((guac_vnc_user_join_handler demo_vnc { read_only := 0 } owner_locked 1 2
            ["host", "true"]).2.2.users 1).sync_handler =
          some demo_vnc.guac_vnc_user_sync_handler) ∧
      (guac_vnc_user_join_handler demo_vnc { read_only := 0 } owner_locked 1 1 ["host"]).1 = 0 ∧
      (guac_vnc_user_join_handler demo_vnc { read_only := 0 } owner_locked 1 1
        ["host"]).2.1.read_only = 0 ∧
      (((guac_vnc_user_join_handler demo_vnc { read_only := 0 } owner_locked 1 1
            ["host"]).2.2.users 1).mouse_handler = some demo_vnc.guac_vnc_user_mouse_handler ∧
        ((guac_vnc_user_join_handler demo_vnc { read_only := 0 } owner_locked 1 1
            ["host"]).2.2.users 1).key_handler = some demo_vnc.guac_vnc_user_key_handler ∧
        ((guac_vnc_user_join_handler demo_vnc { read_only := 0 } owner_locked 1 1
            ["host"]).2.2.users 1).clipboard_handler =
          some demo_vnc.guac_vnc_clipboard_handler) ∧
      ((guac_vnc_user_join_handler demo_vnc { read_only := 1 } owner_locked 2 0 []).2.2.users 2) =
        { blank_user 102 with
          leave_handler := some 305, resume_handler := some 306, frame_handler := some 307,
          sync_handler := some 308 } :=
  ⟨by decide, by decide,
    (C38_read_only_vnc_installs_no_input_handlers demo_vnc { read_only := 0 } owner_locked 1 2
      ["host", "true"] (by decide)).1 (by decide),
    (C38_read_only_vnc_installs_no_input_handlers demo_vnc { read_only := 0 } owner_locked 1 2
      ["host", "true"] (by decide)).2.1,
    by decide, by decide,
    (C38_read_only_vnc_installs_no_input_handlers demo_vnc { read_only := 0 } owner_locked 1 1
      ["host"] (by decide)).2.2.1 (by decide),
    by decide⟩

/-! ## The list invariant -/

theorem DList_succ_prev (users : UserPtr → guac_user) :
    ∀ (l : List UserPtr) (p h : Option UserPtr), DList users p h l →
      ∀ u, u ∈ l → ∀ n, (users u).__next = some n → (users n).__prev = some u := by
  intro l
  induction l with
  | nil => intro p h _ u hu; cases hu
  | cons v t ih =>
    intro p h hd u hu n hn
    rcases List.mem_cons.mp hu with rfl | hut
    · have ht := hd.2.2
      rw [hn] at ht
      cases t with
      | nil => cases ht
      | cons m s =>
        have hm : some n = some m := ht.1
        injection hm with hm
        rw [hm]
        exact ht.2.1
    · exact ih (some v) _ hd.2.2 u hut n hn

theorem DList_of_chain (users : UserPtr → guac_user) :
    ∀ (l : List UserPtr) (p h : Option UserPtr), NextChain users h l →
      (∀ u, h = some u → (users u).__prev = p) →
      (∀ u, u ∈ l → ∀ n, (users u).__next = some n → (users n).__prev = some u) →
      DList users p h l := by
  intro l
  induction l with
  | nil => intro p h hc _ _; exact hc
  | cons v t ih =>
    intro p h hc hhead hsucc
    refine ⟨hc.1, hhead v hc.1, ?_⟩
    refine ih (some v) _ hc.2 ?_ ?_
    · intro u hu
      exact hsucc v (List.mem_cons_self v t) u hu
    · intro u hu n hn
      exact hsucc u (List.mem_cons_of_mem v hu) n hn

/-- The invariant in the words of the claim is the well-formedness used
throughout. -/
theorem ListInvariant_iff_WellFormed (w : World) (l : List UserPtr) :
    ListInvariant w l ↔ WellFormed w l := by
  constructor
  · intro h
    obtain ⟨hc, _, hhead, hsucc⟩ := h
    exact DList_of_chain w.users l none _ hc hhead hsucc
  · intro h
    refine ⟨NextChain_of_DList _ l none _ h, DList_nodup _ _ _ _ h, ?_,
      DList_succ_prev _ l none _ h⟩
    intro head hh
    cases l with
    | nil =>
      have h0 : w.client.__users = none := h
      rw [h0] at hh
      cases hh
    | cons v t =>
      have hv : w.client.__users = some v := h.1
      rw [hv] at hh
      injection hh with hh
      rw [← hh]
      exact h.2.1

/-- Every valid sequence of joins and leaves keeps the list well-formed. -/
theorem user_run_wf (env : Env) (ops : List UserOp) :
    ∀ (w : World) (l : List UserPtr), WellFormed w l → UserOpsValid env w ops →
      ∃ l1, WellFormed (user_run env w ops) l1 := by
  induction ops with
  | nil => intro w l hwf _; exact ⟨l, hwf⟩
  | cons op rest ih =>
    intro w l hwf hvalid
    have hstep : ∃ l1, WellFormed (user_step env w op) l1 := by
      cases op with
      | add user argc argv =>
        have hnew : user ∉ l := hvalid.1 l hwf
        by_cases h : (guac_client_add_user env w user argc argv).1 = 0
        · exact ⟨user :: l, (add_user_accepted env w user argc argv h).2 l hwf hnew⟩
        · obtain ⟨hu, hc⟩ := add_user_refused env w user argc argv h
          exact ⟨l, (WellFormed_congr w _ l hu hc).mpr hwf⟩
      | remove user =>
        obtain ⟨l0, hwf0, hmem0⟩ := hvalid.1
        have hmem : user ∈ l := by
          rw [WellFormed_unique w l l0 hwf hwf0]
          exact hmem0
        exact ⟨l.erase user, remove_user_wf w user l hwf hmem⟩
    obtain ⟨l1, hwf1⟩ := hstep
    have hrest : UserOpsValid env (user_step env w op) rest := by
      cases op with
      | add user argc argv => exact hvalid.2
      | remove user => exact hvalid.2
    exact ih (user_step env w op) l1 hwf1 hrest

/-- Claim C34.  Let the list of `w` satisfy the invariant: it is the finite,
acyclic chain `l`, the head has no predecessor, and every member with a
successor is the predecessor of that successor.  Then after
`guac_client_add_user` of a user not in `l` the invariant holds again (for
`user :: l` when the join succeeded, for `l` when it was refused), after
`guac_client_remove_user` of a member it holds for `l.erase user`, and
`guac_client_foreach_user` returns.  Consequently, from a client returned by
`guac_client_alloc`, every valid sequence of joins and leaves ends in a state
that satisfies the invariant and on which `guac_client_foreach_user`
returns.  The callback is assumed to leave `__next` and `state` alone. -/
theorem C34_list_invariant_is_preserved {δ : Type} (env : Env) (w : World)
    (l : List UserPtr) (user : UserPtr) (argc : Int) (argv : List String)
    (callback : UserPtr → δ → World → World) (data : δ)
    (hinv : ListInvariant w l)
    (hframe : ∀ u d w1 v, ((callback u d w1).users v).__next = (w1.users v).__next ∧
      ((callback u d w1).users v).state = (w1.users v).state) :
    (user ∉ l →
        ((guac_client_add_user env w user argc argv).1 = 0 →
          ListInvariant (guac_client_add_user env w user argc argv).2 (user :: l)) ∧
        ((guac_client_add_user env w user argc argv).1 ≠ 0 →
          ListInvariant (guac_client_add_user env w user argc argv).2 l)) ∧
      (user ∈ l → ListInvariant (guac_client_remove_user w user) (l.erase user)) ∧
      (∃ w1, guac_client_foreach_user l.length w callback data = some w1) ∧
      (∀ fuel, l.length ≤ fuel →
        (guac_client_foreach_user fuel w callback data).isSome = true) ∧
      ∀ (a : AllocEnv) (client : guac_client) (socket : guac_socket)
        (users : UserPtr → guac_user) (trace : List Event) (ops : List UserOp),
        guac_client_alloc a = some (client, socket) →
        UserOpsValid env { client := client, users := users, trace := trace } ops →
        ∃ l1, ListInvariant
            (user_run env { client := client, users := users, trace := trace } ops) l1 ∧
          ∃ w1, guac_client_foreach_user l1.length
            (user_run env { client := client, users := users, trace := trace } ops)
            callback data = some w1 := by
  have hwf : WellFormed w l := (ListInvariant_iff_WellFormed w l).mp hinv
  refine ⟨?_, ?_, ?_, ?_, ?_⟩
  · intro hnew
    constructor
    · intro h0
      exact (ListInvariant_iff_WellFormed _ _).mpr
        ((add_user_accepted env w user argc argv h0).2 l hwf hnew)
    · intro hne
      obtain ⟨hu, hc⟩ := add_user_refused env w user argc argv hne
      exact (ListInvariant_iff_WellFormed _ _).mpr ((WellFormed_congr w _ l hu hc).mpr hwf)
  · intro hmem
    exact (ListInvariant_iff_WellFormed _ _).mpr (remove_user_wf w user l hwf hmem)
  · exact ⟨_, foreach_user_visits w l callback data l.length hwf hframe (le_refl _)⟩
  · intro fuel hfuel
    rw [foreach_user_visits w l callback data fuel hwf hframe hfuel]
    rfl
  · intro a client socket users trace ops halloc hvalid
    have hempty : client.__users = none := by
      unfold guac_client_alloc at halloc
      cases hm : a.malloc with
      | none => simp [hm] at halloc
      | some address =>
        cases hi : a.generated_id with
        | none => simp [hm, hi] at halloc
        | some id =>
          simp only [hm, hi, Option.some.injEq, Prod.mk.injEq] at halloc
          rw [← halloc.1]
    have hwf0 : WellFormed { client := client, users := users, trace := trace } [] := hempty
    obtain ⟨l1, hwf1⟩ := user_run_wf env ops _ [] hwf0 hvalid
    exact ⟨l1, (ListInvariant_iff_WellFormed _ _).mpr hwf1,
      _, foreach_user_visits _ l1 callback data l1.length hwf1 hframe (le_refl _)⟩

/-- C34 at a concrete input: the list 3, 2, 1 satisfies the invariant; user 4
may join, user 2 may leave, and the invariant holds afterwards. -/
theorem C34_list_invariant_witness :
    ListInvariant three_users_world [3, 2, 1] ∧
      (∀ (u : UserPtr) (d : Nat) (w1 : World) (v : UserPtr),
        ((recording_callback 9 u d w1).users v).__next = (w1.users v).__next ∧
          ((recording_callback 9 u d w1).users v).state = (w1.users v).state) ∧
      ListInvariant (guac_client_add_user calm_env three_users_world 4 0 []).2 [4, 3, 2, 1] ∧
      ListInvariant (guac_client_remove_user three_users_world 2) ([3, 2, 1].erase 2) ∧
      (∃ w1, guac_client_foreach_user ([3, 2, 1] : List UserPtr).length three_users_world
        (recording_callback 9) 77 = some w1) ∧
      [3, 2, 1].erase 2 = [3, 1] :=
  ⟨(ListInvariant_iff_WellFormed three_users_world [3, 2, 1]).mpr three_users_wf,
    fun _ _ _ _ => ⟨rfl, rfl⟩,
    ((C34_list_invariant_is_preserved calm_env three_users_world [3, 2, 1] 4 0 []
      (recording_callback 9) 77
      ((ListInvariant_iff_WellFormed three_users_world [3, 2, 1]).mpr three_users_wf)
      (fun _ _ _ _ => ⟨rfl, rfl⟩)).1 (by decide)).1 (by decide),
    (C34_list_invariant_is_preserved calm_env three_users_world [3, 2, 1] 2 0 []
      (recording_callback 9) 77
      ((ListInvariant_iff_WellFormed three_users_world [3, 2, 1]).mpr three_users_wf)
      (fun _ _ _ _ => ⟨rfl, rfl⟩)).2.1 (by decide),
    (C34_list_invariant_is_preserved calm_env three_users_world [3, 2, 1] 2 0 []
      (recording_callback 9) 77
      ((ListInvariant_iff_WellFormed three_users_world [3, 2, 1]).mpr three_users_wf)
      (fun _ _ _ _ => ⟨rfl, rfl⟩)).2.2.1,
    by decide⟩

/-! ## Joining a client that has no join handler -/

/-- Claim C35.  On a client without join handler `guac_client_add_user` returns
0 for every `argc` and `argv`; a user not yet in the well-formed list `l`
becomes its head, the former members following, and `connected_users` grows by
one.  The arguments are not looked at: the result is the same for any other
arguments (and any surroundings), and nothing but the lock is called. -/
theorem C35_add_user_without_join_handler (env : Env) (w : World) (l : List UserPtr)
    (user : UserPtr) (argc : Int) (argv : List String)
    (hjoin : w.client.join_handler = none) (hwf : WellFormed w l) (hnew : user ∉ l) :
    (guac_client_add_user env w user argc argv).1 = 0 ∧
      WellFormed (guac_client_add_user env w user argc argv).2 (user :: l) ∧
      (guac_client_add_user env w user argc argv).2.client.__users = some user ∧
      (guac_client_add_user env w user argc argv).2.client.connected_users =
        w.client.connected_users + 1 ∧
      (∀ (env2 : Env) (argc2 : Int) (argv2 : List String),
        guac_client_add_user env2 w user argc2 argv2 =
          guac_client_add_user env w user argc argv) ∧
      events_since w.trace.length (guac_client_add_user env w user argc argv).2 =
        [Event.mutex_lock, Event.mutex_unlock] := by
  have h0 : (guac_client_add_user env w user argc argv).1 = 0 := by
    rw [add_user_retval, hjoin]
  obtain ⟨hc, hl⟩ := add_user_accepted env w user argc argv h0
  refine ⟨h0, hl l hwf hnew, ?_, ?_, ?_, ?_⟩
  · rw [hc]
  · rw [hc]
  · intro env2 argc2 argv2
    unfold guac_client_add_user
    simp [hjoin]
  · unfold events_since
    rw [add_user_exact, List.drop_left, hjoin]
    rfl

/-- C35 at a concrete input: user 4 joins the client with the users 3, 2, 1,
which has no join handler, with arguments that no back-end would accept. -/
theorem C35_add_user_witness :
    three_users_world.client.join_handler = none ∧
      WellFormed three_users_world [3, 2, 1] ∧ (4 : UserPtr) ∉ [3, 2, 1] ∧
      ((guac_client_add_user picky_env three_users_world 4 (-7) ["junk"]).1 = 0 ∧
        WellFormed (guac_client_add_user picky_env three_users_world 4 (-7) ["junk"]).2
          [4, 3, 2, 1] ∧
        (guac_client_add_user picky_env three_users_world 4 (-7) ["junk"]).2.client.__users =
          some 4 ∧
        (guac_client_add_user picky_env three_users_world 4 (-7) ["junk"]).2.client.connected_users
          = three_users_world.client.connected_users + 1 ∧
        (∀ (env2 : Env) (argc2 : Int) (argv2 : List String),
          guac_client_add_user env2 three_users_world 4 argc2 argv2 =
            guac_client_add_user picky_env three_users_world 4 (-7) ["junk"]) ∧
        events_since three_users_world.trace.length
            (guac_client_add_user picky_env three_users_world 4 (-7) ["junk"]).2 =
          [Event.mutex_lock, Event.mutex_unlock]) ∧
      (guac_client_add_user picky_env three_users_world 4 (-7) ["junk"]).2.client.connected_users
        = 4 :=
  ⟨by decide, three_users_wf, by decide,
    C35_add_user_without_join_handler picky_env three_users_world [3, 2, 1] 4 (-7) ["junk"]
      (by decide) three_users_wf (by decide),
    by decide⟩

/-! ## Lock balance -/

theorem callback_fold_trace {δ : Type} (callback : UserPtr → δ → World → World) (data : δ)
    (hcb : ∀ u d w1, ∃ new, (callback u d w1).trace = w1.trace ++ new ∧
      new.filter is_mutex_event = []) :
    ∀ (l : List UserPtr) (w : World),
      ∃ inner, (l.foldl (fun acc u => callback u data acc) w).trace = w.trace ++ inner ∧
        inner.filter is_mutex_event = [] := by
  intro l
  induction l with
  | nil => intro w; exact ⟨[], by simp, rfl⟩
  | cons u t ih =>
    intro w
    obtain ⟨new, hnew, hfn⟩ := hcb u data w
    obtain ⟨inner, hin, hfi⟩ := ih (callback u data w)
    refine ⟨new ++ inner, ?_, ?_⟩
    · simp only [List.foldl_cons]
      rw [hin, hnew, List.append_assoc]
    · rw [List.filter_append, hfn, hfi]
      rfl

theorem filter_mutex_leave_calls (of_user of_client : Option FnPtr) (user : UserPtr) :
    (spec_handler_calls Event.leave_handler of_user of_client user).filter is_mutex_event
      = [] := by
  unfold spec_handler_calls spec_fallback_handler
  cases of_user <;> cases of_client <;> simp [is_mutex_event]

/-- Claim C36.  In `guac_client_add_user` (whatever the join handler returns),
in `guac_client_remove_user` and in `guac_client_foreach_user` (on a
well-formed list of any length) the events of the call are: one
`pthread_mutex_lock`, then the handler or callback invocations, none of which
touches the lock, then one `pthread_mutex_unlock`, after which the function
returns.  So the lock is taken once, released once, and every invocation lies
between the two.  The callback is assumed to return, to leave `__next` and
`state` alone and not to use the users lock itself. -/
theorem C36_users_lock_is_balanced {δ : Type} (env : Env) (w : World) (l : List UserPtr)
    (joining user : UserPtr) (argc : Int) (argv : List String)
    (callback : UserPtr → δ → World → World) (data : δ) (fuel : Nat)
    (hwf : WellFormed w l)
    (hframe : ∀ u d w1 v, ((callback u d w1).users v).__next = (w1.users v).__next ∧
      ((callback u d w1).users v).state = (w1.users v).state)
    (hcb : ∀ u d w1, ∃ new, (callback u d w1).trace = w1.trace ++ new ∧
      new.filter is_mutex_event = [])
    (hfuel : l.length ≤ fuel) :
    (∃ inner,
        events_since w.trace.length (guac_client_add_user env w joining argc argv).2 =
          Event.mutex_lock :: inner ++ [Event.mutex_unlock] ∧
        inner.filter is_mutex_event = [] ∧
        inner = (match w.client.join_handler with
          | some fn => [Event.join_handler fn joining argc argv]
          | none => []) ∧
        (events_since w.trace.length
          (guac_client_add_user env w joining argc argv).2).filter is_mutex_event =
          [Event.mutex_lock, Event.mutex_unlock]) ∧
      (∃ inner,
        events_since w.trace.length (guac_client_remove_user w user) =
          Event.mutex_lock :: inner ++ [Event.mutex_unlock] ∧
        inner.filter is_mutex_event = [] ∧
        inner = spec_handler_calls Event.leave_handler (w.users user).leave_handler
          w.client.leave_handler user ∧
        (events_since w.trace.length (guac_client_remove_user w user)).filter is_mutex_event =
          [Event.mutex_lock, Event.mutex_unlock]) ∧
      (∃ w1 inner,
        guac_client_foreach_user fuel w callback data = some w1 ∧
        w1 = emit ((running_users w l).foldl (fun acc u => callback u data acc)
          (emit w Event.mutex_lock)) Event.mutex_unlock ∧
        events_since w.trace.length w1 = Event.mutex_lock :: inner ++ [Event.mutex_unlock] ∧
        inner.filter is_mutex_event = [] ∧
        (events_since w.trace.length w1).filter is_mutex_event =
          [Event.mutex_lock, Event.mutex_unlock]) := by
  have hcount : ∀ inner : List Event, inner.filter is_mutex_event = [] →
      (Event.mutex_lock :: inner ++ [Event.mutex_unlock]).filter is_mutex_event =
        [Event.mutex_lock, Event.mutex_unlock] := by
    intro inner hin
    rw [List.cons_append, List.filter_cons, List.filter_append, hin]
    simp [is_mutex_event]
  refine ⟨?_, ?_, ?_⟩
  · have hev : events_since w.trace.length (guac_client_add_user env w joining argc argv).2 =
        Event.mutex_lock :: (match w.client.join_handler with
          | some fn => [Event.join_handler fn joining argc argv]
          | none => []) ++ [Event.mutex_unlock] := by
      unfold events_since
      rw [add_user_exact, List.drop_left]
      rfl
    have hin : (match w.client.join_handler with
          | some fn => [Event.join_handler fn joining argc argv]
          | none => []).filter is_mutex_event = [] := by
      cases w.client.join_handler <;> simp [is_mutex_event]
    refine ⟨_, hev, hin, rfl, ?_⟩
    rw [hev]
    exact hcount _ hin
  · have hev : events_since w.trace.length (guac_client_remove_user w user) =
        Event.mutex_lock :: spec_handler_calls Event.leave_handler (w.users user).leave_handler
          w.client.leave_handler user ++ [Event.mutex_unlock] := by
      unfold events_since
      rw [remove_user_exact, List.drop_left]
      rfl
    refine ⟨_, hev, filter_mutex_leave_calls _ _ _, rfl, ?_⟩
    rw [hev]
    exact hcount _ (filter_mutex_leave_calls _ _ _)
  · obtain ⟨inner, htr, hin⟩ := callback_fold_trace callback data hcb (running_users w l)
      (emit w Event.mutex_lock)
    have hev : events_since w.trace.length
        (emit ((running_users w l).foldl (fun acc u => callback u data acc)
          (emit w Event.mutex_lock)) Event.mutex_unlock) =
        Event.mutex_lock :: inner ++ [Event.mutex_unlock] := by
      unfold events_since
      rw [emit_trace, htr, emit_trace]
      simp
    refine ⟨_, inner, foreach_user_visits w l callback data fuel hwf hframe hfuel, rfl, hev,
      hin, ?_⟩
    rw [hev]
    exact hcount _ hin

/-- C36 at a concrete input: on the client with the users 3, 2, 1 a join that
the join handler refuses, a leave and a visit of the users each take the lock
once and release it once, around the handler and callback invocations. -/
theorem C36_users_lock_witness :
    WellFormed guarded_world [3, 2, 1] ∧
      (∀ (u : UserPtr) (d : Nat) (w1 : World) (v : UserPtr),
        ((recording_callback 9 u d w1).users v).__next = (w1.users v).__next ∧
          ((recording_callback 9 u d w1).users v).state = (w1.users v).state) ∧
      (∀ (u : UserPtr) (d : Nat) (w1 : World),
        ∃ new, (recording_callback 9 u d w1).trace = w1.trace ++ new ∧
          new.filter is_mutex_event = []) ∧
      [3, 2, 1].length ≤ 3 ∧
      ((∃ inner,
          events_since guarded_world.trace.length
              (guac_client_add_user refusing_env guarded_world 4 0 []).2 =
            Event.mutex_lock :: inner ++ [Event.mutex_unlock] ∧
          inner.filter is_mutex_event = [] ∧
          inner = (match guarded_world.client.join_handler with
            | some fn => [Event.join_handler fn 4 0 []]
            | none => []) ∧
          (events_since guarded_world.trace.length
            (guac_client_add_user refusing_env guarded_world 4 0 []).2).filter is_mutex_event =
            [Event.mutex_lock, Event.mutex_unlock]) ∧
        (∃ inner,
          events_since guarded_world.trace.length (guac_client_remove_user guarded_world 2) =
            Event.mutex_lock :: inner ++ [Event.mutex_unlock] ∧
          inner.filter is_mutex_event = [] ∧
          inner = spec_handler_calls Event.leave_handler (guarded_world.users 2).leave_handler
            guarded_world.client.leave_handler 2 ∧
          (events_since guarded_world.trace.length
            (guac_client_remove_user guarded_world 2)).filter is_mutex_event =
            [Event.mutex_lock, Event.mutex_unlock]) ∧
        (∃ w1 inner,
          guac_client_foreach_user 3 guarded_world (recording_callback 9) 77 = some w1 ∧
          w1 = emit ((running_users guarded_world [3, 2, 1]).foldl
            (fun acc u => recording_callback 9 u 77 acc)
            (emit guarded_world Event.mutex_lock)) Event.mutex_unlock ∧
          events_since guarded_world.trace.length w1 =
            Event.mutex_lock :: inner ++ [Event.mutex_unlock] ∧
          inner.filter is_mutex_event = [] ∧
          (events_since guarded_world.trace.length w1).filter is_mutex_event =
            [Event.mutex_lock, Event.mutex_unlock])) ∧
      (guac_client_add_user refusing_env guarded_world 4 0 []).1 = 7 ∧
      events_since guarded_world.trace.length
          (guac_client_add_user refusing_env guarded_world 4 0 []).2 =
        [Event.mutex_lock, Event.join_handler 50 4 0 [], Event.mutex_unlock] ∧
      events_since guarded_world.trace.length
          (guac_client_add_user calm_env guarded_world 4 0 []).2 =
        [Event.mutex_lock, Event.join_handler 50 4 0 [], Event.mutex_unlock] ∧
      events_since guarded_world.trace.length (guac_client_remove_user guarded_world 2) =
        [Event.mutex_lock, Event.leave_handler HandlerOf.user 73 2, Event.mutex_unlock] :=
  ⟨by decide, fun _ _ _ _ => ⟨rfl, rfl⟩,
    fun u d _ => ⟨[Event.user_callback 9 u d], rfl, rfl⟩, by decide,
    C36_users_lock_is_balanced refusing_env guarded_world [3, 2, 1] 4 2 0 []
      (recording_callback 9) 77 3 (by decide) (fun _ _ _ _ => ⟨rfl, rfl⟩)
      (fun u d _ => ⟨[Event.user_callback 9 u d], rfl, rfl⟩) (by decide),
    by decide, by decide, by decide, by decide⟩

/-! ## The lag control of the two back-ends -/

/-- Claim C37.  With the threshold of the VNC back-end equal to
`GUAC_RDP_LAG_THRESHOLD`, the frame handlers of the two back-ends return the
same value and leave the same memory (user states, handler calls and all) on
every input, and so do the sync handlers; all four return 0; and the result of
a frame handler is the same for any two timestamp arguments. -/
theorem C37_rdp_and_vnc_lag_control_agree (w : World) (user : UserPtr)
    (timestamp other_timestamp : Int) :
    guac_vnc_user_frame_handler GUAC_RDP_LAG_THRESHOLD w user timestamp =
        guac_rdp_user_frame_handler w user timestamp ∧
      guac_vnc_user_sync_handler w user timestamp = guac_rdp_user_sync_handler w user timestamp ∧
      (guac_rdp_user_frame_handler w user timestamp).1 = 0 ∧
      (guac_vnc_user_frame_handler GUAC_RDP_LAG_THRESHOLD w user timestamp).1 = 0 ∧
      (guac_rdp_user_sync_handler w user timestamp).1 = 0 ∧
      (guac_vnc_user_sync_handler w user timestamp).1 = 0 ∧
      guac_rdp_user_frame_handler w user timestamp =
        guac_rdp_user_frame_handler w user other_timestamp ∧
      (∀ threshold, guac_vnc_user_frame_handler threshold w user timestamp =
        guac_vnc_user_frame_handler threshold w user other_timestamp) ∧
      (∀ v, ((guac_vnc_user_frame_handler GUAC_RDP_LAG_THRESHOLD w user timestamp).2.users
          v).state = ((guac_rdp_user_frame_handler w user timestamp).2.users v).state) ∧
      handler_calls_since w.trace.length
          (guac_vnc_user_frame_handler GUAC_RDP_LAG_THRESHOLD w user timestamp).2 =
        handler_calls_since w.trace.length (guac_rdp_user_frame_handler w user timestamp).2 := by
  have hframe : guac_vnc_user_frame_handler GUAC_RDP_LAG_THRESHOLD w user timestamp =
      guac_rdp_user_frame_handler w user timestamp := rfl
  refine ⟨hframe, rfl, ?_, ?_, ?_, ?_, rfl, fun _ => rfl, ?_, ?_⟩
  · unfold guac_rdp_user_frame_handler
    simp only []
    split <;> rfl
  · unfold guac_vnc_user_frame_handler
    simp only []
    split <;> rfl
  · unfold guac_rdp_user_sync_handler
    split <;> rfl
  · unfold guac_vnc_user_sync_handler
    split <;> rfl
  · intro v
    rw [hframe]
  · rw [hframe]

/-! ## The statements of the list operations and the users lock -/

theorem add_user_actions_run {δ : Type} (callback : UserPtr → δ → World → World) (data : δ)
    (env : Env) (w : World) (user : UserPtr) (argc : Int) (argv : List String) :
    run_list_actions callback data w (add_user_actions env w user argc argv) =
      (guac_client_add_user env w user argc argv).2 := by
  unfold run_list_actions add_user_actions guac_client_add_user add_user_link
  cases hj : w.client.join_handler with
  | none =>
    cases hh : w.client.__users <;>
      simp [hj, hh, run_list_action, emit, set_user]
  | some fn =>
    by_cases hr : env.join_result fn user argc argv (w.trace ++ [Event.mutex_lock]) = 0
    · cases hh : w.client.__users <;>
        simp [hj, hh, hr, run_list_action, emit, set_user]
    · simp [hj, hr, run_list_action, emit, set_user]

theorem remove_user_actions_run {δ : Type} (callback : UserPtr → δ → World → World) (data : δ)
    (w : World) (user : UserPtr) :
    run_list_actions callback data w (remove_user_actions w user) =
      guac_client_remove_user w user := by
  unfold run_list_actions remove_user_actions guac_client_remove_user remove_user_unlink
  cases hl : (w.users user).leave_handler <;> cases hc : w.client.leave_handler <;>
    simp [hl, hc, run_list_action, emit, set_user]

theorem visit_fold {δ : Type} (callback : UserPtr → δ → World → World) (data : δ)
    (hframe : ∀ u d w1 v, ((callback u d w1).users v).__next = (w1.users v).__next ∧
      ((callback u d w1).users v).state = (w1.users v).state) :
    ∀ (l : List UserPtr) (w : World),
      (l.map ListAction.visit).foldl (run_list_action callback data) w =
        (running_users w l).foldl (fun acc u => callback u data acc) w := by
  intro l
  induction l with
  | nil => intro w; rfl
  | cons u t ih =>
    intro w
    simp only [List.map_cons, List.foldl_cons, run_list_action]
    by_cases hr : (w.users u).state = guac_user_state.GUAC_USER_RUNNING
    · rw [if_pos hr, ih]
      have hrun : running_users w (u :: t) = u :: running_users w t := by
        simp [running_users, hr]
      rw [hrun, List.foldl_cons,
        running_users_congr w (callback u data w) t (fun v => (hframe u data w v).2)]
    · rw [if_neg hr, ih]
      have hrun : running_users w (u :: t) = running_users w t := by
        simp [running_users, hr]
      rw [hrun]

theorem foreach_user_actions_run {δ : Type} (w : World) (l : List UserPtr)
    (callback : UserPtr → δ → World → World) (data : δ) (fuel : Nat)
    (hwf : WellFormed w l)
    (hframe : ∀ u d w1 v, ((callback u d w1).users v).__next = (w1.users v).__next ∧
      ((callback u d w1).users v).state = (w1.users v).state)
    (hfuel : l.length ≤ fuel) :
    guac_client_foreach_user fuel w callback data =
      some (run_list_actions callback data w (foreach_user_actions l)) := by
  rw [foreach_user_visits w l callback data fuel hwf hframe hfuel]
  unfold run_list_actions foreach_user_actions
  simp only [List.foldl_append, List.foldl_cons, List.foldl_nil, run_list_action]
  rw [visit_fold callback data hframe l (emit w Event.mutex_lock)]
  rfl

/-- A list of statements that starts with `a`, ends with `b` and has no `b`
before the end: while `a` has not been executed nothing has, and once `b` has
been executed everything has. -/
theorem bracketed_take {α : Type} (a b : α) (mid : List α) (hb : b ∉ a :: mid) (k : Nat) :
    (a ∉ (a :: mid ++ [b]).take k → (a :: mid ++ [b]).take k = []) ∧
      (b ∈ (a :: mid ++ [b]).take k → (a :: mid ++ [b]).take k = a :: mid ++ [b]) := by
  constructor
  · intro h
    cases k with
    | zero => rfl
    | succ j =>
      exfalso
      apply h
      simp
  · intro h
    by_cases hk : (a :: mid ++ [b]).length ≤ k
    · exact List.take_of_length_le hk
    · exfalso
      have hk2 : k ≤ (a :: mid).length := by
        simp at hk ⊢
        omega
      have htake : (a :: mid ++ [b]).take k = (a :: mid).take k := by
        rw [List.take_append_of_le_length hk2]
      rw [htake] at h
      exact hb (List.mem_of_mem_take h)

theorem add_user_actions_shape (env : Env) (w : World) (user : UserPtr) (argc : Int)
    (argv : List String) :
    ∃ middle, add_user_actions env w user argc argv =
        ListAction.call Event.mutex_lock :: middle ++ [ListAction.call Event.mutex_unlock] ∧
      ∀ a, a ∈ middle →
        a ≠ ListAction.call Event.mutex_lock ∧ a ≠ ListAction.call Event.mutex_unlock := by
  unfold add_user_actions
  cases hj : w.client.join_handler with
  | none =>
    refine ⟨[ListAction.clear_prev user, ListAction.next_from_head user,
      ListAction.head_prev user, ListAction.head_to user, ListAction.count_up], by simp, ?_⟩
    intro a ha
    constructor <;> (intro h; subst h; simp at ha)
  | some fn =>
    by_cases hr : env.join_result fn user argc argv (w.trace ++ [Event.mutex_lock]) = 0
    · refine ⟨[ListAction.call (Event.join_handler fn user argc argv),
        ListAction.clear_prev user, ListAction.next_from_head user,
        ListAction.head_prev user, ListAction.head_to user, ListAction.count_up],
        by simp [hr], ?_⟩
      intro a ha
      constructor <;> (intro h; subst h; simp at ha)
    · refine ⟨[ListAction.call (Event.join_handler fn user argc argv)], by simp [hr], ?_⟩
      intro a ha
      constructor <;> (intro h; subst h; simp at ha)

theorem remove_user_actions_shape (w : World) (user : UserPtr) :
    ∃ middle, remove_user_actions w user =
        ListAction.call Event.mutex_lock :: middle ++ [ListAction.call Event.mutex_unlock] ∧
      ∀ a, a ∈ middle →
        a ≠ ListAction.call Event.mutex_lock ∧ a ≠ ListAction.call Event.mutex_unlock := by
  unfold remove_user_actions
  cases hl : (w.users user).leave_handler with
  | some fn =>
    refine ⟨[ListAction.call (Event.leave_handler HandlerOf.user fn user),
      ListAction.update_prev user, ListAction.update_next user, ListAction.count_down],
      by simp, ?_⟩
    intro a ha
    constructor <;> (intro h; subst h; simp at ha)
  | none =>
    cases hc : w.client.leave_handler with
    | some fn =>
      refine ⟨[ListAction.call (Event.leave_handler HandlerOf.client fn user),
        ListAction.update_prev user, ListAction.update_next user, ListAction.count_down],
        by simp, ?_⟩
      intro a ha
      constructor <;> (intro h; subst h; simp at ha)
    | none =>
      refine ⟨[ListAction.update_prev user, ListAction.update_next user,
        ListAction.count_down], by simp, ?_⟩
      intro a ha
      constructor <;> (intro h; subst h; simp at ha)

theorem foreach_user_actions_shape (l : List UserPtr) :
    ∃ middle, foreach_user_actions l =
        ListAction.call Event.mutex_lock :: middle ++ [ListAction.call Event.mutex_unlock] ∧
      ∀ a, a ∈ middle →
        a ≠ ListAction.call Event.mutex_lock ∧ a ≠ ListAction.call Event.mutex_unlock := by
  unfold foreach_user_actions
  refine ⟨ListAction.read_head :: l.map ListAction.visit, by simp, ?_⟩
  intro a ha
  constructor <;> (intro h; subst h; simp at ha)

/-- In a list of statements bracketed by the lock and the unlock: while the
lock has not been taken no statement has been executed, and once the unlock
has been executed all statements have. -/
theorem lock_bracket_take (actions middle : List ListAction)
    (hshape : actions =
      ListAction.call Event.mutex_lock :: middle ++ [ListAction.call Event.mutex_unlock])
    (hmid : ∀ a, a ∈ middle →
      a ≠ ListAction.call Event.mutex_lock ∧ a ≠ ListAction.call Event.mutex_unlock)
    (k : Nat) :
    (ListAction.call Event.mutex_lock ∉ actions.take k → actions.take k = []) ∧
      (ListAction.call Event.mutex_unlock ∈ actions.take k → actions.take k = actions) := by
  rw [hshape]
  apply bracketed_take
  intro h
  rcases List.mem_cons.mp h with h1 | h1
  · cases h1
  · exact (hmid _ h1).2 rfl

theorem suspend_user_actions_lock_free (w : World) (user : UserPtr) :
    ListAction.call Event.mutex_lock ≠ ListAction.call Event.mutex_unlock ∧
      Action.call Event.mutex_lock ∉ suspend_user_actions w user ∧
      Action.assign_state user guac_user_state.GUAC_USER_SUSPENDED ∈
        suspend_user_actions w user ∧
      Action.call Event.mutex_lock ∉ resume_user_actions w user ∧
      Action.assign_state user guac_user_state.GUAC_USER_RUNNING ∈
        resume_user_actions w user := by
  unfold suspend_user_actions resume_user_actions
  refine ⟨by decide, ?_, by simp, ?_, by simp⟩
  · cases w.client.log_handler <;> cases (w.users user).suspend_handler <;>
      cases w.client.suspend_handler <;> simp
  · cases w.client.log_handler <;> cases (w.users user).resume_handler <;>
      cases w.client.resume_handler <;> simp

/-- Claim C29, amended.  `guac_client_add_user`, `guac_client_remove_user` and
`guac_client_foreach_user` are the execution of their statements in the order
of the source, and in each of them the first statement is the
`pthread_mutex_lock` on the users lock and the last one the
`pthread_mutex_unlock`, with no other lock or unlock between: while the lock
has not been taken no statement has been executed, so nothing of the list has
been read or written, and once the unlock has been executed the function is
finished, so the lock is held until the last access to the list is over.
`guac_client_suspend_user` and `guac_client_resume_user` are the execution of
statements among which there is the assignment of the state of the user and no
`pthread_mutex_lock`: they write the state without the users lock.  The events
of the five functions are given as well. -/
theorem C29_users_lock_brackets_list_operations {δ : Type} (env : Env) (w : World)
    (l : List UserPtr) (joining user : UserPtr) (argc : Int) (argv : List String)
    (callback : UserPtr → δ → World → World) (data : δ) (fuel : Nat)
    (hwf : WellFormed w l)
    (hframe : ∀ u d w1 v, ((callback u d w1).users v).__next = (w1.users v).__next ∧
      ((callback u d w1).users v).state = (w1.users v).state)
    (hfuel : l.length ≤ fuel) :
    (run_list_actions callback data w (add_user_actions env w joining argc argv) =
        (guac_client_add_user env w joining argc argv).2 ∧
      (∃ middle, add_user_actions env w joining argc argv =
          ListAction.call Event.mutex_lock :: middle ++ [ListAction.call Event.mutex_unlock] ∧
        ∀ a, a ∈ middle →
          a ≠ ListAction.call Event.mutex_lock ∧ a ≠ ListAction.call Event.mutex_unlock) ∧
      (∀ k,
        (ListAction.call Event.mutex_lock ∉ (add_user_actions env w joining argc argv).take k →
          (add_user_actions env w joining argc argv).take k = []) ∧
        (ListAction.call Event.mutex_unlock ∈ (add_user_actions env w joining argc argv).take k →
          (add_user_actions env w joining argc argv).take k = add_user_actions env w joining argc argv))) ∧
    (run_list_actions callback data w (remove_user_actions w user) = guac_client_remove_user w user ∧
      (∃ middle, remove_user_actions w user =
          ListAction.call Event.mutex_lock :: middle ++ [ListAction.call Event.mutex_unlock] ∧
        ∀ a, a ∈ middle →
          a ≠ ListAction.call Event.mutex_lock ∧ a ≠ ListAction.call Event.mutex_unlock) ∧
      (∀ k,
        (ListAction.call Event.mutex_lock ∉ (remove_user_actions w user).take k →
          (remove_user_actions w user).take k = []) ∧
        (ListAction.call Event.mutex_unlock ∈ (remove_user_actions w user).take k →
          (remove_user_actions w user).take k = remove_user_actions w user))) ∧
    (guac_client_foreach_user fuel w callback data =
        some (run_list_actions callback data w (foreach_user_actions l)) ∧
      (∀ a, a ∈ foreach_user_actions l → is_list_access a = true →
        a = ListAction.read_head ∨ ∃ u, u ∈ l ∧ a = ListAction.visit u) ∧
      (∃ middle, foreach_user_actions l =
          ListAction.call Event.mutex_lock :: middle ++ [ListAction.call Event.mutex_unlock] ∧
        ∀ a, a ∈ middle →
          a ≠ ListAction.call Event.mutex_lock ∧ a ≠ ListAction.call Event.mutex_unlock) ∧
      (∀ k,
        (ListAction.call Event.mutex_lock ∉ (foreach_user_actions l).take k →
          (foreach_user_actions l).take k = []) ∧
        (ListAction.call Event.mutex_unlock ∈ (foreach_user_actions l).take k →
          (foreach_user_actions l).take k = foreach_user_actions l))) ∧
    (run_actions w (suspend_user_actions w user) = guac_client_suspend_user w user ∧
      Action.call Event.mutex_lock ∉ suspend_user_actions w user ∧
      Action.assign_state user guac_user_state.GUAC_USER_SUSPENDED ∈
        suspend_user_actions w user ∧
      run_actions w (resume_user_actions w user) = guac_client_resume_user w user ∧
      Action.call Event.mutex_lock ∉ resume_user_actions w user ∧
      Action.assign_state user guac_user_state.GUAC_USER_RUNNING ∈
        resume_user_actions w user) ∧
    (
    events_since w.trace.length (guac_client_add_user env w joining argc argv).2 =
        [Event.mutex_lock] ++
          (match w.client.join_handler with
            | some fn => [Event.join_handler fn joining argc argv]
            | none => []) ++ [Event.mutex_unlock] ∧
      events_since w.trace.length (guac_client_remove_user w user) =
        [Event.mutex_lock] ++
          spec_handler_calls Event.leave_handler (w.users user).leave_handler
            w.client.leave_handler user ++ [Event.mutex_unlock] ∧
      guac_client_foreach_user fuel w callback data =
        some (emit ((running_users w l).foldl (fun acc u => callback u data acc)
          (emit w Event.mutex_lock)) Event.mutex_unlock) ∧
      events_since w.trace.length (guac_client_suspend_user w user) =
        log_events w guac_client_log_level.GUAC_LOG_DEBUG "Suspending user" ++
          [Event.instruction_begin w.client.socket, Event.instruction_end w.client.socket] ++
          spec_handler_calls Event.suspend_handler (w.users user).suspend_handler
            w.client.suspend_handler user ∧
      (events_since w.trace.length (guac_client_suspend_user w user)).filter is_mutex_event
        = [] ∧
      ((guac_client_suspend_user w user).users user).state =
        guac_user_state.GUAC_USER_SUSPENDED ∧
      events_since w.trace.length (guac_client_resume_user w user) =
        log_events w guac_client_log_level.GUAC_LOG_DEBUG "Resuming user" ++
          [Event.instruction_begin w.client.socket, Event.instruction_end w.client.socket] ++
          spec_handler_calls Event.resume_handler (w.users user).resume_handler
            w.client.resume_handler user ∧
      (events_since w.trace.length (guac_client_resume_user w user)).filter is_mutex_event
        = [] ∧
      ((guac_client_resume_user w user).users user).state =
        guac_user_state.GUAC_USER_RUNNING) := by
  obtain ⟨ma, hma, hmida⟩ := add_user_actions_shape env w joining argc argv
  obtain ⟨mr, hmr, hmidr⟩ := remove_user_actions_shape w user
  obtain ⟨mf, hmf, hmidf⟩ := foreach_user_actions_shape l
  obtain ⟨_, hs1, hs2, hr1, hr2⟩ := suspend_user_actions_lock_free w user
  refine ⟨⟨add_user_actions_run callback data env w joining argc argv, ⟨ma, hma, hmida⟩,
      lock_bracket_take _ ma hma hmida⟩,
    ⟨remove_user_actions_run callback data w user, ⟨mr, hmr, hmidr⟩,
      lock_bracket_take _ mr hmr hmidr⟩,
    ⟨foreach_user_actions_run w l callback data fuel hwf hframe hfuel, ?_, ⟨mf, hmf, hmidf⟩,
      lock_bracket_take _ mf hmf hmidf⟩,
    ⟨suspend_user_actions_run w user, hs1, hs2, resume_user_actions_run w user, hr1, hr2⟩, ?_⟩
  · intro a ha hacc
    unfold foreach_user_actions at ha
    simp only [List.singleton_append, List.cons_append, List.nil_append, List.mem_cons,
      List.mem_append, List.mem_map, List.mem_singleton] at ha
    rcases ha with h | h | h | h
    · subst h; simp [is_list_access] at hacc
    · exact Or.inl h
    · obtain ⟨u, hu, hau⟩ := h
      exact Or.inr ⟨u, hu, hau.symm⟩
    · rcases h with h | h
      · subst h; simp [is_list_access] at hacc
      · cases h
  obtain ⟨hs, hsu, _⟩ := suspend_user_exact w user
  obtain ⟨hr, hru, _⟩ := resume_user_exact w user
  have hse : events_since w.trace.length (guac_client_suspend_user w user) =
      log_events w guac_client_log_level.GUAC_LOG_DEBUG "Suspending user" ++
        [Event.instruction_begin w.client.socket, Event.instruction_end w.client.socket] ++
        spec_handler_calls Event.suspend_handler (w.users user).suspend_handler
          w.client.suspend_handler user := by
    unfold events_since
    rw [hs, List.drop_left]
  have hre : events_since w.trace.length (guac_client_resume_user w user) =
      log_events w guac_client_log_level.GUAC_LOG_DEBUG "Resuming user" ++
        [Event.instruction_begin w.client.socket, Event.instruction_end w.client.socket] ++
        spec_handler_calls Event.resume_handler (w.users user).resume_handler
          w.client.resume_handler user := by
    unfold events_since
    rw [hr, List.drop_left]
  refine ⟨?_, ?_, foreach_user_visits w l callback data fuel hwf hframe hfuel, hse, ?_, ?_,
    hre, ?_, ?_⟩
  · unfold events_since
    rw [add_user_exact, List.drop_left]
  · unfold events_since
    rw [remove_user_exact, List.drop_left]
  · rw [hse, List.filter_append, List.filter_append, filter_mutex_log_events,
      filter_mutex_suspend_calls]
    simp [is_mutex_event]
  · rw [hsu]
    simp
  · rw [hre, List.filter_append, List.filter_append, filter_mutex_log_events,
      filter_mutex_resume_calls]
    simp [is_mutex_event]
  · rw [hru]
    simp

/-- C29 (amended) at a concrete input: on the client with the users 3, 2, 1 and
a log handler, user 4 joins, user 2 leaves, the users are visited, user 2 is
suspended and resumed. -/
theorem C29_users_lock_witness :
    WellFormed busy_world [3, 2, 1] ∧
      (∀ (u : UserPtr) (d : Nat) (w1 : World) (v : UserPtr),
        ((recording_callback 9 u d w1).users v).__next = (w1.users v).__next ∧
          ((recording_callback 9 u d w1).users v).state = (w1.users v).state) ∧
      [3, 2, 1].length ≤ 3 ∧
      run_list_actions (recording_callback 9) 77 busy_world
          (add_user_actions calm_env busy_world 4 0 []) =
        (guac_client_add_user calm_env busy_world 4 0 []).2 ∧
      run_list_actions (recording_callback 9) 77 busy_world (remove_user_actions busy_world 2) =
        guac_client_remove_user busy_world 2 ∧
      (remove_user_actions busy_world 2).take 6 = remove_user_actions busy_world 2 ∧
      guac_client_foreach_user 3 busy_world (recording_callback 9) 77 =
        some (run_list_actions (recording_callback 9) 77 busy_world
          (foreach_user_actions [3, 2, 1])) ∧
      (run_actions busy_world (suspend_user_actions busy_world 2) =
          guac_client_suspend_user busy_world 2 ∧
        Action.call Event.mutex_lock ∉ suspend_user_actions busy_world 2 ∧
        Action.assign_state 2 guac_user_state.GUAC_USER_SUSPENDED ∈
          suspend_user_actions busy_world 2 ∧
        run_actions busy_world (resume_user_actions busy_world 2) =
          guac_client_resume_user busy_world 2 ∧
        Action.call Event.mutex_lock ∉ resume_user_actions busy_world 2 ∧
        Action.assign_state 2 guac_user_state.GUAC_USER_RUNNING ∈
          resume_user_actions busy_world 2) ∧
      add_user_actions calm_env busy_world 4 0 [] =
        [ListAction.call Event.mutex_lock, ListAction.clear_prev 4,
          ListAction.next_from_head 4, ListAction.head_prev 4, ListAction.head_to 4,
          ListAction.count_up, ListAction.call Event.mutex_unlock] ∧
      remove_user_actions busy_world 2 =
        [ListAction.call Event.mutex_lock,
          ListAction.call (Event.leave_handler HandlerOf.user 73 2),
          ListAction.update_prev 2, ListAction.update_next 2, ListAction.count_down,
          ListAction.call Event.mutex_unlock] ∧
      foreach_user_actions [3, 2, 1] =
        [ListAction.call Event.mutex_lock, ListAction.read_head, ListAction.visit 3,
          ListAction.visit 2, ListAction.visit 1, ListAction.call Event.mutex_unlock] ∧
      suspend_user_actions busy_world 2 =
        [Action.call (Event.log_handler 70 guac_client_log_level.GUAC_LOG_DEBUG
            "Suspending user"),
          Action.call (Event.instruction_begin 0),
          Action.assign_state 2 guac_user_state.GUAC_USER_SUSPENDED,
          Action.call (Event.instruction_end 0)] ∧
      (guac_client_foreach_user 3 busy_world (recording_callback 9) 77).map
          (events_since busy_world.trace.length) =
        some [Event.mutex_lock, Event.user_callback 9 3 77, Event.user_callback 9 2 77,
          Event.user_callback 9 1 77, Event.mutex_unlock] :=
  ⟨busy_world_wf, fun _ _ _ _ => ⟨rfl, rfl⟩, by decide,
    (C29_users_lock_brackets_list_operations calm_env busy_world [3, 2, 1] 4 2 0 []
      (recording_callback 9) 77 3 busy_world_wf (fun _ _ _ _ => ⟨rfl, rfl⟩) (by decide)).1.1,
    (C29_users_lock_brackets_list_operations calm_env busy_world [3, 2, 1] 4 2 0 []
      (recording_callback 9) 77 3 busy_world_wf (fun _ _ _ _ => ⟨rfl, rfl⟩) (by decide)).2.1.1,
    ((C29_users_lock_brackets_list_operations calm_env busy_world [3, 2, 1] 4 2 0 []
      (recording_callback 9) 77 3 busy_world_wf (fun _ _ _ _ => ⟨rfl, rfl⟩)
      (by decide)).2.1.2.2 6).2 (by decide),
    (C29_users_lock_brackets_list_operations calm_env busy_world [3, 2, 1] 4 2 0 []
      (recording_callback 9) 77 3 busy_world_wf (fun _ _ _ _ => ⟨rfl, rfl⟩)
      (by decide)).2.2.1.1,
    (C29_users_lock_brackets_list_operations calm_env busy_world [3, 2, 1] 4 2 0 []
      (recording_callback 9) 77 3 busy_world_wf (fun _ _ _ _ => ⟨rfl, rfl⟩)
      (by decide)).2.2.2.1,
    by decide, by decide, by decide, by decide, by decide⟩
end Guac
